import Mathlib

/-!
# Stellar sponsorship service

A shallow embedding of the service's core: the operation catalog and the
transaction verifier (`internal/stellar/operations.go`, `verifier.go`), the two
limiters (`internal/middleware`), the builder, the account reader and the
signer (`internal/stellar`), the sign pipeline, the API-key service and the
lifecycle service (`internal/service`), the API-key table (`internal/store`)
and the input validation (`internal/validation`), with the parts of the ledger
SDK (`txnbuild`, `xdr`, `amount`, `horizonclient`) that these files read.

Conventions.
* Go strings are `String`, Go `int`/`int64` are `Int`, slices are `List`;
  where a product or a difference of 64-bit values can leave the 64-bit range,
  the result is wrapped around (`stellar.int64`).
* A Go map used as a set (`map[string]bool`) is the membership test of the
  list it was filled from; a map from keys to values is a lookup function.
* A run-time panic (index out of range on the sponsorship stack) is the
  explicit outcome `none` / `Step.panic`.
* The SDK codec is a parameter (`txnbuild.SDK`): which envelope strings decode
  and which operations fail to re-serialise is not decided by this repository.
  Horizon, the database pool, the clock and the random source are parameters
  in the same way.
* A method with effects is a function from the state before to its result and
  the state after; where a claim is about what a method does outside itself,
  the function also returns the list of its calls to its collaborators.
-/

namespace xdr

/-- The ledger's operation type discriminant (`xdr.OperationType`). -/
inductive OperationType
  | CreateAccount
  | Payment
  | PathPaymentStrictReceive
  | ManageSellOffer
  | CreatePassiveSellOffer
  | SetOptions
  | ChangeTrust
  | AllowTrust
  | AccountMerge
  | Inflation
  | ManageData
  | BumpSequence
  | ManageBuyOffer
  | PathPaymentStrictSend
  | CreateClaimableBalance
  | ClaimClaimableBalance
  | BeginSponsoringFutureReserves
  | EndSponsoringFutureReserves
  | RevokeSponsorship
  | Clawback
  | ClawbackClaimableBalance
  | SetTrustLineFlags
  | LiquidityPoolDeposit
  | LiquidityPoolWithdraw
  | InvokeHostFunction
  | ExtendFootprintTtl
  | RestoreFootprint
  deriving DecidableEq, Repr

end xdr

namespace txnbuild

/-- An asset as the SDK exposes it: `NativeAsset` or `CreditAsset`. -/
inductive Asset
  | NativeAsset
  | CreditAsset (Code Issuer : String)
  deriving DecidableEq, Repr

/-- The method `Asset.IsNative`. -/
def Asset.IsNative : Asset → Bool
  | .NativeAsset => true
  | .CreditAsset _ _ => false

/-- A signer entry of `SetOptions`. -/
structure Signer where
  Address : String
  Weight : Nat
  deriving DecidableEq, Repr

/-- The SDK's operation values, one constructor per Go type implementing
`txnbuild.Operation`. Every constructor carries `SourceAccount` (the empty
string when unset) and the fields this repository reads. -/
inductive Operation
  | CreateAccount (SourceAccount Destination Amount : String)
  | Payment (SourceAccount Destination Amount : String) (Asset : Asset)
  | PathPaymentStrictReceive (SourceAccount : String) (SendAsset DestAsset : Asset)
  | ManageSellOffer (SourceAccount : String) (OfferID : Int)
  | CreatePassiveSellOffer (SourceAccount : String)
  | SetOptions (SourceAccount : String) (Signer : Option Signer)
      (MasterWeight LowThreshold MediumThreshold HighThreshold : Option Nat)
  | ChangeTrust (SourceAccount Limit : String)
  | AllowTrust (SourceAccount : String)
  | AccountMerge (SourceAccount : String)
  | Inflation (SourceAccount : String)
  | ManageData (SourceAccount Name : String) (Value : Option (List Nat))
  | BumpSequence (SourceAccount : String)
  | ManageBuyOffer (SourceAccount : String) (OfferID : Int)
  | PathPaymentStrictSend (SourceAccount : String) (SendAsset DestAsset : Asset)
  | CreateClaimableBalance (SourceAccount : String)
  | ClaimClaimableBalance (SourceAccount : String)
  | BeginSponsoringFutureReserves (SourceAccount SponsoredID : String)
  | EndSponsoringFutureReserves (SourceAccount : String)
  | RevokeSponsorship (SourceAccount : String)
  | Clawback (SourceAccount : String) (Asset : Asset)
  | ClawbackClaimableBalance (SourceAccount : String)
  | SetTrustLineFlags (SourceAccount : String)
  | LiquidityPoolDeposit (SourceAccount : String)
  | LiquidityPoolWithdraw (SourceAccount : String)
  | InvokeHostFunction (SourceAccount : String)
  | ExtendFootprintTtl (SourceAccount : String)
  | RestoreFootprint (SourceAccount : String)
  deriving DecidableEq, Repr

/-- The method `Operation.GetSourceAccount`. -/
def Operation.GetSourceAccount : Operation → String
  | .CreateAccount s _ _ => s
  | .Payment s _ _ _ => s
  | .PathPaymentStrictReceive s _ _ => s
  | .ManageSellOffer s _ => s
  | .CreatePassiveSellOffer s => s
  | .SetOptions s _ _ _ _ _ => s
  | .ChangeTrust s _ => s
  | .AllowTrust s => s
  | .AccountMerge s => s
  | .Inflation s => s
  | .ManageData s _ _ => s
  | .BumpSequence s => s
  | .ManageBuyOffer s _ => s
  | .PathPaymentStrictSend s _ _ => s
  | .CreateClaimableBalance s => s
  | .ClaimClaimableBalance s => s
  | .BeginSponsoringFutureReserves s _ => s
  | .EndSponsoringFutureReserves s => s
  | .RevokeSponsorship s => s
  | .Clawback s _ => s
  | .ClawbackClaimableBalance s => s
  | .SetTrustLineFlags s => s
  | .LiquidityPoolDeposit s => s
  | .LiquidityPoolWithdraw s => s
  | .InvokeHostFunction s => s
  | .ExtendFootprintTtl s => s
  | .RestoreFootprint s => s

/-- The discriminant of the XDR body that `BuildXDR` writes for an operation:
each Go operation type serialises to the body of its own type. -/
def Operation.bodyType : Operation → xdr.OperationType
  | .CreateAccount _ _ _ => .CreateAccount
  | .Payment _ _ _ _ => .Payment
  | .PathPaymentStrictReceive _ _ _ => .PathPaymentStrictReceive
  | .ManageSellOffer _ _ => .ManageSellOffer
  | .CreatePassiveSellOffer _ => .CreatePassiveSellOffer
  | .SetOptions _ _ _ _ _ _ => .SetOptions
  | .ChangeTrust _ _ => .ChangeTrust
  | .AllowTrust _ => .AllowTrust
  | .AccountMerge _ => .AccountMerge
  | .Inflation _ => .Inflation
  | .ManageData _ _ _ => .ManageData
  | .BumpSequence _ => .BumpSequence
  | .ManageBuyOffer _ _ => .ManageBuyOffer
  | .PathPaymentStrictSend _ _ _ => .PathPaymentStrictSend
  | .CreateClaimableBalance _ => .CreateClaimableBalance
  | .ClaimClaimableBalance _ => .ClaimClaimableBalance
  | .BeginSponsoringFutureReserves _ _ => .BeginSponsoringFutureReserves
  | .EndSponsoringFutureReserves _ => .EndSponsoringFutureReserves
  | .RevokeSponsorship _ => .RevokeSponsorship
  | .Clawback _ _ => .Clawback
  | .ClawbackClaimableBalance _ => .ClawbackClaimableBalance
  | .SetTrustLineFlags _ => .SetTrustLineFlags
  | .LiquidityPoolDeposit _ => .LiquidityPoolDeposit
  | .LiquidityPoolWithdraw _ => .LiquidityPoolWithdraw
  | .InvokeHostFunction _ => .InvokeHostFunction
  | .ExtendFootprintTtl _ => .ExtendFootprintTtl
  | .RestoreFootprint _ => .RestoreFootprint

/-- A V1 transaction: what `tx.SourceAccount().AccountID` and
`tx.Operations()` return. -/
structure Transaction where
  SourceAccount : String
  Operations : List Operation
  deriving DecidableEq, Repr

/-- The result of `TransactionFromXDR`: a plain transaction or a fee-bump
wrapper around one. -/
inductive GenericTransaction
  | simple (tx : Transaction)
  | feeBump (feeSource : String) (inner : Transaction)
  deriving DecidableEq, Repr

/-- The method `GenericTransaction.Transaction`: the transaction and `ok`,
`none` standing for `ok = false`. -/
def GenericTransaction.Transaction : GenericTransaction → Option Transaction
  | .simple tx => some tx
  | .feeBump _ _ => none

/-- The SDK codec, taken as a parameter: `TransactionFromXDR` decodes an
envelope string or fails with an error text, and `buildFails` tells for which
operations `BuildXDR` returns an error. -/
structure SDK where
  TransactionFromXDR : String → Except String GenericTransaction
  buildFails : Operation → Bool

/-- The method `Operation.BuildXDR`, reduced to what the verifier reads of it:
the body type, or `none` on error. -/
def Operation.BuildXDR (sdk : SDK) (op : Operation) : Option xdr.OperationType :=
  if sdk.buildFails op then none else some op.bodyType

end txnbuild

namespace model

/-- The type `model.APIKeyStatus`. -/
inductive APIKeyStatus
  | StatusPendingFunding
  | StatusActive
  | StatusRevoked
  deriving DecidableEq, Repr

/-- The type `model.APIKey`; identifiers are strings, times are seconds. -/
structure APIKey where
  ID : String
  Name : String
  KeyHash : String
  KeyPrefix : String
  SponsorAccount : String
  XLMBudget : Int
  AllowedOperations : List String
  AllowedSourceAccounts : List String
  RateLimitMax : Int
  RateLimitWindow : Int
  Status : APIKeyStatus
  ExpiresAt : Int
  CreatedAt : Int
  UpdatedAt : Int
  deriving DecidableEq, Repr

end model

namespace stellar

open txnbuild

/-- The table `operationTypeNames` read through `OperationTypeName`: the name
and whether the type is in the table (the empty name when it is not). -/
def OperationTypeName : xdr.OperationType → String × Bool
  | .CreateAccount => ("CREATE_ACCOUNT", true)
  | .ChangeTrust => ("CHANGE_TRUST", true)
  | .ManageSellOffer => ("MANAGE_SELL_OFFER", true)
  | .ManageBuyOffer => ("MANAGE_BUY_OFFER", true)
  | .SetOptions => ("SET_OPTIONS", true)
  | .ManageData => ("MANAGE_DATA", true)
  | .CreateClaimableBalance => ("CREATE_CLAIMABLE_BALANCE", true)
  | .BeginSponsoringFutureReserves => ("BEGIN_SPONSORING_FUTURE_RESERVES", true)
  | .EndSponsoringFutureReserves => ("END_SPONSORING_FUTURE_RESERVES", true)
  | _ => ("", false)

/-- The function `isStructuralOp`. -/
def isStructuralOp (opType : xdr.OperationType) : Bool :=
  opType = .BeginSponsoringFutureReserves || opType = .EndSponsoringFutureReserves

/-- The function `isXLMTransfer`. -/
def isXLMTransfer : Operation → Bool
  | .Payment _ _ _ a => a.IsNative
  | .PathPaymentStrictSend _ s d => s.IsNative || d.IsNative
  | .PathPaymentStrictReceive _ s d => s.IsNative || d.IsNative
  | .AccountMerge _ => true
  | .Inflation _ => true
  | .Clawback _ a => a.IsNative
  | _ => false

/-- The function `reservesForOperation`. -/
def reservesForOperation : Operation → Int
  | .CreateAccount _ _ _ => 2
  | .ChangeTrust _ limit => if limit = "0" then 0 else 1
  | .ManageSellOffer _ offerID => if offerID = 0 then 1 else 0
  | .ManageBuyOffer _ offerID => if offerID = 0 then 1 else 0
  | .SetOptions _ signer _ _ _ _ => if signer.isSome then 1 else 0
  | .ManageData _ _ value => if value.isSome then 1 else 0
  | .CreateClaimableBalance _ => 1
  | _ => 0

/-- The function `SupportedOperations`. -/
def SupportedOperations : List String :=
  ["CREATE_ACCOUNT", "CHANGE_TRUST", "MANAGE_SELL_OFFER", "MANAGE_BUY_OFFER",
   "SET_OPTIONS", "MANAGE_DATA", "CREATE_CLAIMABLE_BALANCE"]

/-- The type `VerifyResult`. -/
structure VerifyResult where
  Valid : Bool := false
  HTTPStatus : Int := 0
  ErrorCode : String := ""
  ErrorMessage : String := ""
  Operations : List String := []
  SourceAccount : String := ""
  ReservesLocked : Int := 0
  deriving DecidableEq, Repr

/-- The constant `http.StatusBadRequest`. -/
def StatusBadRequest : Int := 400

/-- The function `getOperationSource`. -/
def getOperationSource (op : Operation) (txSource : String) : String :=
  if op.GetSourceAccount ≠ "" then op.GetSourceAccount else txSource

/-- The function `rejectResult`. -/
def rejectResult (httpStatus : Int) (code message : String) : VerifyResult :=
  { HTTPStatus := httpStatus, ErrorCode := code, ErrorMessage := message }

/-- The function `rejectResultWithSource`. -/
def rejectResultWithSource (httpStatus : Int) (code message source : String) : VerifyResult :=
  { HTTPStatus := httpStatus, ErrorCode := code, ErrorMessage := message,
    SourceAccount := source }

/-- The variable `result` of `Verify` as step 2 initialises it; the code only
assigns to it on the way to a `return`. -/
def initResult (sourceAccount : String) : VerifyResult :=
  { SourceAccount := sourceAccount }

/-- The loop variables of `Verify`. -/
structure LoopState where
  sponsoredAccountStack : List String := []
  opNames : List String := []
  reservesLocked : Int := 0
  deriving DecidableEq, Repr

/-- What one iteration of the operation loop does: go on with the next
operation, return from `Verify`, or panic on an out-of-range index. -/
inductive Step
  | next (s : LoopState)
  | ret (r : VerifyResult)
  | panic
  deriving DecidableEq, Repr

/-- The map `allowedOps` of `Verify`, as a membership test. -/
def allowedOps (apiKey : model.APIKey) (opName : String) : Bool :=
  decide (opName ∈ apiKey.AllowedOperations)

/-- The map `allowedSources` of `Verify`: `none` is the nil map of a key with
no allowed source accounts. -/
def allowedSources (apiKey : model.APIKey) : Option (String → Bool) :=
  if apiKey.AllowedSourceAccounts.length > 0 then
    some (fun src => decide (src ∈ apiKey.AllowedSourceAccounts))
  else none

/-- Step 4b of the loop body for an operation whose body type is
`BEGIN_SPONSORING_FUTURE_RESERVES` (verifier.go lines 111 to 137). -/
def verifyBegin (apiKey : model.APIKey) (sourceAccount : String)
    (s : LoopState) (op : Operation) : Step :=
  match op with
  | .BeginSponsoringFutureReserves _ sponsoredID =>
    if getOperationSource op sourceAccount ≠ apiKey.SponsorAccount then
      .ret { initResult sourceAccount with
        ErrorCode := "invalid_sponsor"
        ErrorMessage := "BEGIN_SPONSORING_FUTURE_RESERVES source must be the sponsor account (" ++
          apiKey.SponsorAccount ++ "), got " ++ getOperationSource op sourceAccount
        HTTPStatus := StatusBadRequest
        SourceAccount := sourceAccount }
    else if sponsoredID = "" then
      .ret (rejectResultWithSource StatusBadRequest "invalid_transaction"
        "BEGIN_SPONSORING_FUTURE_RESERVES missing SponsoredID" sourceAccount)
    else
      .next { s with sponsoredAccountStack := s.sponsoredAccountStack ++ [sponsoredID] }
  | _ =>
    .ret (rejectResultWithSource StatusBadRequest "invalid_transaction"
      "Failed to parse BEGIN_SPONSORING_FUTURE_RESERVES operation" sourceAccount)

/-- Step 4b of the loop body for an operation whose body type is
`END_SPONSORING_FUTURE_RESERVES` (verifier.go lines 139 to 146). The slice
expression `stack[:len(stack)-1]` panics when the stack is empty. -/
def verifyEnd (sourceAccount : String) (s : LoopState) : Step :=
  if s.sponsoredAccountStack.length = 0 then
    .ret (rejectResultWithSource StatusBadRequest "invalid_transaction"
      "END_SPONSORING_FUTURE_RESERVES without matching BEGIN" sourceAccount)
  else if s.sponsoredAccountStack.length < 1 then .panic
  else
    .next { s with sponsoredAccountStack :=
      s.sponsoredAccountStack.take (s.sponsoredAccountStack.length - 1) }

/-- Steps 4c to 4f of the loop body, for a non-structural operation of body
type `opType` and effective source `opSource` (verifier.go lines 148 to 200).
The index expression `stack[len(stack)-1]` panics when the stack is empty. -/
def verifyPayload (apiKey : model.APIKey) (sourceAccount : String)
    (s : LoopState) (op : Operation) (opType : xdr.OperationType) (opSource : String) : Step :=
  if isXLMTransfer op then
    .ret (rejectResultWithSource StatusBadRequest "xlm_transfer_detected"
      "Transaction attempts to transfer native XLM — this is not allowed" sourceAccount)
  else if ¬ (OperationTypeName opType).2 then
    .ret (rejectResultWithSource StatusBadRequest "disallowed_operation"
      "Unknown or unsupported operation type" sourceAccount)
  else if ¬ allowedOps apiKey (OperationTypeName opType).1 then
    .ret { initResult sourceAccount with
      ErrorCode := "disallowed_operation"
      ErrorMessage := "Operation " ++ (OperationTypeName opType).1 ++
        " is not allowed for this API key"
      HTTPStatus := StatusBadRequest
      SourceAccount := sourceAccount }
  else if s.sponsoredAccountStack.length = 0 then
    .ret { initResult sourceAccount with
      ErrorCode := "invalid_transaction"
      ErrorMessage := "Operation " ++ (OperationTypeName opType).1 ++
        " must be wrapped in BEGIN_SPONSORING_FUTURE_RESERVES / END_SPONSORING_FUTURE_RESERVES"
      HTTPStatus := StatusBadRequest
      SourceAccount := sourceAccount }
  else
    match s.sponsoredAccountStack[s.sponsoredAccountStack.length - 1]? with
    | none => .panic
    | some activeSponsoredID =>
      if opSource ≠ activeSponsoredID then
        .ret (rejectResultWithSource StatusBadRequest "invalid_transaction"
          ("Operation source " ++ opSource ++ " does not match SponsoredID " ++
            activeSponsoredID ++ " in active BEGIN_SPONSORING_FUTURE_RESERVES block")
          sourceAccount)
      else if (match allowedSources apiKey with
          | some allowed => ! allowed opSource
          | none => false) then
        .ret { initResult sourceAccount with
          ErrorCode := "disallowed_operation"
          ErrorMessage := "Operation source account " ++ opSource ++
            " is not in the allowed list"
          HTTPStatus := StatusBadRequest
          SourceAccount := sourceAccount }
      else
        .next { s with
          opNames := s.opNames ++ [(OperationTypeName opType).1]
          reservesLocked := s.reservesLocked + reservesForOperation op }

/-- The body of the operation loop of `Verify` (steps 4a to 4f), for the
operation `op` at index `i`. -/
def verifyOp (sdk : SDK) (apiKey : model.APIKey) (sourceAccount : String)
    (s : LoopState) (i : Nat) (op : Operation) : Step :=
  match op.BuildXDR sdk with
  | none =>
    .ret (rejectResultWithSource StatusBadRequest "invalid_transaction"
      ("Failed to build XDR for operation " ++ toString i) sourceAccount)
  | some opType =>
    if getOperationSource op sourceAccount = apiKey.SponsorAccount ∧
        opType ≠ .BeginSponsoringFutureReserves then
      .ret { initResult sourceAccount with
        ErrorCode := "sponsor_as_source"
        ErrorMessage := "Operation uses the sponsor account as source — this is not allowed"
        HTTPStatus := StatusBadRequest }
    else if opType = .BeginSponsoringFutureReserves then
      verifyBegin apiKey sourceAccount s op
    else if opType = .EndSponsoringFutureReserves then
      verifyEnd sourceAccount s
    else
      verifyPayload apiKey sourceAccount s op opType
        (getOperationSource op sourceAccount)

/-- The operation loop of `Verify` (step 4), from index `i` on: it stops at
the first iteration that returns or panics. -/
def verifyLoop (sdk : SDK) (apiKey : model.APIKey) (sourceAccount : String) :
    LoopState → Nat → List Operation → Step
  | s, _, [] => .next s
  | s, i, op :: rest =>
    match verifyOp sdk apiKey sourceAccount s i op with
    | .next s' => verifyLoop sdk apiKey sourceAccount s' (i + 1) rest
    | .ret r => .ret r
    | .panic => .panic

/-- The part of `Verify` that follows decoding (steps 2 to the end), on the
decoded V1 transaction; `none` is a panic. -/
def verifyTx (sdk : SDK) (apiKey : model.APIKey) (tx : Transaction) : Option VerifyResult :=
  let sourceAccount := tx.SourceAccount
  if sourceAccount = apiKey.SponsorAccount then
    some { initResult sourceAccount with
      ErrorCode := "sponsor_as_source"
      ErrorMessage := "Transaction source account matches the sponsor account — this is not allowed"
      HTTPStatus := StatusBadRequest }
  else
    let ops := tx.Operations
    if ops.length = 0 then
      some (rejectResult StatusBadRequest "invalid_transaction"
        "Transaction must contain at least one operation")
    else
      match verifyLoop sdk apiKey sourceAccount {} 0 ops with
      | .panic => none
      | .ret r => some r
      | .next s =>
        if s.sponsoredAccountStack.length ≠ 0 then
          some (rejectResultWithSource StatusBadRequest "invalid_transaction"
            "Unmatched BEGIN_SPONSORING_FUTURE_RESERVES — missing END" sourceAccount)
        else
          if (match allowedSources apiKey with
              | some allowed => ! allowed sourceAccount
              | none => false) then
            some (rejectResultWithSource StatusBadRequest "disallowed_operation"
              ("Transaction source account " ++ sourceAccount ++ " is not in the allowed list")
              sourceAccount)
          else
            some { Valid := true, Operations := s.opNames, SourceAccount := sourceAccount,
                   ReservesLocked := s.reservesLocked }

/-- The method `Verifier.Verify`; `none` is a panic. The receiver's only field,
the network passphrase, is not read by the method. -/
def Verify (sdk : SDK) (txXDR : String) (apiKey : model.APIKey) : Option VerifyResult :=
  match sdk.TransactionFromXDR txXDR with
  | .error err =>
    some (rejectResult StatusBadRequest "invalid_transaction"
      ("Failed to decode transaction XDR: " ++ err))
  | .ok genericTx =>
    match genericTx.Transaction with
    | none =>
      some (rejectResult StatusBadRequest "invalid_transaction"
        "Only V1 transaction envelopes are supported (not fee bump transactions)")
    | some tx => verifyTx sdk apiKey tx

/-- A rejection as `Verify` returns it for a transaction source `src` that it
has read: not valid, status 400, an error code, no accounting. -/
def Rejected (src : String) (r : VerifyResult) : Prop :=
  r.Valid = false ∧ r.HTTPStatus = 400 ∧ r.ErrorCode ≠ "" ∧ r.SourceAccount = src ∧
    r.Operations = [] ∧ r.ReservesLocked = 0

/-- The non-structural ("payload") operations of a list, in order: those that
are neither BEGIN_ nor END_SPONSORING_FUTURE_RESERVES. -/
def payloadOps (ops : List Operation) : List Operation :=
  ops.filter (fun op => ! isStructuralOp op.bodyType)

/-- The canonical name of an operation: the name `OperationTypeName` gives for
its body type. -/
def canonicalName (op : Operation) : String :=
  (OperationTypeName op.bodyType).1

/-- The bracket reading of an operation list from a stack `st`: BEGIN pushes
its sponsored id, END pops, any other operation leaves the stack alone. The
result is the stack after the last operation, or `none` when some END meets an
empty stack. -/
def bracket : List String → List Operation → Option (List String)
  | st, [] => some st
  | st, op :: rest =>
    match op with
    | .BeginSponsoringFutureReserves _ sponsoredID => bracket (st ++ [sponsoredID]) rest
    | .EndSponsoringFutureReserves _ => if st = [] then none else bracket st.dropLast rest
    | _ => bracket st rest

/-- The test `strings.Contains(s, substr)` used by the verifier's tests. -/
def Contains (s substr : String) : Prop :=
  substr.data <:+: s.data

instance (s substr : String) : Decidable (Contains s substr) := by
  unfold Contains
  infer_instance

/-! ### Concrete inputs -/

/-- A codec that decodes every envelope string to the V1 transaction `tx` and
re-serialises every operation. -/
def codecOf (tx : Transaction) : SDK :=
  { TransactionFromXDR := fun _ => .ok (.simple tx), buildFails := fun _ => false }

/-- An active API key with sponsor account `SPONSOR`, the given allowed
operations and the given allowed source accounts. -/
def keyOf (allowedOperations allowedSourceAccounts : List String) : model.APIKey :=
  { ID := "key-1", Name := "tenant", KeyHash := "", KeyPrefix := "", SponsorAccount := "SPONSOR",
    XLMBudget := 100000000, AllowedOperations := allowedOperations,
    AllowedSourceAccounts := allowedSourceAccounts, RateLimitMax := 100,
    RateLimitWindow := 60, Status := .StatusActive, ExpiresAt := 86400,
    CreatedAt := 0, UpdatedAt := 0 }

/-- The transaction of the test that accepts a matching operation source:
source `ALICE`, and BEGIN by the sponsor for `ALICE`, a MANAGE_DATA by `ALICE`,
END by `ALICE`. -/
def txSponsoredData : Transaction :=
  { SourceAccount := "ALICE",
    Operations := [.BeginSponsoringFutureReserves "SPONSOR" "ALICE",
      .ManageData "ALICE" "k" (some [118]),
      .EndSponsoringFutureReserves "ALICE"] }

/-- The transaction of the test that rejects a mismatching operation source:
as `txSponsoredData`, with the MANAGE_DATA sourced by `MALLORY`. -/
def txMismatch : Transaction :=
  { SourceAccount := "ALICE",
    Operations := [.BeginSponsoringFutureReserves "SPONSOR" "ALICE",
      .ManageData "MALLORY" "k" (some [118]),
      .EndSponsoringFutureReserves "ALICE"] }

/-- A sponsorship block around a native PAYMENT by the sponsored account. -/
def txNativePayment : Transaction :=
  { SourceAccount := "ALICE",
    Operations := [.BeginSponsoringFutureReserves "SPONSOR" "ALICE",
      .Payment "ALICE" "BOB" "1.0000000" .NativeAsset,
      .EndSponsoringFutureReserves "ALICE"] }

/-- A single native PAYMENT whose explicit source is the sponsor account. -/
def txPaymentBySponsor : Transaction :=
  { SourceAccount := "ALICE",
    Operations := [.Payment "SPONSOR" "BOB" "1.0000000" .NativeAsset] }

/-- An END with no BEGIN, followed by a MANAGE_DATA sourced by the sponsor
account. -/
def txEndThenSponsorData : Transaction :=
  { SourceAccount := "ALICE",
    Operations := [.EndSponsoringFutureReserves "ALICE",
      .ManageData "SPONSOR" "k" (some [118])] }

/-- A codec that decodes the envelope string `first` to the V1 transaction `a`
and every other string to `b`, and re-serialises every operation. -/
def codecPair (a b : Transaction) : SDK :=
  { TransactionFromXDR := fun e => if e = "first" then .ok (.simple a) else .ok (.simple b),
    buildFails := fun _ => false }

/-- The rejected transaction `txMismatch` cut after its MANAGE_DATA and
continued with an END and a CREATE_ACCOUNT. -/
def txMismatchThenA : Transaction :=
  { SourceAccount := "ALICE",
    Operations := [.BeginSponsoringFutureReserves "SPONSOR" "ALICE",
      .ManageData "MALLORY" "k" (some [118]),
      .EndSponsoringFutureReserves "ALICE",
      .CreateAccount "ALICE" "BOB" "1.0000000"] }

/-- As `txMismatchThenA`, with the two operations after the MANAGE_DATA
swapped. -/
def txMismatchThenB : Transaction :=
  { SourceAccount := "ALICE",
    Operations := [.BeginSponsoringFutureReserves "SPONSOR" "ALICE",
      .ManageData "MALLORY" "k" (some [118]),
      .CreateAccount "ALICE" "BOB" "1.0000000",
      .EndSponsoringFutureReserves "ALICE"] }

/-- A BEGIN by the sponsor for `ALICE` followed by a MANAGE_DATA sourced by the
sponsor account. -/
def txSponsorData : Transaction :=
  { SourceAccount := "ALICE",
    Operations := [.BeginSponsoringFutureReserves "SPONSOR" "ALICE",
      .ManageData "SPONSOR" "k" (some [118]),
      .EndSponsoringFutureReserves "ALICE"] }

end stellar

namespace stellar

/-! ### Arithmetic in 64 bits -/

/-- The value an `int64` holds after an arithmetic operation whose exact
result is `x`: signed 64-bit arithmetic wraps around. Since wrapping commutes
with `+`, `-` and `*`, wrapping the exact value of an expression is wrapping
after each of its operations. -/
def int64 (x : Int) : Int :=
  (x + 9223372036854775808) % 18446744073709551616 - 9223372036854775808

/-- Whether an exact value is in the range of an `int64`. -/
def fitsInt64 (x : Int) : Prop :=
  -9223372036854775808 ≤ x ∧ x ≤ 9223372036854775807

instance (x : Int) : Decidable (fitsInt64 x) := by
  unfold fitsInt64
  infer_instance

end stellar

namespace time

/-- The constant `time.Second`, in nanoseconds. Instants (`time.Time`) are
integers counting nanoseconds from Go's zero `Time`, durations are integers
counting nanoseconds, and a reading of the clock (`time.Now()`) is a natural
number: the clock reads no instant before the zero `Time`. `Add`, `Sub`,
`After` and `Before` are exact integer arithmetic and comparison (Go saturates
`Sub` at about 292 years, beyond every threshold compared with here). A product
of durations is a product in `int64` and wraps around (`stellar.int64`). -/
def Second : Int := 1000000000

/-- The constant `time.Minute`. -/
def Minute : Int := 60 * Second

/-- The constant `time.Hour`. -/
def Hour : Int := 60 * Minute

end time

namespace middleware

/-! ### The per-key rate limiter (`ratelimit.go`) -/

/-- The type `window` of `ratelimit.go`. -/
structure window where
  count : Int
  windowStart : Int
  resetAt : Int
  lastSeen : Int
  deriving DecidableEq, Repr

/-- The type `RateLimiter`: the map `counters`, as a lookup function, and
`lastCleanup`. The mutex is held throughout every method, so a method is a
function from the state before to the state after. -/
structure RateLimiter where
  counters : String → Option window
  lastCleanup : Int

/-- The constant `cleanupInterval`. -/
def cleanupInterval : Int := 5 * time.Minute

/-- The constant `expiredWindowGrace`. -/
def expiredWindowGrace : Int := 10 * time.Minute

/-- The constant `staleEntryTTL`. -/
def staleEntryTTL : Int := 24 * time.Hour

/-- The function `NewRateLimiter`, at the clock reading `now`. -/
def NewRateLimiter (now : Nat) : RateLimiter :=
  { counters := fun _ => none, lastCleanup := now }

/-- The condition under which `RateLimiter.cleanupLocked` deletes an entry. -/
def window.evicted (w : window) (now : Int) : Bool :=
  decide (now - w.lastSeen > staleEntryTTL) || decide (now > w.resetAt + expiredWindowGrace)

/-- The method `RateLimiter.cleanupLocked`. -/
def RateLimiter.cleanupLocked (rl : RateLimiter) (now : Int) : RateLimiter :=
  if now - rl.lastCleanup < cleanupInterval then rl
  else
    { counters := fun keyID =>
        match rl.counters keyID with
        | some w => if w.evicted now then none else some w
        | none => none
      lastCleanup := now }

/-- The assignment `rl.counters[keyID] = w` (also the effect of writing through
the pointer stored in the map). -/
def RateLimiter.set (rl : RateLimiter) (keyID : String) (w : window) : RateLimiter :=
  { rl with counters := fun k => if k = keyID then some w else rl.counters k }

/-- The method `RateLimiter.Allow` at the clock reading `now`: the triple
`(allowed, remaining, resetAt)` and the limiter after the call. The window's
length `time.Duration(apiKey.RateLimitWindow) * time.Second` is a product in
`int64`. -/
def RateLimiter.Allow (rl : RateLimiter) (apiKey : model.APIKey) (now : Nat) :
    (Bool × Int × Int) × RateLimiter :=
  let keyID := apiKey.ID
  let windowDuration := stellar.int64 (apiKey.RateLimitWindow * time.Second)
  let fresh : (Bool × Int × Int) × RateLimiter :=
    ((true, apiKey.RateLimitMax - 1, now + windowDuration),
     (rl.set keyID { count := 1, windowStart := now, resetAt := now + windowDuration,
                     lastSeen := now }).cleanupLocked now)
  match rl.counters keyID with
  | none => fresh
  | some w =>
    if (now : Int) > w.resetAt then fresh
    else if w.count ≥ apiKey.RateLimitMax then
      ((false, 0, w.resetAt), (rl.set keyID { w with lastSeen := now }).cleanupLocked now)
    else
      ((true, apiKey.RateLimitMax - (w.count + 1), w.resetAt),
       (rl.set keyID { w with lastSeen := now, count := w.count + 1 }).cleanupLocked now)

/-- The method `RateLimiter.Remaining` at the clock reading `now`: the value
returned and the limiter after the call. -/
def RateLimiter.Remaining (rl : RateLimiter) (apiKey : model.APIKey) (now : Nat) :
    Int × RateLimiter :=
  let keyID := apiKey.ID
  match rl.counters keyID with
  | none => (apiKey.RateLimitMax, rl.cleanupLocked now)
  | some w =>
    if (now : Int) > w.resetAt then (apiKey.RateLimitMax, rl.cleanupLocked now)
    else if apiKey.RateLimitMax - w.count < 0 then
      (0, (rl.set keyID { w with lastSeen := now }).cleanupLocked now)
    else
      (apiKey.RateLimitMax - w.count,
       (rl.set keyID { w with lastSeen := now }).cleanupLocked now)

/-- A run of `Allow` calls for one key at the clock readings `times`, in
order: the triples returned and the limiter after the last call. -/
def RateLimiter.allowAll (rl : RateLimiter) (apiKey : model.APIKey) :
    List Nat → List (Bool × Int × Int) × RateLimiter
  | [] => ([], rl)
  | now :: rest =>
    let step := rl.Allow apiKey now
    let tail := RateLimiter.allowAll step.2 apiKey rest
    (step.1 :: tail.1, tail.2)

/-- Of the calls made at `times` with results `results`, the number that were
allowed at a clock reading in the interval from `lo` to `hi`. -/
def allowedWithin (lo hi : Nat) (times : List Nat) (results : List (Bool × Int × Int)) : Nat :=
  ((times.zip results).filter (fun p => p.2.1 && decide (lo ≤ p.1) && decide (p.1 ≤ hi))).length

/-! ### The authentication-failure limiter (`auth_attempt_limiter.go`) -/

/-- The type `authAttempt`. A field left out of a composite literal holds the
zero `Time`, which is the instant 0. -/
structure authAttempt where
  failures : Int
  windowStart : Int
  blockedUntil : Int
  lastSeen : Int
  deriving DecidableEq, Repr

/-- The type `AuthAttemptLimiter`; the map `entries` is a lookup function. -/
structure AuthAttemptLimiter where
  entries : String → Option authAttempt
  maxFailures : Int
  window : Int
  blockDuration : Int
  lastCleanup : Int
  cleanupEvery : Int
  staleEntryTTL : Int

/-- The function `NewAuthAttemptLimiter`, at the clock reading `now`. -/
def NewAuthAttemptLimiter (maxFailures window blockDuration : Int) (now : Nat) :
    AuthAttemptLimiter :=
  { entries := fun _ => none
    maxFailures := if maxFailures ≤ 0 then 5 else maxFailures
    window := if window ≤ 0 then 5 * time.Minute else window
    blockDuration := if blockDuration ≤ 0 then 15 * time.Minute else blockDuration
    lastCleanup := now
    cleanupEvery := 5 * time.Minute
    staleEntryTTL := 24 * time.Hour }

/-- The method `AuthAttemptLimiter.cleanupLocked`. -/
def AuthAttemptLimiter.cleanupLocked (l : AuthAttemptLimiter) (now : Int) :
    AuthAttemptLimiter :=
  if now - l.lastCleanup < l.cleanupEvery then l
  else
    { l with
      entries := fun key =>
        match l.entries key with
        | some entry =>
          if now - entry.lastSeen > l.staleEntryTTL ∧ now > entry.blockedUntil then none
          else some entry
        | none => none
      lastCleanup := now }

/-- The assignment `l.entries[key] = entry` (also the effect of writing
through the pointer stored in the map). -/
def AuthAttemptLimiter.set (l : AuthAttemptLimiter) (key : String) (entry : authAttempt) :
    AuthAttemptLimiter :=
  { l with entries := fun k => if k = key then some entry else l.entries k }

/-- The method `AuthAttemptLimiter.allow` at the clock reading `now`: the
answer and the limiter after the call. -/
def AuthAttemptLimiter.allow (l : AuthAttemptLimiter) (key : String) (now : Nat) :
    Bool × AuthAttemptLimiter :=
  match l.entries key with
  | none => (true, l.cleanupLocked now)
  | some entry =>
    if (now : Int) < entry.blockedUntil then
      (false, (l.set key { entry with lastSeen := now }).cleanupLocked now)
    else if (now : Int) - entry.windowStart > l.window then
      (true, (l.set key { entry with lastSeen := now, failures := 0, windowStart := now }).cleanupLocked
        now)
    else
      (true, (l.set key { entry with lastSeen := now }).cleanupLocked now)

/-- The method `AuthAttemptLimiter.registerFailure` at the clock reading
`now`. -/
def AuthAttemptLimiter.registerFailure (l : AuthAttemptLimiter) (key : String) (now : Nat) :
    AuthAttemptLimiter :=
  match l.entries key with
  | none =>
    (l.set key { failures := 1, windowStart := now, blockedUntil := 0,
                 lastSeen := now }).cleanupLocked now
  | some entry =>
    let rolled : authAttempt :=
      if (now : Int) - entry.windowStart > l.window then
        { entry with lastSeen := now, windowStart := now, failures := 0 }
      else { entry with lastSeen := now }
    let counted : authAttempt := { rolled with failures := rolled.failures + 1 }
    let blocked : authAttempt :=
      if counted.failures ≥ l.maxFailures then
        { counted with blockedUntil := now + l.blockDuration, failures := 0, windowStart := now }
      else counted
    (l.set key blocked).cleanupLocked now

/-- The method `AuthAttemptLimiter.registerSuccess` at the clock reading
`now`. -/
def AuthAttemptLimiter.registerSuccess (l : AuthAttemptLimiter) (key : String) (now : Nat) :
    AuthAttemptLimiter :=
  ({ l with entries := fun k => if k = key then none else l.entries k }).cleanupLocked now

/-- A run of `registerFailure` calls for one key at the clock readings
`times`, in order. -/
def AuthAttemptLimiter.registerFailures (l : AuthAttemptLimiter) (key : String) :
    List Nat → AuthAttemptLimiter
  | [] => l
  | now :: rest => AuthAttemptLimiter.registerFailures (l.registerFailure key now) key rest

/-- A run of `allow` calls for one key at the clock readings `times`, in
order: the answers and the limiter after the last call. -/
def AuthAttemptLimiter.allows (l : AuthAttemptLimiter) (key : String) :
    List Nat → List Bool × AuthAttemptLimiter
  | [] => ([], l)
  | now :: rest =>
    let step := l.allow key now
    let tail := AuthAttemptLimiter.allows step.2 key rest
    (step.1 :: tail.1, tail.2)

/-- What `NewAuthAttemptLimiter` establishes and no method changes: positive
parameters, a cleanup every 5 min and a stale-entry age of 24 h. -/
def AuthAttemptLimiter.Built (l : AuthAttemptLimiter) : Prop :=
  0 < l.maxFailures ∧ 0 < l.window ∧ 0 < l.blockDuration ∧
    l.cleanupEvery = 5 * time.Minute ∧ l.staleEntryTTL = 24 * time.Hour

/-! ### Concrete inputs -/

/-- An API key with id `key-1` and the given rate limit: at most `max` calls
per window of `windowSeconds` seconds. -/
def keyRate (max windowSeconds : Int) : model.APIKey :=
  { stellar.keyOf [] [] with RateLimitMax := max, RateLimitWindow := windowSeconds }

/-- The limiter of the cleanup test at the clock reading 200000 s: one entry
`stale`, last seen 48 h earlier, whose window ended 24 h earlier, and a last
cleanup 5 min and 1 s earlier. -/
def staleLimiter : RateLimiter :=
  { counters := fun k =>
      if k = "stale" then
        some { count := 1, windowStart := 27200 * time.Second, resetAt := 113600 * time.Second,
               lastSeen := 27200 * time.Second }
      else none
    lastCleanup := 199699 * time.Second }

/-- A limiter holding a live window for `key-1`: one call counted, opened at
the instant 0 and ending at 10 s. -/
def liveLimiter : RateLimiter :=
  { counters := fun k =>
      if k = "key-1" then
        some { count := 1, windowStart := 0, resetAt := 10 * time.Second, lastSeen := 0 }
      else none
    lastCleanup := 0 }

/-- The limiter of the blocking test, built at the clock reading 0: three
failures, a window of one minute, a block of 150 ms. -/
def limiter3 : AuthAttemptLimiter :=
  NewAuthAttemptLimiter 3 time.Minute 150000000 0

/-- The limiter of the reset test, built at the clock reading 0: two failures,
a window and a block of one minute. -/
def limiter2 : AuthAttemptLimiter :=
  NewAuthAttemptLimiter 2 time.Minute time.Minute 0

end middleware

namespace amount

/-! ### The SDK's `amount` package -/

/-- The most significant first decimal digits of `n`, without leading zeros
(`0` for zero); `fuel` bounds the number of digits after the first. -/
def natDigits : Nat → Nat → List Char
  | 0, n => [Nat.digitChar (n % 10)]
  | fuel + 1, n =>
    if n < 10 then [Nat.digitChar n]
    else natDigits fuel (n / 10) ++ [Nat.digitChar (n % 10)]

/-- The `k` lowest decimal digits of `n`, most significant first, zeros
included. -/
def fixedDigits : Nat → Nat → List Char
  | 0, _ => []
  | k + 1, n => fixedDigits k (n / 10) ++ [Nat.digitChar (n % 10)]

/-- The number a list of decimal digit characters, most significant first,
denotes after the digits already read as `acc`; `none` when a character is no
digit. -/
def digitsValue : List Char → Nat → Option Nat
  | [], acc => some acc
  | c :: cs, acc =>
    if c.isDigit then digitsValue cs (acc * 10 + (c.toNat - 48)) else none

/-- Modelled from the spec: the SDK function `amount.StringFromInt64`, which is
not under `src/`. It renders a count of base units (1/10 000 000 of the native
unit) as a decimal string with exactly seven fractional digits, as
`big.Rat.FloatString(7)` does: a minus sign for a negative count, the whole
part without leading zeros, a point, seven digits. -/
def StringFromInt64 (v : Int) : String :=
  String.mk ((if v < 0 then ['-'] else []) ++
    natDigits (v.natAbs / 10000000) (v.natAbs / 10000000) ++
    '.' :: fixedDigits 7 (v.natAbs % 10000000))

/-- The count of base units that an unsigned decimal string `body` denotes
(digits with at most one point), or the error `amount.ParseInt64` fails with
on the string `v` it is part of. -/
def parseUnsigned (v : String) (body : List Char) : Except String Nat :=
  if body = [] ∨ ¬ body.all (fun c => c.isDigit || c = '.') then
    .error ("invalid amount format: " ++ v)
  else
    let whole := body.takeWhile (fun c => c != '.')
    let frac := (body.dropWhile (fun c => c != '.')).tail
    if frac.any (fun c => c = '.') ∨ (whole = [] ∧ frac = []) then
      .error ("cannot parse amount: " ++ v)
    else
      match digitsValue (whole ++ frac) 0 with
      | none => .error ("cannot parse amount: " ++ v)
      | some n =>
        if ¬ 10 ^ frac.length ∣ n * 10000000 then
          .error ("more than 7 significant digits: " ++ v)
        else .ok (n * 10000000 / 10 ^ frac.length)

/-- Modelled from the spec: the SDK function `amount.ParseInt64`, which is not
under `src/`. It reads a decimal string (an optional minus sign, digits, at
most one point) as a count of base units and fails on any other character, on
a string without a digit, on a value that is no whole number of base units and
on a count outside the 64-bit range. -/
def ParseInt64 (v : String) : Except String Int :=
  let negative : Bool := v.data.head? = some '-'
  match parseUnsigned v (if negative then v.data.tail else v.data) with
  | .error err => .error err
  | .ok magnitude =>
    let i : Int := if negative then -(magnitude : Int) else magnitude
    if i < -9223372036854775808 ∨ 9223372036854775807 < i then
      .error ("amount outside bounds of int64: " ++ v)
    else .ok i

end amount

namespace keypair

/-- The type `keypair.Full`, reduced to what the builder reads: the address
(`Address()`) and the seed. -/
structure Full where
  address : String
  seed : String
  deriving DecidableEq, Repr

/-- The method `Full.Address`. -/
def Full.Address (kp : Full) : String := kp.address

end keypair

namespace horizonclient

/-- One line of an account's balances (`horizon.Balance`), reduced to the
balance string and the asset type (`b.Asset.Type`). -/
structure BalanceLine where
  Balance : String
  AssetType : String
  deriving DecidableEq, Repr

/-- The account details Horizon answers with (`horizon.Account`), reduced to
the account id, the sequence number, the three counts that decide the minimum
balance and the balances. In the SDK `SubentryCount` is an `int32` and
`NumSponsoring`, `NumSponsored` are `uint32`. -/
structure Account where
  AccountID : String
  Sequence : Int
  SubentryCount : Int := 0
  NumSponsoring : Int := 0
  NumSponsored : Int := 0
  Balances : List BalanceLine := []
  deriving DecidableEq, Repr

/-- The ranges of the three counts of an account: a signed and two unsigned
32-bit integers. -/
def Account.Counts32 (a : Account) : Prop :=
  -2147483648 ≤ a.SubentryCount ∧ a.SubentryCount ≤ 2147483647 ∧
    0 ≤ a.NumSponsoring ∧ a.NumSponsoring ≤ 4294967295 ∧
    0 ≤ a.NumSponsored ∧ a.NumSponsored ≤ 4294967295

/-- The type `horizonclient.Client`, taken as a parameter: what
`AccountDetail` answers for an account id, or the error it fails with, and the
hash of the response of `SubmitTransactionXDR` to an envelope, or the error it
fails with. -/
structure Client where
  AccountDetail : String → Except String Account
  SubmitTransactionXDR : String → Except String String

/-- Horizon answers `AccountDetail` with the details of the account asked
for. -/
def Client.Answers (c : Client) : Prop :=
  ∀ id account, c.AccountDetail id = .ok account → account.AccountID = id

end horizonclient

namespace txnbuild

/-- The transaction-building side of the SDK, taken as a parameter on top of
the codec: the validation error of `NewTransaction`, if any, `HashHex`, the
error of attaching a signature, if any, `Base64`, and the constant
`MinBaseFee`. -/
structure Toolkit extends SDK where
  newTransactionError : Transaction → Option String
  HashHex : Transaction → String → Except String String
  signError : Transaction → keypair.Full → Option String
  Base64 : Transaction → Except String String
  MinBaseFee : Int

/-- The function `NewTransaction`: the transaction with the source account's id
and the given operations, or the validation error. -/
def NewTransaction (sdk : Toolkit) (sourceAccount : horizonclient.Account)
    (operations : List Operation) : Except String Transaction :=
  match sdk.newTransactionError ⟨sourceAccount.AccountID, operations⟩ with
  | some err => .error err
  | none => .ok ⟨sourceAccount.AccountID, operations⟩

/-- The method `Transaction.Sign`: it hashes the transaction under the network
passphrase, fails if that fails, and attaches the signature, which is no part
of the transaction's source and operations. -/
def Transaction.Sign (sdk : Toolkit) (tx : Transaction) (network : String)
    (kp : keypair.Full) : Except String Transaction :=
  match sdk.HashHex tx network with
  | .error err => .error err
  | .ok _ =>
    match sdk.signError tx kp with
    | some err => .error err
    | none => .ok tx

/-- The codec decodes the envelope it makes of the transaction `tx` to `tx`.
This is a property of one transaction, not of the codec: the SDK renders
amounts anew when it decodes, so that a transaction whose amounts are not in
the rendered form, the one `amount.StringFromInt64` returns, does not come back
as it was. -/
def Toolkit.RoundTripsAt (sdk : Toolkit) (tx : Transaction) : Prop :=
  ∀ xdr, sdk.Base64 tx = .ok xdr → sdk.TransactionFromXDR xdr = .ok (.simple tx)

end txnbuild

namespace stellar

open txnbuild

/-- The type `Builder`. -/
structure Builder where
  horizonClient : horizonclient.Client
  signingPublicKey : String
  masterPublicKey : String
  networkPassphrase : String

/-- The five operations of the activation transaction that
`BuildCreateSponsorAccount` hands to `NewTransaction`. -/
def activateOperations (b : Builder) (sponsorAddress : String) (xlmBudget : Int) :
    List Operation :=
  [.BeginSponsoringFutureReserves "" sponsorAddress,
   .CreateAccount "" sponsorAddress (amount.StringFromInt64 xlmBudget),
   .SetOptions sponsorAddress (some { Address := b.signingPublicKey, Weight := 1 })
      none none none none,
   .SetOptions sponsorAddress (some { Address := b.masterPublicKey, Weight := 1 })
      (some 0) (some 1) (some 1) (some 1),
   .EndSponsoringFutureReserves sponsorAddress]

/-- The method `Builder.BuildCreateSponsorAccount`. -/
def Builder.BuildCreateSponsorAccount (b : Builder) (sdk : Toolkit) (sponsorKP : keypair.Full)
    (xlmBudget : Int) : Except String String :=
  let sponsorAddress := sponsorKP.Address
  match b.horizonClient.AccountDetail b.masterPublicKey with
  | .error err => .error ("load master account: " ++ err)
  | .ok masterAccount =>
    match NewTransaction sdk masterAccount (activateOperations b sponsorAddress xlmBudget) with
    | .error err => .error ("build create sponsor account tx: " ++ err)
    | .ok tx =>
      match tx.Sign sdk b.networkPassphrase sponsorKP with
      | .error err => .error ("sign create sponsor account tx: " ++ err)
      | .ok signed =>
        match sdk.Base64 signed with
        | .error err => .error ("encode transaction: " ++ err)
        | .ok xdr => .ok xdr

/-- The method `Builder.BuildFundTransaction`. -/
def Builder.BuildFundTransaction (b : Builder) (sdk : Toolkit) (sponsorAccount : String)
    (fundAmount : Int) : Except String String :=
  match b.horizonClient.AccountDetail b.masterPublicKey with
  | .error err => .error ("load master account: " ++ err)
  | .ok masterAccount =>
    match NewTransaction sdk masterAccount
        [.Payment "" sponsorAccount (amount.StringFromInt64 fundAmount) .NativeAsset] with
    | .error err => .error ("build fund tx: " ++ err)
    | .ok tx =>
      match sdk.Base64 tx with
      | .error err => .error ("encode transaction: " ++ err)
      | .ok xdr => .ok xdr

end stellar

namespace service

open txnbuild

/-- The function `decodeV1Transaction`. -/
def decodeV1Transaction (sdk : Toolkit) (txXDR : String) : Except String Transaction :=
  match sdk.TransactionFromXDR txXDR with
  | .error err => .error err
  | .ok genericTx =>
    match genericTx.Transaction with
    | none => .error "fee bump transactions are not supported"
    | some tx => .ok tx

/-- The function `validateActivateTransaction`. -/
def validateActivateTransaction (sdk : Toolkit)
    (signedXDR networkPassphrase masterPublicKey : String) : Except String String :=
  match decodeV1Transaction sdk signedXDR with
  | .error _ => .error "invalid signed_transaction_xdr"
  | .ok tx =>
    if tx.SourceAccount ≠ masterPublicKey then
      .error "activation transaction source must be the master account"
    else
      match tx.Operations with
      | [op0, op1, op2, op3, op4] =>
        match op0 with
        | .BeginSponsoringFutureReserves _ sponsoredID =>
          match op1 with
          | .CreateAccount _ sponsorAccount _ =>
            if sponsorAccount = "" then .error "CreateAccount destination must not be empty"
            else if sponsoredID ≠ sponsorAccount then
              .error "BeginSponsoringFutureReserves must target the sponsor account"
            else
              match op2 with
              | .SetOptions _ _ _ _ _ _ =>
                match op3 with
                | .SetOptions _ _ _ _ _ _ =>
                  match op4 with
                  | .EndSponsoringFutureReserves endSource =>
                    if endSource ≠ sponsorAccount then
                      .error "EndSponsoringFutureReserves source must be the sponsor account"
                    else
                      match sdk.HashHex tx networkPassphrase with
                      | .error _ => .error "invalid signed_transaction_xdr"
                      | .ok _ => .ok sponsorAccount
                  | _ => .error "operation 4 must be EndSponsoringFutureReserves"
                | _ => .error "operation 3 must be SetOptions"
              | _ => .error "operation 2 must be SetOptions"
          | _ => .error "operation 1 must be CreateAccount"
        | _ => .error "operation 0 must be BeginSponsoringFutureReserves"
      | _ => .error "activation transaction must contain exactly 5 operations"

/-- The function `validateFundTransaction`. -/
def validateFundTransaction (sdk : Toolkit)
    (signedXDR networkPassphrase masterPublicKey sponsorAccount : String) :
    Except String String :=
  match decodeV1Transaction sdk signedXDR with
  | .error _ => .error "invalid signed_transaction_xdr"
  | .ok tx =>
    if tx.SourceAccount ≠ masterPublicKey then
      .error "funding transaction source must be the master account"
    else
      match tx.Operations with
      | [op] =>
        match op with
        | .Payment source destination amt asset =>
          if ¬ asset.IsNative then .error "funding transaction must transfer native XLM"
          else if destination ≠ sponsorAccount then
            .error "funding transaction destination must match the sponsor account"
          else if source ≠ "" ∧ source ≠ masterPublicKey then
            .error "funding operation source must be the master account"
          else
            match amount.ParseInt64 amt with
            | .error _ => .error "funding amount must be positive"
            | .ok stroops =>
              if stroops ≤ 0 then .error "funding amount must be positive"
              else
                match sdk.HashHex tx networkPassphrase with
                | .error _ => .error "invalid signed_transaction_xdr"
                | .ok _ => .ok amt
        | _ => .error "funding transaction must be a payment operation"
      | _ => .error "funding transaction must contain exactly one operation"

end service

namespace service

open txnbuild

/-- The body types of the five operations of an activation transaction, by
index. -/
def activateShape : List xdr.OperationType :=
  [.BeginSponsoringFutureReserves, .CreateAccount, .SetOptions, .SetOptions,
   .EndSponsoringFutureReserves]

/-! ### Concrete inputs -/

/-- A Horizon that knows every account, at sequence number 1, and accepts
every envelope submitted. -/
def horizonOf : horizonclient.Client :=
  { AccountDetail := fun id => .ok { AccountID := id, Sequence := 1 }
    SubmitTransactionXDR := fun _ => .ok "hash" }

/-- A builder for the master account `MASTER` on the test network. -/
def builderOf : stellar.Builder :=
  { horizonClient := horizonOf, signingPublicKey := "SIGNER", masterPublicKey := "MASTER",
    networkPassphrase := "Test SDF Network ; September 2015" }

/-- A toolkit whose codec knows one envelope: it encodes the transaction `tx`
as the string `envelope` and decodes that string to `tx`; it accepts every
transaction, hashes under every non-empty passphrase and signs with every
key. -/
def toolkitOf (tx : Transaction) : Toolkit :=
  { TransactionFromXDR := fun s =>
      if s = "envelope" then .ok (.simple tx) else .error "xdr: decoding failed"
    buildFails := fun _ => false
    newTransactionError := fun _ => none
    HashHex := fun _ network =>
      if network = "" then .error "empty network passphrase" else .ok "hash"
    signError := fun _ _ => none
    Base64 := fun t => if t = tx then .ok "envelope" else .error "xdr: encoding failed"
    MinBaseFee := 100 }

/-- The sponsor keypair of the examples, with address `SPONSOR`. -/
def sponsorKP : keypair.Full := { address := "SPONSOR", seed := "SEED" }

/-- The activation transaction the builder makes for `sponsorKP` and a budget
of 10 native units. -/
def activateTx : Transaction :=
  { SourceAccount := "MASTER",
    Operations := stellar.activateOperations builderOf "SPONSOR" 100000000 }

/-- The funding transaction the builder makes for the sponsor `SPONSOR` and 5
native units. -/
def fundTx : Transaction :=
  { SourceAccount := "MASTER",
    Operations := [.Payment "" "SPONSOR" "5.0000000" .NativeAsset] }

/-- An activation transaction tampered with: the BEGIN has the explicit source
`MALLORY`, the first SET_OPTIONS is sourced by the master account and adds
`MALLORY` as a signer, the second has no explicit source. -/
def tamperedActivateTx : Transaction :=
  { SourceAccount := "MASTER",
    Operations :=
      [.BeginSponsoringFutureReserves "MALLORY" "SPONSOR",
       .CreateAccount "" "SPONSOR" "10.0000000",
       .SetOptions "MASTER" (some { Address := "MALLORY", Weight := 1 }) none none none none,
       .SetOptions "" (some { Address := "MASTER", Weight := 1 }) (some 0) (some 1) (some 1)
          (some 1),
       .EndSponsoringFutureReserves "SPONSOR"] }

end service

namespace validation

/-! ### Validation of admin input (`validation.go`) -/

/-- The loop of `AllowedOperations` over the operations not yet visited; `seen`
holds the operations visited so far. The map `supported` is the membership
test of `stellar.SupportedOperations`, and `quote` is the formatting verb `%q`
of the standard library (`strconv.Quote`), taken as a parameter. The result is
the error returned, `none` for `nil`. -/
def allowedOperationsLoop (quote : String → String) (seen : List String) :
    List String → Option String
  | [] => none
  | op :: rest =>
    if op ∉ stellar.SupportedOperations then
      some ("operation " ++ quote op ++ " is not supported")
    else if op ∈ seen then
      some ("duplicate operation " ++ quote op ++ " is not allowed")
    else allowedOperationsLoop quote (op :: seen) rest

/-- The function `AllowedOperations`. -/
def AllowedOperations (quote : String → String) (ops : List String) : Option String :=
  if ops.length = 0 then some "allowed_operations cannot be empty"
  else allowedOperationsLoop quote [] ops

end validation

namespace service

/-! ### Rate-limit settings of a new key (`apikey.go`) -/

/-- The constant `defaultRateLimitMax`. -/
def defaultRateLimitMax : Int := 100

/-- The constant `defaultRateLimitWindow`. -/
def defaultRateLimitWindow : Int := 60

/-- The constant `maxRateLimitMax`. -/
def maxRateLimitMax : Int := 10000

/-- The constant `maxRateLimitWindow`. -/
def maxRateLimitWindow : Int := 86400

/-- The second half of `normalizeRateLimit`, from the test of `windowSeconds`
on, with the value `rlMax` the first half has settled. -/
def normalizeRateLimitWindow (rlMax : Int) (windowSeconds : Option Int) :
    Int × Int × Option String :=
  match windowSeconds with
  | some w =>
    if w < 1 ∨ w > maxRateLimitWindow then
      (0, 0, some "rate_limit.window_seconds must be between 1 and 86400")
    else (rlMax, w, none)
  | none => (rlMax, defaultRateLimitWindow, none)

/-- The function `normalizeRateLimit`: a nil pointer is `none`, and the result
is the triple `(max, window, err)` with `none` for a nil error. -/
def normalizeRateLimit (maxRequests windowSeconds : Option Int) : Int × Int × Option String :=
  match maxRequests with
  | some m =>
    if m < 1 ∨ m > maxRateLimitMax then
      (0, 0, some "rate_limit.max_requests must be between 1 and 10000")
    else normalizeRateLimitWindow m windowSeconds
  | none => normalizeRateLimitWindow defaultRateLimitMax windowSeconds

end service

namespace stellar

/-! ### The account reader (`account.go`) -/

/-- The constant `BaseReserveStroops`. -/
def BaseReserveStroops : Int := 5000000

/-- The type `AccountService`. -/
structure AccountService where
  horizonClient : horizonclient.Client

/-- The loop of `GetBalance` over the balances: the parsed balance of the first
line whose asset type is `native`, 0 when there is none, or the error of
parsing that line. -/
def nativeBalanceStroops : List horizonclient.BalanceLine → Except String Int
  | [] => .ok 0
  | b :: rest =>
    if b.AssetType = "native" then
      match amount.ParseInt64 b.Balance with
      | .error err => .error ("parse balance: " ++ err)
      | .ok balanceStroops => .ok balanceStroops
    else nativeBalanceStroops rest

/-- The value `minBalance` that `GetBalance` computes for an account. -/
def minBalance (account : horizonclient.Account) : Int :=
  int64 ((2 + account.SubentryCount + account.NumSponsoring - account.NumSponsored) *
    BaseReserveStroops)

/-- The method `AccountService.GetBalance`: the pair `(available, locked)`, or
the error. -/
def AccountService.GetBalance (a : AccountService) (accountID : String) :
    Except String (String × String) :=
  match a.horizonClient.AccountDetail accountID with
  | .error err => .error ("load account " ++ accountID ++ ": " ++ err)
  | .ok account =>
    match nativeBalanceStroops account.Balances with
    | .error err => .error err
    | .ok balanceStroops =>
      let locked := amount.StringFromInt64 (minBalance account)
      let available := int64 (balanceStroops - minBalance account)
      .ok (amount.StringFromInt64 (if available < 0 then 0 else available), locked)

/-! ### Concrete inputs -/

/-- A Horizon that knows one account, `SPONSOR`, with the given native balance
string and the given counts of sub-entries, sponsoring and sponsored
reserves, and accepts every envelope submitted. -/
def horizonWith (balance : String) (subentries sponsoring sponsored : Int) :
    horizonclient.Client :=
  { AccountDetail := fun id =>
      if id = "SPONSOR" then
        .ok { AccountID := id, Sequence := 1, SubentryCount := subentries,
              NumSponsoring := sponsoring, NumSponsored := sponsored,
              Balances := [{ Balance := "12.5000000", AssetType := "credit_alphanum4" },
                           { Balance := balance, AssetType := "native" }] }
      else .error "resource not found"
    SubmitTransactionXDR := fun _ => .ok "hash" }

end stellar

namespace model

/-- The type `model.TransactionStatus`. -/
inductive TransactionStatus
  | TxStatusSigned
  | TxStatusRejected
  deriving DecidableEq, Repr

/-- The type `model.TransactionLog`, reduced to the fields the sign pipeline
writes; a field left out of a composite literal holds its zero value. -/
structure TransactionLog where
  APIKeyID : String
  TransactionHash : String := ""
  TransactionXDR : String
  Operations : List String
  SourceAccount : String
  Status : TransactionStatus
  RejectionReason : String := ""
  ReservesLocked : Option Int := none
  deriving DecidableEq, Repr

end model

namespace store

/-- The interface `store.TransactionLogStore`, reduced to the method the sign
pipeline calls and taken as a parameter: the error `CreateTransactionLog`
returns for a row, `none` for nil. -/
structure TransactionLogStore where
  CreateTransactionLog : model.TransactionLog → Option String

/-- The type `store.APIKeyUpdates`; a nil pointer or nil slice is `none`. -/
structure APIKeyUpdates where
  Name : Option String := none
  AllowedOperations : Option (List String) := none
  AllowedSourceAccounts : Option (List String) := none
  RateLimitMax : Option Int := none
  RateLimitWindow : Option Int := none
  ExpiresAt : Option Int := none
  deriving DecidableEq, Repr

end store

namespace stellar

open txnbuild

/-! ### The signer (`signer.go`) -/

/-- The type `Signer`. -/
structure Signer where
  signingKey : keypair.Full
  networkPassphrase : String

/-- The method `Signer.Sign`: the pair `(signedXDR, hashHex)`, or the error. -/
def Signer.Sign (s : Signer) (sdk : Toolkit) (txXDR : String) :
    Except String (String × String) :=
  match sdk.TransactionFromXDR txXDR with
  | .error err => .error ("parse transaction XDR: " ++ err)
  | .ok genericTx =>
    match genericTx.Transaction with
    | none => .error "only V1 transaction envelopes are supported"
    | some tx =>
      match tx.Sign sdk s.networkPassphrase s.signingKey with
      | .error err => .error ("sign transaction: " ++ err)
      | .ok signed =>
        match sdk.HashHex signed s.networkPassphrase with
        | .error err => .error ("compute transaction hash: " ++ err)
        | .ok hashHex =>
          match sdk.Base64 signed with
          | .error err => .error ("encode signed transaction: " ++ err)
          | .ok signedXDR => .ok (signedXDR, hashHex)

end stellar

namespace service

/-! ### Domain errors (`errors.go`) -/

/-- The type `ErrorKind`. -/
inductive ErrorKind
  | ErrBadRequest
  | ErrNotFound
  | ErrForbidden
  | ErrInternal
  | ErrUnavailable
  | ErrBadGateway
  deriving DecidableEq, Repr

/-- The type `Error`. -/
structure Error where
  Kind : ErrorKind
  Code : String
  Message : String
  deriving DecidableEq, Repr

/-- The function `NewBadRequest`. -/
def NewBadRequest (code message : String) : Error :=
  { Kind := .ErrBadRequest, Code := code, Message := message }

/-- The function `NewNotFound`. -/
def NewNotFound (code message : String) : Error :=
  { Kind := .ErrNotFound, Code := code, Message := message }

/-- The function `NewInternal`. -/
def NewInternal (code message : String) : Error :=
  { Kind := .ErrInternal, Code := code, Message := message }

/-- The function `NewUnavailable`. -/
def NewUnavailable (code message : String) : Error :=
  { Kind := .ErrUnavailable, Code := code, Message := message }

/-- The function `NewBadGateway`. -/
def NewBadGateway (code message : String) : Error :=
  { Kind := .ErrBadGateway, Code := code, Message := message }

/-! ### What a service method does outside itself -/

/-- A call a service method makes to one of its collaborators: the store, the
builder, the signer, the account reader, Horizon, the key generator, or the
logger. A method of the services is modelled as a function that returns, next
to its result, the list of these calls in the order it made them. -/
inductive Call
  | GetAPIKeyByID (id : String)
  | CreateAPIKey (key : model.APIKey)
  | UpdateAPIKey (id : String) (updates : store.APIKeyUpdates)
  | UpdateAPIKeyStatus (id : String) (status : model.APIKeyStatus)
  | SetSponsorAccount (id sponsorAccount : String)
  | RegenerateAPIKey (id keyHash keyPrefix : String)
  | CreateTransactionLog (row : model.TransactionLog)
  | KeypairRandom
  | BuildCreateSponsorAccount (sponsorAddress : String) (xlmBudget : Int)
  | BuildFundTransaction (sponsorAccount : String) (fundAmount : Int)
  | BuildSweepTransaction (sponsorAccount : String)
  | SubmitTransactionXDR (xdr : String)
  | GetBalance (accountID : String)
  | SignerSign (txXDR : String)
  | LogError (msg : String)
  deriving DecidableEq, Repr

/-- The calls of the guarded statement `if err != nil { log.Error()... }`:
one log line when the error is not nil. -/
def logIfError (err : Option String) (msg : String) : List Call :=
  match err with
  | some _ => [.LogError msg]
  | none => []

/-- The transaction-log rows a list of calls tries to create, in order. -/
def logRows : List Call → List model.TransactionLog
  | [] => []
  | .CreateTransactionLog row :: rest => row :: logRows rest
  | _ :: rest => logRows rest

/-! ### The sign pipeline (`signing.go`) -/

/-- The type `SigningService`. The verifier holds only the network passphrase,
which `Verify` does not read. -/
structure SigningService where
  store : store.TransactionLogStore
  signer : stellar.Signer
  accounts : stellar.AccountService

/-- The type `SignResult`. -/
structure SignResult where
  SignedXDR : String
  TxHash : String
  SponsorAccount : String
  SponsorBalance : String
  deriving DecidableEq, Repr

/-- The method `SigningService.Sign`: what it returns (the result or the
domain error) and the calls it makes; `none` is a panic of the verifier. -/
def SigningService.Sign (s : SigningService) (sdk : txnbuild.Toolkit) (apiKey : model.APIKey)
    (transactionXDR : String) : Option (Except Error SignResult × List Call) :=
  match stellar.Verify sdk.toSDK transactionXDR apiKey with
  | none => none
  | some result =>
    if ¬ result.Valid then
      let row : model.TransactionLog :=
        { APIKeyID := apiKey.ID, TransactionXDR := transactionXDR,
          Operations := result.Operations, SourceAccount := result.SourceAccount,
          Status := .TxStatusRejected, RejectionReason := result.ErrorMessage }
      some (.error (NewBadRequest result.ErrorCode result.ErrorMessage),
        .CreateTransactionLog row ::
          logIfError (s.store.CreateTransactionLog row) "failed to log rejected transaction")
    else
      match s.accounts.GetBalance apiKey.SponsorAccount with
      | .error _ =>
        some (.error (NewUnavailable "balance_check_failed"
            "Unable to verify sponsor account balance"),
          [.GetBalance apiKey.SponsorAccount, .LogError "failed to get sponsor balance"])
      | .ok (available, _) =>
        let requiredStroops := stellar.int64 (result.ReservesLocked * stellar.BaseReserveStroops)
        match amount.ParseInt64 available with
        | .error _ =>
          some (.error (NewInternal "balance_check_failed"
              "Unable to verify sponsor account balance"),
            [.GetBalance apiKey.SponsorAccount, .LogError "failed to parse available balance"])
        | .ok availableStroops =>
          if availableStroops < requiredStroops then
            some (.error (NewBadRequest "insufficient_balance"
                ("Sponsor account does not have enough available balance to cover the " ++
                  "reserves required by this transaction")),
              [.GetBalance apiKey.SponsorAccount])
          else
            match s.signer.Sign sdk transactionXDR with
            | .error _ =>
              some (.error (NewInternal "signing_failed" "Failed to sign transaction"),
                [.GetBalance apiKey.SponsorAccount, .SignerSign transactionXDR,
                 .LogError "failed to sign transaction"])
            | .ok (signedXDR, txHash) =>
              let row : model.TransactionLog :=
                { APIKeyID := apiKey.ID, TransactionHash := txHash, TransactionXDR := signedXDR,
                  Operations := result.Operations, SourceAccount := result.SourceAccount,
                  Status := .TxStatusSigned, ReservesLocked := some result.ReservesLocked }
              some (.ok { SignedXDR := signedXDR, TxHash := txHash,
                          SponsorAccount := apiKey.SponsorAccount,
                          SponsorBalance := available },
                [.GetBalance apiKey.SponsorAccount, .SignerSign transactionXDR,
                 .CreateTransactionLog row] ++
                  logIfError (s.store.CreateTransactionLog row)
                    "failed to log signed transaction")

/-! ### Concrete inputs -/

/-- The transaction of the insufficient-balance scenario: source `ALICE`, and
BEGIN by the sponsor for `ALICE`, a CREATE_ACCOUNT by `ALICE`, END by
`ALICE`. -/
def txCreateAccount : txnbuild.Transaction :=
  { SourceAccount := "ALICE",
    Operations := [.BeginSponsoringFutureReserves "SPONSOR" "ALICE",
      .CreateAccount "ALICE" "BOB" "0.0000000",
      .EndSponsoringFutureReserves "ALICE"] }

/-- A signing service whose store refuses every row when `storeDown` holds and
accepts every row otherwise, whose signer signs for the test network, and whose
account reader sees the sponsor `SPONSOR` with the native balance `balance`,
no sub-entries and no sponsorship (a minimum balance of 1 native unit). -/
def signingOf (storeDown : Bool) (balance : String) : SigningService :=
  { store := { CreateTransactionLog := fun _ =>
      if storeDown then some "connection refused" else none }
    signer := { signingKey := { address := "SIGNER", seed := "SEED" },
                networkPassphrase := "Test SDF Network ; September 2015" }
    accounts := { horizonClient := stellar.horizonWith balance 0 0 0 } }

/-- A signing service as `signingOf`, with its store up, whose account reader
cannot reach Horizon. -/
def signingOffline : SigningService :=
  { signingOf false "" with
    accounts := { horizonClient :=
      { AccountDetail := fun _ => .error "connection refused"
        SubmitTransactionXDR := fun _ => .error "connection refused" } } }

end service

namespace store

/-! ### The API-key table (`store/apikeys.go`) -/

/-- The SQL statements `apikeys.go` sends for one row of `api_keys`. -/
inductive Statement
  | InsertAPIKey
  | SelectAPIKey
  | UpdateAPIKey
  | UpdateAPIKeyStatus
  | SetSponsorAccount
  | RegenerateAPIKey
  deriving DecidableEq, Repr

/-- The type `Postgres` as one service call sees it. `api_keys` is the table,
as the lookup of a row by its `id`, the key every statement of this file
addresses a row by. The rest is the database's side, taken as a parameter:
`poolError` is the error the pool answers a statement with instead of running
it (`none` when it runs; a statement that fails changes nothing), `now` is the
value of `NOW()`, and `newID` is the id the database gives the next inserted
row. -/
structure Postgres where
  api_keys : String → Option model.APIKey
  poolError : Statement → Option String
  now : Int
  newID : String

/-- The table with the row `key` stored under `id`. -/
def Postgres.put (p : Postgres) (id : String) (key : model.APIKey) : Postgres :=
  { p with api_keys := fun k => if k = id then some key else p.api_keys k }

/-- The method `Postgres.CreateAPIKey`: the error (`none` for nil), the key as
the method leaves it behind its pointer (with the id and the two timestamps the
database returned), and the store afterwards. An INSERT adds a row and changes
no other: under an id that already has a row it fails. -/
def Postgres.CreateAPIKey (p : Postgres) (key : model.APIKey) :
    Option String × model.APIKey × Postgres :=
  match p.poolError .InsertAPIKey with
  | some err => (some ("insert api_key: " ++ err), key, p)
  | none =>
    match p.api_keys p.newID with
    | some _ => (some "insert api_key: duplicate key value", key, p)
    | none =>
      (none, { key with ID := p.newID, CreatedAt := p.now, UpdatedAt := p.now },
        p.put p.newID { key with ID := p.newID, CreatedAt := p.now, UpdatedAt := p.now })

/-- The method `Postgres.GetAPIKeyByID`. -/
def Postgres.GetAPIKeyByID (p : Postgres) (id : String) : Except String model.APIKey :=
  match p.poolError .SelectAPIKey with
  | some err => .error ("query api_key: " ++ err)
  | none =>
    match p.api_keys id with
    | none => .error "no rows in result set"
    | some key => .ok key

/-- The row `key` after the SET clauses `UpdateAPIKey` builds from `updates`,
at the time `now`. -/
def APIKeyUpdates.apply (updates : APIKeyUpdates) (key : model.APIKey) (now : Int) :
    model.APIKey :=
  { key with
    Name := updates.Name.getD key.Name
    AllowedOperations := updates.AllowedOperations.getD key.AllowedOperations
    AllowedSourceAccounts := updates.AllowedSourceAccounts.getD key.AllowedSourceAccounts
    RateLimitMax := updates.RateLimitMax.getD key.RateLimitMax
    RateLimitWindow := updates.RateLimitWindow.getD key.RateLimitWindow
    ExpiresAt := updates.ExpiresAt.getD key.ExpiresAt
    UpdatedAt := now }

/-- The method `Postgres.UpdateAPIKey`: the error (`none` for nil) and the
store afterwards. -/
def Postgres.UpdateAPIKey (p : Postgres) (id : String) (updates : APIKeyUpdates) :
    Option String × Postgres :=
  if updates.Name = none ∧ updates.AllowedOperations = none ∧
      updates.AllowedSourceAccounts = none ∧ updates.RateLimitMax = none ∧
      updates.RateLimitWindow = none ∧ updates.ExpiresAt = none then (none, p)
  else
    match p.poolError .UpdateAPIKey with
    | some err => (some ("update api_key: " ++ err), p)
    | none =>
      match p.api_keys id with
      | none => (some "api key not found", p)
      | some key => (none, p.put id (updates.apply key p.now))

/-- The method `Postgres.UpdateAPIKeyStatus`. -/
def Postgres.UpdateAPIKeyStatus (p : Postgres) (id : String) (status : model.APIKeyStatus) :
    Option String × Postgres :=
  match p.poolError .UpdateAPIKeyStatus with
  | some err => (some ("update api_key status: " ++ err), p)
  | none =>
    match p.api_keys id with
    | none => (some "api key not found", p)
    | some key => (none, p.put id { key with Status := status, UpdatedAt := p.now })

/-- The method `Postgres.SetSponsorAccount`. -/
def Postgres.SetSponsorAccount (p : Postgres) (id sponsorAccount : String) :
    Option String × Postgres :=
  match p.poolError .SetSponsorAccount with
  | some err => (some ("set sponsor_account: " ++ err), p)
  | none =>
    match p.api_keys id with
    | none => (some "api key not found", p)
    | some key =>
      (none, p.put id { key with SponsorAccount := sponsorAccount, UpdatedAt := p.now })

/-- The method `Postgres.RegenerateAPIKey`. -/
def Postgres.RegenerateAPIKey (p : Postgres) (id keyHash keyPrefix : String) :
    Option String × Postgres :=
  match p.poolError .RegenerateAPIKey with
  | some err => (some ("regenerate api_key: " ++ err), p)
  | none =>
    match p.api_keys id with
    | none => (some "api key not found", p)
    | some key =>
      (none, p.put id { key with KeyHash := keyHash, KeyPrefix := keyPrefix,
                                 UpdatedAt := p.now })

end store

namespace service

/-! ### The API-key service (`apikey.go`) -/

/-- What one service call reads from outside the repository, taken as a
parameter: the clock (`time.Now().UTC()`), the hexadecimal rendering of the 32
bytes `crypto/rand` delivers or its error, SHA-256 rendered in hexadecimal
(`middleware.SHA256Hex`), `strings.TrimSpace`, the formatting verb `%q`, the
error of `keypair.ParseAddress` (`none` for nil), and the keypair
`keypair.Random` delivers or its error. -/
structure Runtime where
  now : Int
  randRead : Except String String
  SHA256Hex : String → String
  TrimSpace : String → String
  quote : String → String
  ParseAddress : String → Option String
  keypairRandom : Except String keypair.Full

end service

namespace validation

/-- The function `SourceAccounts`. -/
def SourceAccounts (rt : service.Runtime) : List String → Option String
  | [] => none
  | account :: rest =>
    match rt.ParseAddress account with
    | some _ => some ("invalid source account " ++ rt.quote account)
    | none => SourceAccounts rt rest

end validation

namespace service

/-- The type `APIKeyService`; its store is passed to each method and handed
back by it. -/
structure APIKeyService where
  network : String

/-- The type `CreateAPIKeyInput`; the zero `time.Time` is the instant 0. -/
structure CreateAPIKeyInput where
  Name : String
  XLMBudget : String
  AllowedOperations : List String
  AllowedSourceAccounts : List String
  ExpiresAt : Int
  RateLimitMax : Option Int
  RateLimitWindow : Option Int

/-- The type `CreateAPIKeyResult`. -/
structure CreateAPIKeyResult where
  APIKey : model.APIKey
  RawKey : String

/-- The function `generateAPIKey`. -/
def generateAPIKey (rt : Runtime) (network : String) : Except String String :=
  match rt.randRead with
  | .error err => .error ("crypto/rand failed: " ++ err)
  | .ok hex => .ok ((if network = "testnet" then "sk_test_" else "sk_live_") ++ hex)

/-- The checks of `APIKeyService.Create` on its input, up to and including
`normalizeRateLimit`: the budget in base units and the rate limit, or the
domain error. -/
def validateCreate (rt : Runtime) (input : CreateAPIKeyInput) : Except Error (Int × Int × Int) :=
  if input.Name = "" then .error (NewBadRequest "invalid_request" "name is required")
  else if input.XLMBudget = "" then
    .error (NewBadRequest "invalid_request" "xlm_budget is required")
  else if input.AllowedOperations.length = 0 then
    .error (NewBadRequest "invalid_request" "allowed_operations is required")
  else
    match validation.AllowedOperations rt.quote input.AllowedOperations with
    | some err => .error (NewBadRequest "invalid_request" err)
    | none =>
      if input.ExpiresAt = 0 then
        .error (NewBadRequest "invalid_request" "expires_at is required")
      else if ¬ input.ExpiresAt > rt.now then
        .error (NewBadRequest "invalid_request" "expires_at must be in the future")
      else
        match validation.SourceAccounts rt input.AllowedSourceAccounts with
        | some err => .error (NewBadRequest "invalid_request" err)
        | none =>
          match amount.ParseInt64 input.XLMBudget with
          | .error _ => .error (NewBadRequest "invalid_request" "Invalid xlm_budget format")
          | .ok budgetStroops =>
            if budgetStroops ≤ 0 then
              .error (NewBadRequest "invalid_request" "xlm_budget must be positive")
            else
              match normalizeRateLimit input.RateLimitMax input.RateLimitWindow with
              | (_, _, some err) => .error (NewBadRequest "invalid_request" err)
              | (rateLimitMax, rateLimitWindow, none) =>
                .ok (budgetStroops, rateLimitMax, rateLimitWindow)

/-- The method `APIKeyService.Create`: the result or the domain error, the
store afterwards, and the calls made. A raw key has 72 one-byte characters, so
`rawKey[:16]` is its first 16 characters. -/
def APIKeyService.Create (s : APIKeyService) (rt : Runtime) (db : store.Postgres)
    (input : CreateAPIKeyInput) : Except Error CreateAPIKeyResult × store.Postgres × List Call :=
  match validateCreate rt input with
  | .error e => (.error e, db, [])
  | .ok (budgetStroops, rateLimitMax, rateLimitWindow) =>
    match generateAPIKey rt s.network with
    | .error _ =>
      (.error (NewInternal "internal_error" "Failed to create API key"), db,
        [.LogError "failed to generate API key"])
    | .ok rawKey =>
      let apiKey : model.APIKey :=
        { ID := "", Name := input.Name, KeyHash := rt.SHA256Hex rawKey,
          KeyPrefix := rawKey.take 16 ++ "...", SponsorAccount := "",
          XLMBudget := budgetStroops, AllowedOperations := input.AllowedOperations,
          AllowedSourceAccounts := input.AllowedSourceAccounts,
          RateLimitMax := rateLimitMax, RateLimitWindow := rateLimitWindow,
          Status := .StatusPendingFunding, ExpiresAt := input.ExpiresAt,
          CreatedAt := 0, UpdatedAt := 0 }
      match db.CreateAPIKey apiKey with
      | (some _, _, db') =>
        (.error (NewInternal "internal_error" "Failed to create API key"), db',
          [.CreateAPIKey apiKey, .LogError "failed to create API key"])
      | (none, stored, db') =>
        (.ok { APIKey := stored, RawKey := rawKey }, db', [.CreateAPIKey apiKey])

/-- The checks of `APIKeyService.Update` on the updates: the domain error, or
`none` when they pass. -/
def validateUpdates (rt : Runtime) (updates : store.APIKeyUpdates) : Option Error :=
  if updates.Name.any (fun name => rt.TrimSpace name = "") then
    some (NewBadRequest "invalid_request" "name cannot be empty")
  else
    match updates.AllowedOperations.bind (validation.AllowedOperations rt.quote) with
    | some err => some (NewBadRequest "invalid_request" err)
    | none =>
      match updates.AllowedSourceAccounts.bind (validation.SourceAccounts rt) with
      | some err => some (NewBadRequest "invalid_request" err)
      | none =>
        if updates.RateLimitMax.any (fun m => decide (m < 1) || decide (m > maxRateLimitMax)) then
          some (NewBadRequest "invalid_request" "rate_limit_max must be between 1 and 10000")
        else if updates.RateLimitWindow.any
            (fun w => decide (w < 1) || decide (w > maxRateLimitWindow)) then
          some (NewBadRequest "invalid_request"
            "rate_limit_window must be between 1 and 86400")
        else if updates.ExpiresAt.any (fun t => ! decide (t > rt.now)) then
          some (NewBadRequest "invalid_request" "expires_at must be in the future")
        else none

/-- The method `APIKeyService.Update`. -/
def APIKeyService.Update (_s : APIKeyService) (rt : Runtime) (db : store.Postgres) (id : String)
    (updates : store.APIKeyUpdates) : Except Error model.APIKey × store.Postgres × List Call :=
  match validateUpdates rt updates with
  | some e => (.error e, db, [])
  | none =>
    match db.UpdateAPIKey id updates with
    | (some _, db') =>
      (.error (NewInternal "internal_error" "Failed to update API key"), db',
        [.UpdateAPIKey id updates, .LogError "failed to update API key"])
    | (none, db') =>
      match db'.GetAPIKeyByID id with
      | .error _ =>
        (.error (NewNotFound "not_found" "API key not found"), db',
          [.UpdateAPIKey id updates, .GetAPIKeyByID id])
      | .ok apiKey => (.ok apiKey, db', [.UpdateAPIKey id updates, .GetAPIKeyByID id])

/-- The method `APIKeyService.Revoke`: the domain error (`none` for nil), the
store afterwards, and the calls made. -/
def APIKeyService.Revoke (_s : APIKeyService) (db : store.Postgres) (id : String) :
    Option Error × store.Postgres × List Call :=
  match db.GetAPIKeyByID id with
  | .error _ => (some (NewNotFound "not_found" "API key not found"), db, [.GetAPIKeyByID id])
  | .ok apiKey =>
    if apiKey.Status = .StatusRevoked then
      (some (NewBadRequest "invalid_status" "API key is already revoked"), db,
        [.GetAPIKeyByID id])
    else
      match db.UpdateAPIKeyStatus id .StatusRevoked with
      | (some _, db') =>
        (some (NewInternal "internal_error" "Failed to revoke API key"), db',
          [.GetAPIKeyByID id, .UpdateAPIKeyStatus id .StatusRevoked,
           .LogError "failed to revoke API key"])
      | (none, db') =>
        (none, db', [.GetAPIKeyByID id, .UpdateAPIKeyStatus id .StatusRevoked])

/-- The type `RegenerateResult`. -/
structure RegenerateResult where
  RawKey : String
  KeyPrefix : String
  deriving DecidableEq, Repr

/-- The method `APIKeyService.Regenerate`. -/
def APIKeyService.Regenerate (s : APIKeyService) (rt : Runtime) (db : store.Postgres)
    (id : String) : Except Error RegenerateResult × store.Postgres × List Call :=
  match db.GetAPIKeyByID id with
  | .error _ => (.error (NewNotFound "not_found" "API key not found"), db, [.GetAPIKeyByID id])
  | .ok apiKey =>
    if apiKey.Status = .StatusRevoked then
      (.error (NewBadRequest "invalid_status" "Cannot regenerate a revoked API key"), db,
        [.GetAPIKeyByID id])
    else
      match generateAPIKey rt s.network with
      | .error _ =>
        (.error (NewInternal "internal_error" "Failed to regenerate API key"), db,
          [.GetAPIKeyByID id, .LogError "failed to generate API key"])
      | .ok rawKey =>
        match db.RegenerateAPIKey id (rt.SHA256Hex rawKey) (rawKey.take 16 ++ "...") with
        | (some _, db') =>
          (.error (NewInternal "internal_error" "Failed to regenerate API key"), db',
            [.GetAPIKeyByID id,
             .RegenerateAPIKey id (rt.SHA256Hex rawKey) (rawKey.take 16 ++ "..."),
             .LogError "failed to regenerate API key"])
        | (none, db') =>
          (.ok { RawKey := rawKey, KeyPrefix := rawKey.take 16 ++ "..." }, db',
            [.GetAPIKeyByID id,
             .RegenerateAPIKey id (rt.SHA256Hex rawKey) (rawKey.take 16 ++ "...")])

end service

namespace stellar

open txnbuild

/-! ### The sweep transaction (`builder.go`) -/

/-- The type `SweepResult` of the builder. -/
structure SweepResult where
  SignedXDR : String := ""
  XLMSwept : String
  XLMRemainingLocked : String
  NothingToSweep : Bool := false
  deriving DecidableEq, Repr

/-- The method `Builder.BuildSweepTransaction`. -/
def Builder.BuildSweepTransaction (b : Builder) (sdk : Toolkit) (signer : Signer)
    (accounts : AccountService) (sponsorAccount : String) : Except String SweepResult :=
  match accounts.GetBalance sponsorAccount with
  | .error err => .error ("get sponsor balance: " ++ err)
  | .ok (available, locked) =>
    match amount.ParseInt64 available with
    | .error err => .error ("parse available balance: " ++ err)
    | .ok availableStroops =>
      if availableStroops ≤ 0 then
        .ok { XLMSwept := "0.0000000", XLMRemainingLocked := locked, NothingToSweep := true }
      else
        match b.horizonClient.AccountDetail sponsorAccount with
        | .error err => .error ("load sponsor account: " ++ err)
        | .ok sponsorAccountDetail =>
          let sweepAmount := int64 (availableStroops - sdk.MinBaseFee)
          if sweepAmount ≤ 0 then
            .ok { XLMSwept := "0.0000000", XLMRemainingLocked := locked,
                  NothingToSweep := true }
          else
            match NewTransaction sdk sponsorAccountDetail
                [.Payment "" b.masterPublicKey (amount.StringFromInt64 sweepAmount)
                  .NativeAsset] with
            | .error err => .error ("build sweep tx: " ++ err)
            | .ok tx =>
              match tx.Sign sdk b.networkPassphrase signer.signingKey with
              | .error err => .error ("sign sweep tx: " ++ err)
              | .ok signed =>
                match sdk.Base64 signed with
                | .error err => .error ("encode sweep tx: " ++ err)
                | .ok signedXDR =>
                  .ok { SignedXDR := signedXDR,
                        XLMSwept := amount.StringFromInt64 sweepAmount,
                        XLMRemainingLocked := locked }

end stellar

namespace service

/-! ### The lifecycle service (`funding.go`) -/

/-- The type `FundingService`; its store is passed to each method and handed
back by it. -/
structure FundingService where
  builder : stellar.Builder
  signer : stellar.Signer
  accounts : stellar.AccountService
  horizonClient : horizonclient.Client
  masterPublicKey : String
  networkPassphrase : String

/-- The type `BuildActivateResult`. -/
structure BuildActivateResult where
  SponsorAccount : String
  XLMBudget : String
  TransactionXDR : String
  deriving DecidableEq, Repr

/-- The method `FundingService.BuildActivate`: the result or the domain error,
the store afterwards, and the calls made. -/
def FundingService.BuildActivate (s : FundingService) (sdk : txnbuild.Toolkit) (rt : Runtime)
    (db : store.Postgres) (id : String) :
    Except Error BuildActivateResult × store.Postgres × List Call :=
  match db.GetAPIKeyByID id with
  | .error _ => (.error (NewNotFound "not_found" "API key not found"), db, [.GetAPIKeyByID id])
  | .ok apiKey =>
    if apiKey.Status ≠ .StatusPendingFunding then
      (.error (NewBadRequest "invalid_status" "API key is not pending funding"), db,
        [.GetAPIKeyByID id])
    else
      match rt.keypairRandom with
      | .error _ =>
        (.error (NewInternal "internal_error" "Failed to generate sponsor keypair"), db,
          [.GetAPIKeyByID id, .KeypairRandom, .LogError "failed to generate sponsor keypair"])
      | .ok sponsorKP =>
        match s.builder.BuildCreateSponsorAccount sdk sponsorKP apiKey.XLMBudget with
        | .error _ =>
          (.error (NewInternal "internal_error" "Failed to build activation transaction"), db,
            [.GetAPIKeyByID id, .KeypairRandom,
             .BuildCreateSponsorAccount sponsorKP.Address apiKey.XLMBudget,
             .LogError "failed to build activate transaction"])
        | .ok presignedXDR =>
          (.ok { SponsorAccount := sponsorKP.Address,
                 XLMBudget := amount.StringFromInt64 apiKey.XLMBudget,
                 TransactionXDR := presignedXDR }, db,
            [.GetAPIKeyByID id, .KeypairRandom,
             .BuildCreateSponsorAccount sponsorKP.Address apiKey.XLMBudget])

/-- The type `SubmitActivateResult`. -/
structure SubmitActivateResult where
  ID : String
  Status : String
  SponsorAccount : String
  TransactionHash : String
  deriving DecidableEq, Repr

/-- The method `FundingService.SubmitActivate`. -/
def FundingService.SubmitActivate (s : FundingService) (sdk : txnbuild.Toolkit)
    (db : store.Postgres) (id signedXDR : String) :
    Except Error SubmitActivateResult × store.Postgres × List Call :=
  match db.GetAPIKeyByID id with
  | .error _ => (.error (NewNotFound "not_found" "API key not found"), db, [.GetAPIKeyByID id])
  | .ok apiKey =>
    if apiKey.Status ≠ .StatusPendingFunding then
      (.error (NewBadRequest "invalid_status" "API key is not pending funding"), db,
        [.GetAPIKeyByID id])
    else
      match validateActivateTransaction sdk signedXDR s.networkPassphrase s.masterPublicKey with
      | .error err => (.error (NewBadRequest "invalid_request" err), db, [.GetAPIKeyByID id])
      | .ok sponsorAccount =>
        match s.horizonClient.SubmitTransactionXDR signedXDR with
        | .error err =>
          (.error (NewBadRequest "submission_failed"
              ("Failed to submit transaction to Stellar: " ++ err)), db,
            [.GetAPIKeyByID id, .SubmitTransactionXDR signedXDR,
             .LogError "failed to submit activation transaction"])
        | .ok hash =>
          match db.SetSponsorAccount id sponsorAccount with
          | (some _, db1) =>
            (.error (NewInternal "internal_error" "Failed to save sponsor account"), db1,
              [.GetAPIKeyByID id, .SubmitTransactionXDR signedXDR,
               .SetSponsorAccount id sponsorAccount, .LogError "failed to save sponsor account"])
          | (none, db1) =>
            match db1.UpdateAPIKeyStatus id .StatusActive with
            | (some _, db2) =>
              (.error (NewInternal "internal_error" "Failed to activate API key"), db2,
                [.GetAPIKeyByID id, .SubmitTransactionXDR signedXDR,
                 .SetSponsorAccount id sponsorAccount, .UpdateAPIKeyStatus id .StatusActive,
                 .LogError "failed to activate API key"])
            | (none, db2) =>
              (.ok { ID := apiKey.ID, Status := "active", SponsorAccount := sponsorAccount,
                     TransactionHash := hash }, db2,
                [.GetAPIKeyByID id, .SubmitTransactionXDR signedXDR,
                 .SetSponsorAccount id sponsorAccount, .UpdateAPIKeyStatus id .StatusActive])

/-- The type `BuildFundResult`. -/
structure BuildFundResult where
  SponsorAccount : String
  XLMToAdd : String
  TransactionXDR : String
  deriving DecidableEq, Repr

/-- The method `FundingService.BuildFund`. -/
def FundingService.BuildFund (s : FundingService) (sdk : txnbuild.Toolkit)
    (db : store.Postgres) (id amountXLM : String) :
    Except Error BuildFundResult × store.Postgres × List Call :=
  match amount.ParseInt64 amountXLM with
  | .error _ => (.error (NewBadRequest "invalid_request" "Invalid amount"), db, [])
  | .ok fundStroops =>
    if fundStroops ≤ 0 then (.error (NewBadRequest "invalid_request" "Invalid amount"), db, [])
    else
      match db.GetAPIKeyByID id with
      | .error _ =>
        (.error (NewNotFound "not_found" "API key not found"), db, [.GetAPIKeyByID id])
      | .ok apiKey =>
        if apiKey.Status ≠ .StatusActive then
          (.error (NewBadRequest "invalid_status" "API key must be active to fund"), db,
            [.GetAPIKeyByID id])
        else
          match s.builder.BuildFundTransaction sdk apiKey.SponsorAccount fundStroops with
          | .error _ =>
            (.error (NewInternal "internal_error" "Failed to build funding transaction"), db,
              [.GetAPIKeyByID id, .BuildFundTransaction apiKey.SponsorAccount fundStroops,
               .LogError "failed to build fund transaction"])
          | .ok unsignedXDR =>
            (.ok { SponsorAccount := apiKey.SponsorAccount, XLMToAdd := amountXLM,
                   TransactionXDR := unsignedXDR }, db,
              [.GetAPIKeyByID id, .BuildFundTransaction apiKey.SponsorAccount fundStroops])

/-- The type `SubmitFundResult`. -/
structure SubmitFundResult where
  SponsorAccount : String
  XLMAdded : String
  XLMAvailable : String
  TransactionHash : String
  deriving DecidableEq, Repr

/-- The method `FundingService.SubmitFund`. -/
def FundingService.SubmitFund (s : FundingService) (sdk : txnbuild.Toolkit)
    (db : store.Postgres) (id signedXDR : String) :
    Except Error SubmitFundResult × store.Postgres × List Call :=
  match db.GetAPIKeyByID id with
  | .error _ => (.error (NewNotFound "not_found" "API key not found"), db, [.GetAPIKeyByID id])
  | .ok apiKey =>
    if apiKey.Status ≠ .StatusActive then
      (.error (NewBadRequest "invalid_status" "API key must be active to fund"), db,
        [.GetAPIKeyByID id])
    else
      match validateFundTransaction sdk signedXDR s.networkPassphrase s.masterPublicKey
          apiKey.SponsorAccount with
      | .error err => (.error (NewBadRequest "invalid_request" err), db, [.GetAPIKeyByID id])
      | .ok xlmAdded =>
        match s.horizonClient.SubmitTransactionXDR signedXDR with
        | .error err =>
          (.error (NewBadRequest "submission_failed" ("Failed to submit transaction: " ++ err)),
            db,
            [.GetAPIKeyByID id, .SubmitTransactionXDR signedXDR,
             .LogError "failed to submit fund transaction"])
        | .ok hash =>
          match s.accounts.GetBalance apiKey.SponsorAccount with
          | .error _ =>
            (.ok { SponsorAccount := apiKey.SponsorAccount, XLMAdded := xlmAdded,
                   XLMAvailable := "unknown", TransactionHash := hash }, db,
              [.GetAPIKeyByID id, .SubmitTransactionXDR signedXDR,
               .GetBalance apiKey.SponsorAccount, .LogError "failed to get updated balance"])
          | .ok (available, _) =>
            (.ok { SponsorAccount := apiKey.SponsorAccount, XLMAdded := xlmAdded,
                   XLMAvailable := available, TransactionHash := hash }, db,
              [.GetAPIKeyByID id, .SubmitTransactionXDR signedXDR,
               .GetBalance apiKey.SponsorAccount])

/-- The type `SweepResult` of the service; the transaction hash is empty when
nothing was submitted. -/
structure SweepResult where
  SponsorAccount : String
  XLMSwept : String
  XLMRemainingLocked : String
  Destination : String
  TransactionHash : String := ""
  deriving DecidableEq, Repr

/-- The method `FundingService.Sweep`. -/
def FundingService.Sweep (s : FundingService) (sdk : txnbuild.Toolkit) (db : store.Postgres)
    (id : String) : Except Error SweepResult × store.Postgres × List Call :=
  match db.GetAPIKeyByID id with
  | .error _ => (.error (NewNotFound "not_found" "API key not found"), db, [.GetAPIKeyByID id])
  | .ok apiKey =>
    if apiKey.Status ≠ .StatusRevoked then
      (.error (NewBadRequest "invalid_status" "Can only sweep revoked API keys"), db,
        [.GetAPIKeyByID id])
    else
      match s.builder.BuildSweepTransaction sdk s.signer s.accounts apiKey.SponsorAccount with
      | .error err =>
        (.error (NewInternal "sweep_failed" ("Failed to build sweep transaction: " ++ err)), db,
          [.GetAPIKeyByID id, .BuildSweepTransaction apiKey.SponsorAccount,
           .LogError "failed to build sweep transaction"])
      | .ok buildResult =>
        if buildResult.NothingToSweep then
          (.ok { SponsorAccount := apiKey.SponsorAccount, XLMSwept := buildResult.XLMSwept,
                 XLMRemainingLocked := buildResult.XLMRemainingLocked,
                 Destination := s.masterPublicKey }, db,
            [.GetAPIKeyByID id, .BuildSweepTransaction apiKey.SponsorAccount])
        else
          match s.horizonClient.SubmitTransactionXDR buildResult.SignedXDR with
          | .error err =>
            (.error (NewInternal "sweep_failed"
                ("Failed to submit sweep transaction: " ++ err)), db,
              [.GetAPIKeyByID id, .BuildSweepTransaction apiKey.SponsorAccount,
               .SubmitTransactionXDR buildResult.SignedXDR,
               .LogError "failed to submit sweep transaction"])
          | .ok hash =>
            (.ok { SponsorAccount := apiKey.SponsorAccount, XLMSwept := buildResult.XLMSwept,
                   XLMRemainingLocked := buildResult.XLMRemainingLocked,
                   Destination := s.masterPublicKey, TransactionHash := hash }, db,
              [.GetAPIKeyByID id, .BuildSweepTransaction apiKey.SponsorAccount,
               .SubmitTransactionXDR buildResult.SignedXDR])

/-! ### The steps that can change the API-key table -/

/-- One step of the service on the API-key table: a complete call of one of
`APIKeyService.Create`, `Update`, `Revoke`, `Regenerate` and
`FundingService.SubmitActivate`, `SubmitFund`, `Sweep`, with any arguments and
any behaviour of the world outside, from the table before the call to the
table after it. -/
inductive TableStep : (String → Option model.APIKey) → (String → Option model.APIKey) → Prop
  | Create (s : APIKeyService) (rt : Runtime) (db : store.Postgres)
      (input : CreateAPIKeyInput) :
      TableStep db.api_keys (s.Create rt db input).2.1.api_keys
  | Update (s : APIKeyService) (rt : Runtime) (db : store.Postgres) (id : String)
      (updates : store.APIKeyUpdates) :
      TableStep db.api_keys (s.Update rt db id updates).2.1.api_keys
  | Revoke (s : APIKeyService) (db : store.Postgres) (id : String) :
      TableStep db.api_keys (s.Revoke db id).2.1.api_keys
  | Regenerate (s : APIKeyService) (rt : Runtime) (db : store.Postgres) (id : String) :
      TableStep db.api_keys (s.Regenerate rt db id).2.1.api_keys
  | SubmitActivate (s : FundingService) (sdk : txnbuild.Toolkit) (db : store.Postgres)
      (id signedXDR : String) :
      TableStep db.api_keys (s.SubmitActivate sdk db id signedXDR).2.1.api_keys
  | SubmitFund (s : FundingService) (sdk : txnbuild.Toolkit) (db : store.Postgres)
      (id signedXDR : String) :
      TableStep db.api_keys (s.SubmitFund sdk db id signedXDR).2.1.api_keys
  | Sweep (s : FundingService) (sdk : txnbuild.Toolkit) (db : store.Postgres) (id : String) :
      TableStep db.api_keys (s.Sweep sdk db id).2.1.api_keys

/-- The status moves the services make: none, pending_funding to active,
pending_funding to revoked, active to revoked. -/
def StatusMove (a b : model.APIKeyStatus) : Prop :=
  b = a ∨ (a = .StatusPendingFunding ∧ b = .StatusActive) ∨
    (a = .StatusPendingFunding ∧ b = .StatusRevoked) ∨
    (a = .StatusActive ∧ b = .StatusRevoked)

/-- The table `t'` holds every key of the table `t`, each with a status its
status in `t` moves to by `StatusMove`. -/
def TableMove (t t' : String → Option model.APIKey) : Prop :=
  ∀ id key, t id = some key → ∃ key', t' id = some key' ∧ StatusMove key.Status key'.Status

/-! ### Concrete inputs -/

/-- A store holding one key, `key-1`, with the given status and sponsor
account, at the time 1000; every statement runs, except that updating the
status fails when `statusDown` holds. -/
def storeOf (status : model.APIKeyStatus) (sponsorAccount : String) (statusDown : Bool) :
    store.Postgres :=
  { api_keys := fun id =>
      if id = "key-1" then
        some { stellar.keyOf ["MANAGE_DATA"] [] with
               Status := status, SponsorAccount := sponsorAccount }
      else none
    poolError := fun st =>
      if statusDown ∧ st = .UpdateAPIKeyStatus then some "context canceled" else none
    now := 1000
    newID := "key-2" }

/-- The lifecycle service of the examples: the builder `builderOf`, the test
network, the master account `MASTER`, and a Horizon that knows every account
and accepts every envelope. -/
def fundingOf : FundingService :=
  { builder := builderOf
    signer := { signingKey := { address := "SIGNER", seed := "SEED" },
                networkPassphrase := "Test SDF Network ; September 2015" }
    accounts := { horizonClient := horizonOf }
    horizonClient := horizonOf
    masterPublicKey := "MASTER"
    networkPassphrase := "Test SDF Network ; September 2015" }

/-- A runtime for the examples: the clock reads 1000, the random source
delivers 32 zero bytes, and the keypair generator delivers `sponsorKP`. -/
def runtimeOf : Runtime :=
  { now := 1000
    randRead := .ok "0000000000000000000000000000000000000000000000000000000000000000"
    SHA256Hex := fun s => "sha256:" ++ s
    TrimSpace := fun s => s.trim
    quote := fun s => "\"" ++ s ++ "\""
    ParseAddress := fun s => if s.length = 56 then none else some "invalid address"
    keypairRandom := .ok sponsorKP }

end service

namespace middleware

/-! ### Runs of the rate limiter, with and without cleanup -/

/-- A call of the rate limiter: `Allow` or `Remaining`, with the key passed and
the clock reading. -/
inductive LimiterCall
  | Allow (apiKey : model.APIKey) (now : Nat)
  | Remaining (apiKey : model.APIKey) (now : Nat)

/-- The key a call passes. -/
def LimiterCall.apiKey : LimiterCall → model.APIKey
  | .Allow apiKey _ => apiKey
  | .Remaining apiKey _ => apiKey

/-- The clock reading of a call. -/
def LimiterCall.now : LimiterCall → Nat
  | .Allow _ now => now
  | .Remaining _ now => now

/-- What a call returns: the triple of `Allow` or the count of `Remaining`. -/
inductive LimiterResult
  | Allow (allowed : Bool) (remaining resetAt : Int)
  | Remaining (remaining : Int)
  deriving DecidableEq, Repr

/-- One call of the limiter: the result and the limiter after the call. -/
def RateLimiter.call (rl : RateLimiter) : LimiterCall → LimiterResult × RateLimiter
  | .Allow apiKey now =>
    (.Allow (rl.Allow apiKey now).1.1 (rl.Allow apiKey now).1.2.1 (rl.Allow apiKey now).1.2.2,
     (rl.Allow apiKey now).2)
  | .Remaining apiKey now =>
    (.Remaining (rl.Remaining apiKey now).1, (rl.Remaining apiKey now).2)

/-- A run of calls, in order: the results and the limiter after the last
call. -/
def RateLimiter.run (rl : RateLimiter) : List LimiterCall → List LimiterResult × RateLimiter
  | [] => ([], rl)
  | c :: rest =>
    ((rl.call c).1 :: (RateLimiter.run (rl.call c).2 rest).1,
     (RateLimiter.run (rl.call c).2 rest).2)

/-- `Allow` as a limiter that never runs cleanup does it: the method
`RateLimiter.Allow` with its calls of `cleanupLocked` left out. -/
def RateLimiter.AllowNoCleanup (rl : RateLimiter) (apiKey : model.APIKey) (now : Nat) :
    (Bool × Int × Int) × RateLimiter :=
  let keyID := apiKey.ID
  let windowDuration := stellar.int64 (apiKey.RateLimitWindow * time.Second)
  let fresh : (Bool × Int × Int) × RateLimiter :=
    ((true, apiKey.RateLimitMax - 1, now + windowDuration),
     rl.set keyID { count := 1, windowStart := now, resetAt := now + windowDuration,
                    lastSeen := now })
  match rl.counters keyID with
  | none => fresh
  | some w =>
    if (now : Int) > w.resetAt then fresh
    else if w.count ≥ apiKey.RateLimitMax then
      ((false, 0, w.resetAt), rl.set keyID { w with lastSeen := now })
    else
      ((true, apiKey.RateLimitMax - (w.count + 1), w.resetAt),
       rl.set keyID { w with lastSeen := now, count := w.count + 1 })

/-- `Remaining` as a limiter that never runs cleanup does it: the method
`RateLimiter.Remaining` with its calls of `cleanupLocked` left out. -/
def RateLimiter.RemainingNoCleanup (rl : RateLimiter) (apiKey : model.APIKey) (now : Nat) :
    Int × RateLimiter :=
  let keyID := apiKey.ID
  match rl.counters keyID with
  | none => (apiKey.RateLimitMax, rl)
  | some w =>
    if (now : Int) > w.resetAt then (apiKey.RateLimitMax, rl)
    else if apiKey.RateLimitMax - w.count < 0 then (0, rl.set keyID { w with lastSeen := now })
    else (apiKey.RateLimitMax - w.count, rl.set keyID { w with lastSeen := now })

/-- One call of a limiter that never runs cleanup. -/
def RateLimiter.callNoCleanup (rl : RateLimiter) : LimiterCall → LimiterResult × RateLimiter
  | .Allow apiKey now =>
    (.Allow (rl.AllowNoCleanup apiKey now).1.1 (rl.AllowNoCleanup apiKey now).1.2.1
      (rl.AllowNoCleanup apiKey now).1.2.2,
     (rl.AllowNoCleanup apiKey now).2)
  | .Remaining apiKey now =>
    (.Remaining (rl.RemainingNoCleanup apiKey now).1, (rl.RemainingNoCleanup apiKey now).2)

/-- A run of calls of a limiter that never runs cleanup. -/
def RateLimiter.runNoCleanup (rl : RateLimiter) :
    List LimiterCall → List LimiterResult × RateLimiter
  | [] => ([], rl)
  | c :: rest =>
    ((rl.callNoCleanup c).1 :: (RateLimiter.runNoCleanup (rl.callNoCleanup c).2 rest).1,
     (RateLimiter.runNoCleanup (rl.callNoCleanup c).2 rest).2)

/-- What a call decides from the entry of its key alone: the result, and the
entry it stores for the key, `none` when it stores nothing. -/
def LimiterCall.decision (c : LimiterCall) (entry : Option window) :
    LimiterResult × Option window :=
  match c with
  | .Allow apiKey now =>
    match entry with
    | none =>
      (.Allow true (apiKey.RateLimitMax - 1)
        (now + stellar.int64 (apiKey.RateLimitWindow * time.Second)),
       some { count := 1, windowStart := now,
              resetAt := now + stellar.int64 (apiKey.RateLimitWindow * time.Second),
              lastSeen := now })
    | some w =>
      if (now : Int) > w.resetAt then
        (.Allow true (apiKey.RateLimitMax - 1)
          (now + stellar.int64 (apiKey.RateLimitWindow * time.Second)),
         some { count := 1, windowStart := now,
                resetAt := now + stellar.int64 (apiKey.RateLimitWindow * time.Second),
                lastSeen := now })
      else if w.count ≥ apiKey.RateLimitMax then
        (.Allow false 0 w.resetAt, some { w with lastSeen := now })
      else
        (.Allow true (apiKey.RateLimitMax - (w.count + 1)) w.resetAt,
         some { w with lastSeen := now, count := w.count + 1 })
  | .Remaining apiKey now =>
    match entry with
    | none => (.Remaining apiKey.RateLimitMax, none)
    | some w =>
      if (now : Int) > w.resetAt then (.Remaining apiKey.RateLimitMax, none)
      else if apiKey.RateLimitMax - w.count < 0 then
        (.Remaining 0, some { w with lastSeen := now })
      else (.Remaining (apiKey.RateLimitMax - w.count), some { w with lastSeen := now })

/-- The limiter with `entry` stored for the key `keyID`, unchanged when there
is nothing to store. -/
def RateLimiter.write (rl : RateLimiter) (keyID : String) (entry : Option window) :
    RateLimiter :=
  match entry with
  | some w => rl.set keyID w
  | none => rl

/-- Every entry of the limiter was last seen no later than `t`, and its window
ends no later than 24 h after it was last seen. -/
def RateLimiter.Fresh (rl : RateLimiter) (t : Int) : Prop :=
  ∀ k w, rl.counters k = some w → w.lastSeen ≤ t ∧ w.resetAt ≤ w.lastSeen + staleEntryTTL

/-- The limiter `rl` agrees with the limiter `nc` up to windows that ended
before `t`: for every key, the two hold the same entry, or `rl` holds none and
`nc` holds one whose window ended before `t`. -/
def RateLimiter.Agrees (rl nc : RateLimiter) (t : Int) : Prop :=
  ∀ k, rl.counters k = nc.counters k ∨
    (rl.counters k = none ∧ ∃ w, nc.counters k = some w ∧ w.resetAt < t)

/-! ### Concrete inputs -/

/-- A day of calls for the key `key-1` (at most 2 calls per window of 10 s):
three `Allow` in the first two seconds, a `Remaining` at 3 s, an `Allow` at
400 s, when a cleanup is due and the window has ended, and a `Remaining` and an
`Allow` a day later. -/
def callsOfDay : List LimiterCall :=
  [.Allow (keyRate 2 10) 0, .Allow (keyRate 2 10) 1000000000, .Allow (keyRate 2 10) 2000000000,
   .Remaining (keyRate 2 10) 3000000000, .Allow (keyRate 2 10) 400000000000,
   .Remaining (keyRate 2 10) 86800000000000, .Allow (keyRate 2 10) 86800000000000]

end middleware

namespace stellar

open txnbuild

/-! ## One iteration of the operation loop -/

theorem verifyBegin_ne_panic (apiKey : model.APIKey) (src : String)
    (s : LoopState) (op : Operation) : verifyBegin apiKey src s op ≠ .panic := by
  unfold verifyBegin
  split
  · split_ifs <;> exact Step.noConfusion
  · exact Step.noConfusion

theorem verifyEnd_ne_panic (src : String) (s : LoopState) : verifyEnd src s ≠ .panic := by
  unfold verifyEnd
  split_ifs with h0 h1
  · exact Step.noConfusion
  · omega
  · exact Step.noConfusion

theorem verifyPayload_ne_panic (apiKey : model.APIKey) (src : String)
    (s : LoopState) (op : Operation) (opType : xdr.OperationType) (opSource : String) :
    verifyPayload apiKey src s op opType opSource ≠ .panic := by
  unfold verifyPayload
  split_ifs <;> try exact Step.noConfusion
  all_goals
    split
    · rename_i hnone
      rw [List.getElem?_eq_none_iff] at hnone
      omega
    · first | exact Step.noConfusion | (split_ifs <;> exact Step.noConfusion)

theorem verifyOp_ne_panic (sdk : SDK) (apiKey : model.APIKey) (src : String)
    (s : LoopState) (i : Nat) (op : Operation) :
    verifyOp sdk apiKey src s i op ≠ .panic := by
  unfold verifyOp
  split
  · exact Step.noConfusion
  · split_ifs
    · exact Step.noConfusion
    · exact verifyBegin_ne_panic _ _ _ _
    · exact verifyEnd_ne_panic _ _
    · exact verifyPayload_ne_panic _ _ _ _ _ _

theorem verifyLoop_ne_panic (sdk : SDK) (apiKey : model.APIKey) (src : String)
    (ops : List Operation) :
    ∀ (s : LoopState) (i : Nat), verifyLoop sdk apiKey src s i ops ≠ .panic := by
  induction ops with
  | nil => intro s i; simp [verifyLoop]
  | cons op rest ih =>
    intro s i
    unfold verifyLoop
    split
    · exact ih _ _
    · exact Step.noConfusion
    · rename_i h
      exact absurd h (verifyOp_ne_panic _ _ _ _ _ _)

theorem BuildXDR_eq_some {sdk : SDK} {op : Operation} {t : xdr.OperationType}
    (h : op.BuildXDR sdk = some t) : sdk.buildFails op = false ∧ t = op.bodyType := by
  unfold Operation.BuildXDR at h
  split_ifs at h with hb
  simp only [Option.some.injEq] at h
  exact ⟨by simpa using hb, h.symm⟩

theorem bodyType_eq_end {op : Operation}
    (h : op.bodyType = .EndSponsoringFutureReserves) :
    ∃ sa, op = .EndSponsoringFutureReserves sa := by
  cases op <;> simp [Operation.bodyType] at h
  exact ⟨_, rfl⟩

/-- The test `allowedSources != nil && !allowedSources[src]` of `Verify`. -/
theorem allowedSources_test (apiKey : model.APIKey) (src : String) :
    (match allowedSources apiKey with
      | some allowed => ! allowed src
      | none => false) = true ↔
    apiKey.AllowedSourceAccounts ≠ [] ∧ src ∉ apiKey.AllowedSourceAccounts := by
  unfold allowedSources
  split_ifs with h
  · have hne : apiKey.AllowedSourceAccounts ≠ [] := by
      intro h0
      simp [h0] at h
    simp [hne]
  · have h0 : apiKey.AllowedSourceAccounts = [] := List.length_eq_zero.mp (by omega)
    simp [h0]

theorem verifyBegin_next {apiKey : model.APIKey} {src : String}
    {s s' : LoopState} {op : Operation} (h : verifyBegin apiKey src s op = .next s') :
    ∃ sa sid, op = .BeginSponsoringFutureReserves sa sid ∧
      getOperationSource op src = apiKey.SponsorAccount ∧ sid ≠ "" ∧
      s' = { s with sponsoredAccountStack := s.sponsoredAccountStack ++ [sid] } := by
  unfold verifyBegin at h
  split at h
  · rename_i sa sid
    split_ifs at h with h1 h2
    refine ⟨sa, sid, rfl, not_not.mp h1, h2, ?_⟩
    exact (Step.next.inj h).symm
  · exact Step.noConfusion h

theorem verifyEnd_next {src : String} {s s' : LoopState} (h : verifyEnd src s = .next s') :
    s.sponsoredAccountStack ≠ [] ∧
      s' = { s with sponsoredAccountStack :=
        s.sponsoredAccountStack.take (s.sponsoredAccountStack.length - 1) } := by
  unfold verifyEnd at h
  split_ifs at h with h0 h1
  refine ⟨fun hnil => h0 (by simp [hnil]), (Step.next.inj h).symm⟩

theorem verifyPayload_next {apiKey : model.APIKey} {src : String}
    {s s' : LoopState} {op : Operation} {opType : xdr.OperationType} {opSource : String}
    (h : verifyPayload apiKey src s op opType opSource = .next s') :
    isXLMTransfer op = false ∧ (OperationTypeName opType).2 = true ∧
      (OperationTypeName opType).1 ∈ apiKey.AllowedOperations ∧
      s.sponsoredAccountStack.getLast? = some opSource ∧
      (apiKey.AllowedSourceAccounts ≠ [] → opSource ∈ apiKey.AllowedSourceAccounts) ∧
      s' = { s with
        opNames := s.opNames ++ [(OperationTypeName opType).1]
        reservesLocked := s.reservesLocked + reservesForOperation op } := by
  unfold verifyPayload at h
  split_ifs at h with h1 h2 h3 h4 h6
  · split at h
    · exact Step.noConfusion h
    · split_ifs at h
  split at h
  · exact Step.noConfusion h
  · rename_i top htop
    split_ifs at h with h5
    refine ⟨by simpa using h1, by simpa using h2, ?_, ?_, ?_, (Step.next.inj h).symm⟩
    · simpa [allowedOps] using h3
    · rw [List.getLast?_eq_getElem?, htop, not_not.mp h5]
    · intro hne
      by_contra hmem
      exact h6 ((allowedSources_test apiKey opSource).mpr ⟨hne, hmem⟩)

/-- What an iteration that falls through to the next operation has checked
and how it changed the loop variables. -/
theorem verifyOp_next {sdk : SDK} {apiKey : model.APIKey} {src : String}
    {s s' : LoopState} {i : Nat} {op : Operation}
    (h : verifyOp sdk apiKey src s i op = .next s') :
    sdk.buildFails op = false ∧
    ((∃ sa sid, op = .BeginSponsoringFutureReserves sa sid ∧
        getOperationSource op src = apiKey.SponsorAccount ∧ sid ≠ "" ∧
        s' = { s with sponsoredAccountStack := s.sponsoredAccountStack ++ [sid] }) ∨
     (op.bodyType = .EndSponsoringFutureReserves ∧
        getOperationSource op src ≠ apiKey.SponsorAccount ∧
        s.sponsoredAccountStack ≠ [] ∧
        s' = { s with sponsoredAccountStack :=
          s.sponsoredAccountStack.take (s.sponsoredAccountStack.length - 1) }) ∨
     (isStructuralOp op.bodyType = false ∧
        getOperationSource op src ≠ apiKey.SponsorAccount ∧
        isXLMTransfer op = false ∧ (OperationTypeName op.bodyType).2 = true ∧
        (OperationTypeName op.bodyType).1 ∈ apiKey.AllowedOperations ∧
        s.sponsoredAccountStack.getLast? = some (getOperationSource op src) ∧
        (apiKey.AllowedSourceAccounts ≠ [] →
          getOperationSource op src ∈ apiKey.AllowedSourceAccounts) ∧
        s' = { s with
          opNames := s.opNames ++ [(OperationTypeName op.bodyType).1]
          reservesLocked := s.reservesLocked + reservesForOperation op })) := by
  unfold verifyOp at h
  split at h
  · exact Step.noConfusion h
  · rename_i opType hb
    obtain ⟨hbf, rfl⟩ := BuildXDR_eq_some hb
    refine ⟨hbf, ?_⟩
    split_ifs at h with h1 h2 h3
    · exact Or.inl (verifyBegin_next h)
    · refine Or.inr (Or.inl ⟨h3, fun hs => h1 ⟨hs, h2⟩, verifyEnd_next h⟩)
    · refine Or.inr (Or.inr ⟨by simp [isStructuralOp, h2, h3], fun hs => h1 ⟨hs, h2⟩, ?_⟩)
      exact verifyPayload_next h

/-! ## Returned rejections -/

theorem verifyBegin_ret {apiKey : model.APIKey} {src : String} {s : LoopState}
    {op : Operation} {r : VerifyResult} (h : verifyBegin apiKey src s op = .ret r) :
    Rejected src r := by
  unfold verifyBegin at h
  split at h
  · split_ifs at h <;> (cases h; simp [Rejected, rejectResultWithSource, initResult, StatusBadRequest])
  · cases h; simp [Rejected, rejectResultWithSource, initResult, StatusBadRequest]

theorem verifyEnd_ret {src : String} {s : LoopState} {r : VerifyResult}
    (h : verifyEnd src s = .ret r) : Rejected src r := by
  unfold verifyEnd at h
  split_ifs at h
  cases h; simp [Rejected, rejectResultWithSource, initResult, StatusBadRequest]

theorem verifyPayload_ret {apiKey : model.APIKey} {src : String} {s : LoopState}
    {op : Operation} {opType : xdr.OperationType} {opSource : String} {r : VerifyResult}
    (h : verifyPayload apiKey src s op opType opSource = .ret r) : Rejected src r := by
  unfold verifyPayload at h
  split_ifs at h <;> try (cases h; simp [Rejected, rejectResultWithSource, initResult, StatusBadRequest])
  all_goals
    split at h
    · exact Step.noConfusion h
    · split_ifs at h <;> (cases h; simp [Rejected, rejectResultWithSource, initResult, StatusBadRequest])

theorem verifyOp_ret {sdk : SDK} {apiKey : model.APIKey} {src : String} {s : LoopState}
    {i : Nat} {op : Operation} {r : VerifyResult}
    (h : verifyOp sdk apiKey src s i op = .ret r) : Rejected src r := by
  unfold verifyOp at h
  split at h
  · cases h; simp [Rejected, rejectResultWithSource, initResult, StatusBadRequest]
  · split_ifs at h
    · cases h; simp [Rejected, rejectResultWithSource, initResult, StatusBadRequest]
    · exact verifyBegin_ret h
    · exact verifyEnd_ret h
    · exact verifyPayload_ret h

/-! ## The operation loop -/

theorem verifyLoop_cons_next {sdk : SDK} {apiKey : model.APIKey} {src : String}
    {s s' : LoopState} {i : Nat} {op : Operation} {rest : List Operation} :
    verifyLoop sdk apiKey src s i (op :: rest) = .next s' ↔
      ∃ s1, verifyOp sdk apiKey src s i op = .next s1 ∧
        verifyLoop sdk apiKey src s1 (i + 1) rest = .next s' := by
  rw [verifyLoop]
  cases h : verifyOp sdk apiKey src s i op with
  | next s1 => simp
  | ret r => simp
  | panic => simp

theorem verifyLoop_append (sdk : SDK) (apiKey : model.APIKey) (src : String)
    (p q : List Operation) : ∀ (s : LoopState) (i : Nat),
    verifyLoop sdk apiKey src s i (p ++ q) =
      match verifyLoop sdk apiKey src s i p with
      | .next s1 => verifyLoop sdk apiKey src s1 (i + p.length) q
      | .ret r => .ret r
      | .panic => .panic := by
  induction p with
  | nil => intro s i; simp [verifyLoop]
  | cons op rest ih =>
    intro s i
    have hl : verifyLoop sdk apiKey src s i ((op :: rest) ++ q) =
        match verifyOp sdk apiKey src s i op with
        | .next s1 => verifyLoop sdk apiKey src s1 (i + 1) (rest ++ q)
        | .ret r => .ret r
        | .panic => .panic := by
      rw [List.cons_append, verifyLoop]
    have hr : verifyLoop sdk apiKey src s i (op :: rest) =
        match verifyOp sdk apiKey src s i op with
        | .next s1 => verifyLoop sdk apiKey src s1 (i + 1) rest
        | .ret r => .ret r
        | .panic => .panic := by
      rw [verifyLoop]
    rw [hl, hr]
    cases h : verifyOp sdk apiKey src s i op with
    | next s1 =>
      simp only []
      rw [ih s1 (i + 1)]
      have : i + 1 + rest.length = i + (op :: rest).length := by
        simp only [List.length_cons]; omega
      rw [this]
    | ret r => rfl
    | panic => rfl

theorem verifyLoop_ret {sdk : SDK} {apiKey : model.APIKey} {src : String}
    {ops : List Operation} : ∀ {s : LoopState} {i : Nat} {r : VerifyResult},
    verifyLoop sdk apiKey src s i ops = .ret r → Rejected src r := by
  induction ops with
  | nil => intro s i r h; simp [verifyLoop] at h
  | cons op rest ih =>
    intro s i r h
    rw [verifyLoop] at h
    cases h1 : verifyOp sdk apiKey src s i op with
    | next s1 => rw [h1] at h; exact ih h
    | ret r1 =>
      rw [h1] at h
      cases h
      exact verifyOp_ret h1
    | panic => rw [h1] at h; exact Step.noConfusion h

/-! ## What a completed loop has established -/

theorem payloadOps_cons_structural {op : Operation} {rest : List Operation}
    (h : isStructuralOp op.bodyType = true) : payloadOps (op :: rest) = payloadOps rest := by
  simp [payloadOps, List.filter_cons, h]

theorem payloadOps_cons_payload {op : Operation} {rest : List Operation}
    (h : isStructuralOp op.bodyType = false) :
    payloadOps (op :: rest) = op :: payloadOps rest := by
  simp [payloadOps, List.filter_cons, h]

theorem bracket_cons_payload {op : Operation} {rest : List Operation} {st : List String}
    (h : isStructuralOp op.bodyType = false) : bracket st (op :: rest) = bracket st rest := by
  cases op <;> first
    | rfl
    | simp [isStructuralOp, Operation.bodyType] at h

theorem isXLMTransfer_structural {op : Operation} (h : isStructuralOp op.bodyType = true) :
    isXLMTransfer op = false := by
  cases op <;> first
    | rfl
    | simp [isStructuralOp, Operation.bodyType] at h

/-- The facts a loop run that reaches the end of the list has established. -/
theorem verifyLoop_next {sdk : SDK} {apiKey : model.APIKey} {src : String}
    {ops : List Operation} : ∀ {s s' : LoopState} {i : Nat},
    verifyLoop sdk apiKey src s i ops = .next s' →
      s'.opNames = s.opNames ++ (payloadOps ops).map canonicalName ∧
      s'.reservesLocked = s.reservesLocked + ((payloadOps ops).map reservesForOperation).sum ∧
      bracket s.sponsoredAccountStack ops = some s'.sponsoredAccountStack ∧
      (∀ op ∈ ops, isXLMTransfer op = false ∧ sdk.buildFails op = false) ∧
      (∀ op ∈ ops, op.bodyType ≠ .BeginSponsoringFutureReserves →
        getOperationSource op src ≠ apiKey.SponsorAccount) ∧
      (∀ op ∈ payloadOps ops,
        (OperationTypeName op.bodyType).2 = true ∧
        canonicalName op ∈ apiKey.AllowedOperations ∧
        (apiKey.AllowedSourceAccounts ≠ [] →
          getOperationSource op src ∈ apiKey.AllowedSourceAccounts)) := by
  induction ops with
  | nil =>
    intro s s' i h
    simp only [verifyLoop, Step.next.injEq] at h
    subst h
    simp [payloadOps, bracket]
  | cons op rest ih =>
    intro s s' i h
    obtain ⟨s1, h1, h2⟩ := verifyLoop_cons_next.mp h
    obtain ⟨ihn, ihr, ihb, ihx, ihs, ihp⟩ := ih h2
    obtain ⟨hbf, hcase⟩ := verifyOp_next h1
    rcases hcase with ⟨sa, sid, rfl, hsrc, hsid, rfl⟩ | ⟨hend, hsrc, hne, rfl⟩ |
      ⟨hns, hsrc, hx, hk, ha, htop, hal, rfl⟩
    · have hst : isStructuralOp (Operation.BeginSponsoringFutureReserves sa sid).bodyType = true := rfl
      rw [payloadOps_cons_structural hst]
      refine ⟨ihn, ihr, ihb, ?_, ?_, ihp⟩
      · intro op hop
        rcases List.mem_cons.mp hop with rfl | hop
        · exact ⟨rfl, hbf⟩
        · exact ihx op hop
      · intro op hop hnb
        rcases List.mem_cons.mp hop with rfl | hop
        · exact absurd rfl hnb
        · exact ihs op hop hnb
    · obtain ⟨sa, rfl⟩ := bodyType_eq_end hend
      have hst : isStructuralOp (Operation.EndSponsoringFutureReserves sa).bodyType = true := rfl
      rw [payloadOps_cons_structural hst]
      refine ⟨ihn, ihr, ?_, ?_, ?_, ihp⟩
      · simp only [bracket, hne, if_false]
        rw [List.dropLast_eq_take]
        exact ihb
      · intro op hop
        rcases List.mem_cons.mp hop with rfl | hop
        · exact ⟨rfl, hbf⟩
        · exact ihx op hop
      · intro op hop hnb
        rcases List.mem_cons.mp hop with rfl | hop
        · exact hsrc
        · exact ihs op hop hnb
    · rw [payloadOps_cons_payload hns, bracket_cons_payload hns]
      refine ⟨?_, ?_, ihb, ?_, ?_, ?_⟩
      · rw [ihn]
        simp [canonicalName]
      · rw [ihr]
        simp only [List.map_cons, List.sum_cons]
        ring
      · intro op' hop
        rcases List.mem_cons.mp hop with rfl | hop
        · exact ⟨hx, hbf⟩
        · exact ihx op' hop
      · intro op' hop hnb
        rcases List.mem_cons.mp hop with rfl | hop
        · exact hsrc
        · exact ihs op' hop hnb
      · intro op' hop
        rcases List.mem_cons.mp hop with rfl | hop
        · exact ⟨hk, ha, hal⟩
        · exact ihp op' hop

/-! ## The whole of `Verify` -/

/-- A valid result comes from a loop that ran to the end of the list with an
empty stack left, and carries the loop's accounting. -/
theorem verifyTx_valid {sdk : SDK} {apiKey : model.APIKey} {tx : Transaction}
    {r : VerifyResult} (h : verifyTx sdk apiKey tx = some r) (hv : r.Valid = true) :
    tx.SourceAccount ≠ apiKey.SponsorAccount ∧ tx.Operations ≠ [] ∧
    ∃ s, verifyLoop sdk apiKey tx.SourceAccount {} 0 tx.Operations = .next s ∧
      s.sponsoredAccountStack = [] ∧
      (apiKey.AllowedSourceAccounts ≠ [] → tx.SourceAccount ∈ apiKey.AllowedSourceAccounts) ∧
      r = { Valid := true, Operations := s.opNames, SourceAccount := tx.SourceAccount,
            ReservesLocked := s.reservesLocked } := by
  unfold verifyTx at h
  simp only [] at h
  by_cases h1 : tx.SourceAccount = apiKey.SponsorAccount
  · rw [if_pos h1] at h
    cases h; simp [initResult] at hv
  rw [if_neg h1] at h
  by_cases h2 : tx.Operations.length = 0
  · rw [if_pos h2] at h
    cases h; simp [rejectResult] at hv
  rw [if_neg h2] at h
  refine ⟨h1, fun h0 => h2 (by simp [h0]), ?_⟩
  cases hl : verifyLoop sdk apiKey tx.SourceAccount {} 0 tx.Operations with
  | panic => rw [hl] at h; exact absurd h (by simp)
  | ret r' =>
    rw [hl] at h
    cases h
    exact absurd hv (by simp [(verifyLoop_ret hl).1])
  | next s =>
    rw [hl] at h
    simp only [] at h
    by_cases h3 : s.sponsoredAccountStack.length ≠ 0
    · rw [if_pos h3] at h
      cases h; simp [rejectResultWithSource] at hv
    rw [if_neg h3] at h
    split_ifs at h with h4
    · cases h; simp [rejectResultWithSource] at hv
    · refine ⟨s, rfl, List.length_eq_zero.mp (not_not.mp h3), ?_, ?_⟩
      · intro hne
        by_contra hmem
        exact h4 ((allowedSources_test apiKey tx.SourceAccount).mpr ⟨hne, hmem⟩)
      · cases h; rfl

/-- The part of `Verify` after decoding always returns, with a valid result
that has no error code or with a rejection of status 400. -/
theorem verifyTx_returns (sdk : SDK) (apiKey : model.APIKey) (tx : Transaction) :
    ∃ r, verifyTx sdk apiKey tx = some r ∧
      ((r.Valid = true ∧ r.ErrorCode = "") ∨
       (r.Valid = false ∧ r.ErrorCode ≠ "" ∧ r.HTTPStatus = 400)) := by
  unfold verifyTx
  simp only []
  by_cases h1 : tx.SourceAccount = apiKey.SponsorAccount
  · rw [if_pos h1]
    exact ⟨_, rfl, Or.inr (by simp [initResult, StatusBadRequest])⟩
  rw [if_neg h1]
  by_cases h2 : tx.Operations.length = 0
  · rw [if_pos h2]
    exact ⟨_, rfl, Or.inr (by simp [rejectResult, StatusBadRequest])⟩
  rw [if_neg h2]
  cases hl : verifyLoop sdk apiKey tx.SourceAccount {} 0 tx.Operations with
  | panic => exact absurd hl (verifyLoop_ne_panic _ _ _ _ _ _)
  | ret r =>
    have hr := verifyLoop_ret hl
    exact ⟨r, rfl, Or.inr ⟨hr.1, hr.2.2.1, hr.2.1⟩⟩
  | next s =>
    simp only []
    split_ifs
    · exact ⟨_, rfl, Or.inr (by simp [rejectResultWithSource, StatusBadRequest])⟩
    · exact ⟨_, rfl, Or.inr (by simp [rejectResultWithSource, StatusBadRequest])⟩
    · exact ⟨_, rfl, Or.inl ⟨rfl, rfl⟩⟩

theorem Verify_simple {sdk : SDK} {txXDR : String} {tx : Transaction}
    (h : sdk.TransactionFromXDR txXDR = .ok (.simple tx)) (apiKey : model.APIKey) :
    Verify sdk txXDR apiKey = verifyTx sdk apiKey tx := by
  simp [Verify, h, GenericTransaction.Transaction]

theorem Verify_valid {sdk : SDK} {txXDR : String} {apiKey : model.APIKey}
    {r : VerifyResult} (h : Verify sdk txXDR apiKey = some r) (hv : r.Valid = true) :
    ∃ tx, sdk.TransactionFromXDR txXDR = .ok (.simple tx) ∧ verifyTx sdk apiKey tx = some r := by
  unfold Verify at h
  split at h
  · cases h; simp [rejectResult] at hv
  · rename_i g hg
    split at h
    · cases h; simp [rejectResult] at hv
    · rename_i tx htx
      cases g with
      | simple tx' =>
        simp only [GenericTransaction.Transaction, Option.some.injEq] at htx
        subst htx
        exact ⟨tx', hg, h⟩
      | feeBump fs inner => simp [GenericTransaction.Transaction] at htx

theorem Verify_returns (sdk : SDK) (txXDR : String) (apiKey : model.APIKey) :
    ∃ r, Verify sdk txXDR apiKey = some r ∧
      ((r.Valid = true ∧ r.ErrorCode = "") ∨
       (r.Valid = false ∧ r.ErrorCode ≠ "" ∧ r.HTTPStatus = 400)) := by
  unfold Verify
  split
  · exact ⟨_, rfl, Or.inr (by simp [rejectResult, StatusBadRequest])⟩
  · split
    · exact ⟨_, rfl, Or.inr (by simp [rejectResult, StatusBadRequest])⟩
    · exact verifyTx_returns _ _ _

/-! ## Rejections decided by one operation -/

/-- When the loop is reached and the operations before `x` pass, the result of
`Verify` is what the iteration on `x` returns, whatever follows `x`. -/
theorem verifyTx_first_return {sdk : SDK} {apiKey : model.APIKey} {src : String}
    {p q : List Operation} {x : Operation} {s : LoopState} {res : VerifyResult}
    (hsrc : src ≠ apiKey.SponsorAccount)
    (hp : verifyLoop sdk apiKey src {} 0 p = .next s)
    (hx : verifyOp sdk apiKey src s p.length x = .ret res) :
    verifyTx sdk apiKey ⟨src, p ++ x :: q⟩ = some res := by
  unfold verifyTx
  simp only []
  rw [if_neg hsrc]
  have hlen : ¬ (p ++ x :: q).length = 0 := by simp
  rw [if_neg hlen, verifyLoop_append, hp]
  simp only [Nat.zero_add]
  rw [verifyLoop, hx]

/-- A loop that cannot reach the end of the list makes `Verify` return a
rejection. -/
theorem verifyTx_rejects {sdk : SDK} {apiKey : model.APIKey} {tx : Transaction}
    (h : ∀ s, verifyLoop sdk apiKey tx.SourceAccount {} 0 tx.Operations ≠ .next s) :
    ∃ r, verifyTx sdk apiKey tx = some r ∧ r.Valid = false := by
  obtain ⟨r, hr, hcase⟩ := verifyTx_returns sdk apiKey tx
  refine ⟨r, hr, ?_⟩
  rcases hcase with ⟨hv, _⟩ | ⟨hv, _⟩
  · obtain ⟨_, _, s, hl, _⟩ := verifyTx_valid hr hv
    exact absurd hl (h s)
  · exact hv

theorem Verify_feeBump {sdk : SDK} {txXDR : String} {fs : String} {tx : Transaction}
    (h : sdk.TransactionFromXDR txXDR = .ok (.feeBump fs tx)) (apiKey : model.APIKey) :
    Verify sdk txXDR apiKey = some (rejectResult StatusBadRequest "invalid_transaction"
      "Only V1 transaction envelopes are supported (not fee bump transactions)") := by
  simp [Verify, h, GenericTransaction.Transaction]

theorem verifyOp_xlm {sdk : SDK} {apiKey : model.APIKey} {src : String} {s : LoopState}
    {i : Nat} {x : Operation} (hb : sdk.buildFails x = false)
    (hs : getOperationSource x src ≠ apiKey.SponsorAccount)
    (hx : isXLMTransfer x = true) :
    verifyOp sdk apiKey src s i x =
      .ret (rejectResultWithSource StatusBadRequest "xlm_transfer_detected"
        "Transaction attempts to transfer native XLM — this is not allowed" src) := by
  have hns : isStructuralOp x.bodyType = false := by
    by_contra hst
    rw [isXLMTransfer_structural (by simpa using hst)] at hx
    exact Bool.noConfusion hx
  simp only [isStructuralOp, Bool.or_eq_false_iff, decide_eq_false_iff_not] at hns
  unfold verifyOp
  simp only [Operation.BuildXDR, hb, Bool.false_eq_true, if_false]
  rw [if_neg (fun h => hs h.1), if_neg hns.1, if_neg hns.2]
  unfold verifyPayload
  rw [if_pos hx]

theorem verifyOp_sponsor_source {sdk : SDK} {apiKey : model.APIKey} {src : String}
    {s : LoopState} {i : Nat} {x : Operation} (hb : sdk.buildFails x = false)
    (hs : getOperationSource x src = apiKey.SponsorAccount)
    (hx : x.bodyType ≠ .BeginSponsoringFutureReserves) :
    verifyOp sdk apiKey src s i x =
      .ret { initResult src with
        ErrorCode := "sponsor_as_source"
        ErrorMessage := "Operation uses the sponsor account as source — this is not allowed"
        HTTPStatus := StatusBadRequest } := by
  unfold verifyOp
  simp only [Operation.BuildXDR, hb, Bool.false_eq_true, if_false]
  rw [if_pos ⟨hs, hx⟩]

theorem verifyOp_mismatch {sdk : SDK} {apiKey : model.APIKey} {src : String}
    {s : LoopState} {i : Nat} {x : Operation} {top : String}
    (hb : sdk.buildFails x = false)
    (hs : getOperationSource x src ≠ apiKey.SponsorAccount)
    (hns : isStructuralOp x.bodyType = false)
    (hx : isXLMTransfer x = false)
    (hk : (OperationTypeName x.bodyType).2 = true)
    (ha : canonicalName x ∈ apiKey.AllowedOperations)
    (htop : s.sponsoredAccountStack.getLast? = some top)
    (hne : getOperationSource x src ≠ top) :
    verifyOp sdk apiKey src s i x =
      .ret (rejectResultWithSource StatusBadRequest "invalid_transaction"
        ("Operation source " ++ getOperationSource x src ++ " does not match SponsoredID " ++
          top ++ " in active BEGIN_SPONSORING_FUTURE_RESERVES block") src) := by
  simp only [isStructuralOp, Bool.or_eq_false_iff, decide_eq_false_iff_not] at hns
  unfold verifyOp
  simp only [Operation.BuildXDR, hb, Bool.false_eq_true, if_false]
  rw [if_neg (fun h => hs h.1), if_neg hns.1, if_neg hns.2]
  unfold verifyPayload
  have hlen : ¬ s.sponsoredAccountStack.length = 0 := by
    intro h0
    rw [List.length_eq_zero.mp h0] at htop
    simp at htop
  have hal : ¬ ¬ allowedOps apiKey (OperationTypeName x.bodyType).1 = true := by
    simpa [allowedOps, canonicalName] using ha
  rw [if_neg (by simp [hx]), if_neg (by simp [hk]), if_neg hal, if_neg hlen]
  rw [List.getLast?_eq_getElem?] at htop
  rw [htop]
  simp only []
  rw [if_pos hne]

theorem contains_mismatch_message (a b : String) :
    Contains ("Operation source " ++ a ++ " does not match SponsoredID " ++ b ++
      " in active BEGIN_SPONSORING_FUTURE_RESERVES block") "does not match SponsoredID" := by
  unfold Contains
  refine ⟨"Operation source ".data ++ a.data ++ [' '],
    [' '] ++ b.data ++ " in active BEGIN_SPONSORING_FUTURE_RESERVES block".data, ?_⟩
  simp [String.data_append]

/-! ## The claims on the verifier and the operation catalog -/

/-- C1. For every API key, whatever its allowed operations, and every envelope
that decodes (to a V1 transaction or to a fee-bump wrapper) with an operation
list holding at least one operation for which `isXLMTransfer` is true,
`Verify` returns, and the result it returns is not valid. -/
theorem Verify_rejects_native_egress (sdk : SDK) (txXDR : String) (apiKey : model.APIKey)
    (g : GenericTransaction) (tx : Transaction)
    (hdec : sdk.TransactionFromXDR txXDR = .ok g)
    (hg : g = .simple tx ∨ ∃ feeSource, g = .feeBump feeSource tx)
    (hx : ∃ op ∈ tx.Operations, isXLMTransfer op = true) :
    ∃ r, Verify sdk txXDR apiKey = some r ∧ r.Valid = false := by
  rcases hg with rfl | ⟨feeSource, rfl⟩
  · rw [Verify_simple hdec]
    apply verifyTx_rejects
    intro s hl
    obtain ⟨op, hop, hxl⟩ := hx
    have hfalse := ((verifyLoop_next hl).2.2.2.1 op hop).1
    rw [hxl] at hfalse
    exact Bool.noConfusion hfalse
  · rw [Verify_feeBump hdec]
    exact ⟨_, rfl, rfl⟩

/-- Witness of C1: a key whose allow-list wrongly holds `PAYMENT`, and a native
payment wrapped in a well-formed sponsorship block. -/
theorem Verify_rejects_native_egress_witness :
    (∃ op ∈ txNativePayment.Operations, isXLMTransfer op = true) ∧
    ∃ r, Verify (codecOf txNativePayment) "envelope" (keyOf ["PAYMENT"] []) = some r ∧
      r.Valid = false :=
  ⟨by decide,
   Verify_rejects_native_egress (codecOf txNativePayment) "envelope" (keyOf ["PAYMENT"] [])
    (.simple txNativePayment) txNativePayment rfl (Or.inl rfl) (by decide)⟩

/-- C4. For every envelope and key for which `Verify` returns a valid result,
the envelope decodes to a V1 transaction, `ReservesLocked` is the sum of
`reservesForOperation` over the operations that are neither BEGIN nor END, and
`Operations` is the list of the canonical names of those operations in order. -/
theorem Verify_valid_accounting (sdk : SDK) (txXDR : String) (apiKey : model.APIKey)
    (r : VerifyResult) (h : Verify sdk txXDR apiKey = some r) (hv : r.Valid = true) :
    ∃ tx, sdk.TransactionFromXDR txXDR = .ok (.simple tx) ∧
      r.ReservesLocked = ((payloadOps tx.Operations).map reservesForOperation).sum ∧
      r.Operations = (payloadOps tx.Operations).map canonicalName ∧
      (∀ op ∈ payloadOps tx.Operations, (OperationTypeName op.bodyType).2 = true) := by
  obtain ⟨tx, hdec, htx⟩ := Verify_valid h hv
  obtain ⟨_, _, s, hl, _, _, rfl⟩ := verifyTx_valid htx hv
  obtain ⟨hn, hr, _, _, _, hp⟩ := verifyLoop_next hl
  refine ⟨tx, hdec, ?_, ?_, fun op hop => (hp op hop).1⟩
  · simpa using hr
  · simpa using hn

/-- Witness of C4: the accepted transaction of the repository's test, one
MANAGE_DATA with a value inside a sponsorship block. -/
theorem Verify_valid_accounting_witness :
    Verify (codecOf txSponsoredData) "envelope" (keyOf ["MANAGE_DATA"] []) =
      some { Valid := true, Operations := ["MANAGE_DATA"], SourceAccount := "ALICE",
             ReservesLocked := 1 } ∧
    ∃ tx, (codecOf txSponsoredData).TransactionFromXDR "envelope" = .ok (.simple tx) ∧
      (1 : Int) = ((payloadOps tx.Operations).map reservesForOperation).sum ∧
      ["MANAGE_DATA"] = (payloadOps tx.Operations).map canonicalName ∧
      (∀ op ∈ payloadOps tx.Operations, (OperationTypeName op.bodyType).2 = true) :=
  ⟨by decide,
   Verify_valid_accounting (codecOf txSponsoredData) "envelope" (keyOf ["MANAGE_DATA"] [])
    { Valid := true, Operations := ["MANAGE_DATA"], SourceAccount := "ALICE",
      ReservesLocked := 1 } (by decide) rfl⟩

/-- C5. For every API key with a non-empty list of allowed source accounts and
every envelope for which `Verify` returns a valid result, the transaction
source is in that list and so is the effective source of every operation that
is neither BEGIN nor END. -/
theorem Verify_valid_sources_allowed (sdk : SDK) (txXDR : String) (apiKey : model.APIKey)
    (r : VerifyResult) (hne : apiKey.AllowedSourceAccounts ≠ [])
    (h : Verify sdk txXDR apiKey = some r) (hv : r.Valid = true) :
    ∃ tx, sdk.TransactionFromXDR txXDR = .ok (.simple tx) ∧
      tx.SourceAccount ∈ apiKey.AllowedSourceAccounts ∧
      ∀ op ∈ payloadOps tx.Operations,
        getOperationSource op tx.SourceAccount ∈ apiKey.AllowedSourceAccounts := by
  obtain ⟨tx, hdec, htx⟩ := Verify_valid h hv
  obtain ⟨_, _, s, hl, _, hsrc, _⟩ := verifyTx_valid htx hv
  obtain ⟨_, _, _, _, _, hp⟩ := verifyLoop_next hl
  exact ⟨tx, hdec, hsrc hne, fun op hop => (hp op hop).2.2 hne⟩

/-- Witness of C5: the accepted transaction under a key that allows only the
source account `ALICE`. -/
theorem Verify_valid_sources_allowed_witness :
    (keyOf ["MANAGE_DATA"] ["ALICE"]).AllowedSourceAccounts ≠ [] ∧
    ∃ tx, (codecOf txSponsoredData).TransactionFromXDR "envelope" = .ok (.simple tx) ∧
      tx.SourceAccount ∈ (keyOf ["MANAGE_DATA"] ["ALICE"]).AllowedSourceAccounts ∧
      ∀ op ∈ payloadOps tx.Operations,
        getOperationSource op tx.SourceAccount ∈
          (keyOf ["MANAGE_DATA"] ["ALICE"]).AllowedSourceAccounts :=
  ⟨by decide,
   Verify_valid_sources_allowed (codecOf txSponsoredData) "envelope"
    (keyOf ["MANAGE_DATA"] ["ALICE"])
    { Valid := true, Operations := ["MANAGE_DATA"], SourceAccount := "ALICE",
      ReservesLocked := 1 } (by decide) (by decide) rfl⟩

/-- C8. `Verify` is total: for every envelope string and key it returns a
result (the model's panic outcome never occurs) that is either valid with an
empty error code, or not valid with a non-empty error code and status 400; and
in every loop state neither the pop of END nor the read of the top of the
stack panics, the emptiness checks before them having returned. -/
theorem Verify_total (sdk : SDK) (txXDR : String) (apiKey : model.APIKey) :
    (∃ r, Verify sdk txXDR apiKey = some r ∧
      ((r.Valid = true ∧ r.ErrorCode = "") ∨
       (r.Valid = false ∧ r.ErrorCode ≠ "" ∧ r.HTTPStatus = 400))) ∧
    (∀ src s, verifyEnd src s ≠ .panic) ∧
    (∀ src s op opType opSource,
      verifyPayload apiKey src s op opType opSource ≠ .panic) ∧
    (∀ src s i ops, verifyLoop sdk apiKey src s i ops ≠ .panic) :=
  ⟨Verify_returns sdk txXDR apiKey, verifyEnd_ne_panic,
   fun src s op opType opSource => verifyPayload_ne_panic apiKey src s op opType opSource,
   fun src s i ops => verifyLoop_ne_panic sdk apiKey src ops s i⟩

/-- C2, as amended. For every API key, whatever its allowed operations, and
every envelope that decodes to a V1 transaction holding a PAYMENT of the native
asset, `Verify` returns a rejection; its error code is exactly
`xlm_transfer_detected` when the payment is the first thing to fail: the
transaction source is not the sponsor account, every operation before the
payment passes its checks, the payment re-serialises and its effective source
is not the sponsor account. -/
theorem Verify_native_payment (sdk : SDK) (txXDR : String) (apiKey : model.APIKey)
    (src : String) (p rest : List Operation) (sa dest amt : String)
    (hdec : sdk.TransactionFromXDR txXDR =
      .ok (.simple ⟨src, p ++ .Payment sa dest amt .NativeAsset :: rest⟩)) :
    ∃ r, Verify sdk txXDR apiKey = some r ∧ r.Valid = false ∧
      (src ≠ apiKey.SponsorAccount →
        (∃ s, verifyLoop sdk apiKey src {} 0 p = .next s) →
        sdk.buildFails (.Payment sa dest amt .NativeAsset) = false →
        getOperationSource (.Payment sa dest amt .NativeAsset) src ≠ apiKey.SponsorAccount →
        r.ErrorCode = "xlm_transfer_detected") := by
  rw [Verify_simple hdec]
  have hrej : ∃ r, verifyTx sdk apiKey ⟨src, p ++ .Payment sa dest amt .NativeAsset :: rest⟩ =
      some r ∧ r.Valid = false := by
    apply verifyTx_rejects
    intro s hl
    have hfalse := ((verifyLoop_next hl).2.2.2.1 (.Payment sa dest amt .NativeAsset)
      (by simp)).1
    exact Bool.noConfusion hfalse
  obtain ⟨r, hr, hv⟩ := hrej
  refine ⟨r, hr, hv, ?_⟩
  intro hsrc ⟨s, hp⟩ hb hs
  have h := verifyTx_first_return (q := rest) hsrc hp
    (verifyOp_xlm (s := s) (i := p.length) hb hs rfl)
  rw [h] at hr
  cases hr
  rfl

/-- Witness of C2 as amended: a native payment by the sponsored account inside
a well-formed block, under a key that allows `PAYMENT`. -/
theorem Verify_native_payment_witness :
    ∃ r, Verify (codecOf txNativePayment) "envelope" (keyOf ["PAYMENT"] []) = some r ∧
      r.Valid = false ∧ r.ErrorCode = "xlm_transfer_detected" := by
  obtain ⟨r, h1, h2, h3⟩ := Verify_native_payment (codecOf txNativePayment) "envelope"
    (keyOf ["PAYMENT"] []) "ALICE" [.BeginSponsoringFutureReserves "SPONSOR" "ALICE"]
    [.EndSponsoringFutureReserves "ALICE"] "ALICE" "BOB" "1.0000000" rfl
  exact ⟨r, h1, h2, h3 (by decide) ⟨_, rfl⟩ rfl (by decide)⟩

/-- Counterexample to C2 as stated: the only operation is a native PAYMENT
whose explicit source is the sponsor account; step 4a rejects it with
`sponsor_as_source` before step 4c is reached. -/
theorem Verify_native_payment_counterexample :
    (codecOf txPaymentBySponsor).TransactionFromXDR "envelope" =
      .ok (.simple txPaymentBySponsor) ∧
    .Payment "SPONSOR" "BOB" "1.0000000" .NativeAsset ∈ txPaymentBySponsor.Operations ∧
    Verify (codecOf txPaymentBySponsor) "envelope" (keyOf ["MANAGE_DATA"] []) =
      some { Valid := false, HTTPStatus := 400, ErrorCode := "sponsor_as_source",
             ErrorMessage := "Operation uses the sponsor account as source — this is not allowed",
             SourceAccount := "ALICE" } ∧
    ¬ ∃ r, Verify (codecOf txPaymentBySponsor) "envelope" (keyOf ["MANAGE_DATA"] []) = some r ∧
      r.ErrorCode = "xlm_transfer_detected" := by
  refine ⟨rfl, by decide, by decide, ?_⟩
  rintro ⟨r, hr, hc⟩
  have h : Verify (codecOf txPaymentBySponsor) "envelope" (keyOf ["MANAGE_DATA"] []) =
      some { Valid := false, HTTPStatus := 400, ErrorCode := "sponsor_as_source",
             ErrorMessage := "Operation uses the sponsor account as source — this is not allowed",
             SourceAccount := "ALICE" } := by decide
  rw [h] at hr
  cases hr
  exact absurd hc (by decide)

/-- C3, as amended. For every API key and every envelope that decodes to a V1
transaction: if the transaction source is the sponsor account, `Verify`
returns a rejection with error code exactly `sponsor_as_source`; and if some
operation other than BEGIN has effective source (explicit source, else
transaction source) equal to the sponsor account, `Verify` returns a rejection,
whose error code is exactly `sponsor_as_source` when that operation is the
first to fail (every operation before it passes its checks and it
re-serialises). -/
theorem Verify_sponsor_as_source (sdk : SDK) (txXDR : String) (apiKey : model.APIKey)
    (tx : Transaction) (hdec : sdk.TransactionFromXDR txXDR = .ok (.simple tx)) :
    (tx.SourceAccount = apiKey.SponsorAccount →
      ∃ r, Verify sdk txXDR apiKey = some r ∧ r.Valid = false ∧
        r.ErrorCode = "sponsor_as_source") ∧
    (∀ p x rest, tx.Operations = p ++ x :: rest →
      x.bodyType ≠ .BeginSponsoringFutureReserves →
      getOperationSource x tx.SourceAccount = apiKey.SponsorAccount →
      ∃ r, Verify sdk txXDR apiKey = some r ∧ r.Valid = false ∧
        ((∃ s, verifyLoop sdk apiKey tx.SourceAccount {} 0 p = .next s) →
          sdk.buildFails x = false → r.ErrorCode = "sponsor_as_source")) := by
  rw [Verify_simple hdec]
  have hpre : tx.SourceAccount = apiKey.SponsorAccount →
      ∃ r, verifyTx sdk apiKey tx = some r ∧ r.Valid = false ∧
        r.ErrorCode = "sponsor_as_source" := by
    intro hs
    unfold verifyTx
    simp only []
    rw [if_pos hs]
    exact ⟨_, rfl, rfl, rfl⟩
  refine ⟨hpre, ?_⟩
  intro p x rest hops hnb hsx
  by_cases hs : tx.SourceAccount = apiKey.SponsorAccount
  · obtain ⟨r, hr, hv, hc⟩ := hpre hs
    exact ⟨r, hr, hv, fun _ _ => hc⟩
  · have hrej : ∃ r, verifyTx sdk apiKey tx = some r ∧ r.Valid = false := by
      apply verifyTx_rejects
      intro s hl
      exact (verifyLoop_next hl).2.2.2.2.1 x (by rw [hops]; simp) hnb hsx
    obtain ⟨r, hr, hv⟩ := hrej
    refine ⟨r, hr, hv, ?_⟩
    intro ⟨s, hp⟩ hb
    have h := verifyTx_first_return (q := rest) hs hp
      (verifyOp_sponsor_source (s := s) (i := p.length) hb hsx hnb)
    have htx : tx = ⟨tx.SourceAccount, p ++ x :: rest⟩ := by
      cases tx
      simp only [Transaction.mk.injEq, true_and]
      exact hops
    rw [htx, h] at hr
    cases hr
    rfl

/-- Witness of C3 as amended: inside a block opened for `ALICE`, a MANAGE_DATA
whose explicit source is the sponsor account. -/
theorem Verify_sponsor_as_source_witness :
    ∃ r, Verify (codecOf txSponsorData) "envelope" (keyOf ["MANAGE_DATA"] []) = some r ∧
      r.Valid = false ∧ r.ErrorCode = "sponsor_as_source" := by
  obtain ⟨r, h1, h2, h3⟩ := (Verify_sponsor_as_source (codecOf txSponsorData) "envelope"
    (keyOf ["MANAGE_DATA"] []) txSponsorData rfl).2
    [.BeginSponsoringFutureReserves "SPONSOR" "ALICE"]
    (.ManageData "SPONSOR" "k" (some [118]))
    [.EndSponsoringFutureReserves "ALICE"] rfl (by decide) (by decide)
  exact ⟨r, h1, h2, h3 ⟨_, rfl⟩ rfl⟩

/-- Counterexample to C3 as stated: an END with no BEGIN comes before a
MANAGE_DATA sourced by the sponsor account; the END is rejected first, with
`invalid_transaction`. -/
theorem Verify_sponsor_as_source_counterexample :
    (codecOf txEndThenSponsorData).TransactionFromXDR "envelope" =
      .ok (.simple txEndThenSponsorData) ∧
    (∃ op ∈ txEndThenSponsorData.Operations,
      op.bodyType ≠ .BeginSponsoringFutureReserves ∧
      getOperationSource op txEndThenSponsorData.SourceAccount =
        (keyOf ["MANAGE_DATA"] []).SponsorAccount) ∧
    Verify (codecOf txEndThenSponsorData) "envelope" (keyOf ["MANAGE_DATA"] []) =
      some { Valid := false, HTTPStatus := 400, ErrorCode := "invalid_transaction",
             ErrorMessage := "END_SPONSORING_FUTURE_RESERVES without matching BEGIN",
             SourceAccount := "ALICE" } ∧
    ¬ ∃ r, Verify (codecOf txEndThenSponsorData) "envelope" (keyOf ["MANAGE_DATA"] []) =
        some r ∧ r.ErrorCode = "sponsor_as_source" := by
  refine ⟨rfl, by decide, by decide, ?_⟩
  rintro ⟨r, hr, hc⟩
  have h : Verify (codecOf txEndThenSponsorData) "envelope" (keyOf ["MANAGE_DATA"] []) =
      some { Valid := false, HTTPStatus := 400, ErrorCode := "invalid_transaction",
             ErrorMessage := "END_SPONSORING_FUTURE_RESERVES without matching BEGIN",
             SourceAccount := "ALICE" } := by decide
  rw [h] at hr
  cases hr
  exact absurd hc (by decide)

/-- C6. Bracket law of `Verify`. (a) For every envelope with a valid result,
reading BEGIN as push and END as pop, no END meets an empty stack and the stack
is empty after the last operation. (b) Every envelope with a payload operation
that the bracket reading reaches with an empty stack, or with a top of stack
other than the operation's effective source, is rejected. (c) When no earlier
check fails (the transaction source is not the sponsor, the operations before
pass, the payload operation re-serialises, is not sourced by the sponsor, is
no native transfer and has an allowed name) and its effective source differs
from the top of the stack, the rejection has code `invalid_transaction` and a
message containing "does not match SponsoredID". -/
theorem Verify_bracket_law (sdk : SDK) (txXDR : String) (apiKey : model.APIKey) :
    (∀ r, Verify sdk txXDR apiKey = some r → r.Valid = true →
      ∃ tx, sdk.TransactionFromXDR txXDR = .ok (.simple tx) ∧
        bracket [] tx.Operations = some []) ∧
    (∀ tx p x rest st, sdk.TransactionFromXDR txXDR = .ok (.simple tx) →
      tx.Operations = p ++ x :: rest → isStructuralOp x.bodyType = false →
      bracket [] p = some st →
      (st = [] ∨ st.getLast? ≠ some (getOperationSource x tx.SourceAccount)) →
      ∃ r, Verify sdk txXDR apiKey = some r ∧ r.Valid = false) ∧
    (∀ tx p x rest s top, sdk.TransactionFromXDR txXDR = .ok (.simple tx) →
      tx.SourceAccount ≠ apiKey.SponsorAccount →
      tx.Operations = p ++ x :: rest →
      verifyLoop sdk apiKey tx.SourceAccount {} 0 p = .next s →
      sdk.buildFails x = false →
      getOperationSource x tx.SourceAccount ≠ apiKey.SponsorAccount →
      isStructuralOp x.bodyType = false → isXLMTransfer x = false →
      (OperationTypeName x.bodyType).2 = true →
      canonicalName x ∈ apiKey.AllowedOperations →
      s.sponsoredAccountStack.getLast? = some top →
      getOperationSource x tx.SourceAccount ≠ top →
      ∃ r, Verify sdk txXDR apiKey = some r ∧ r.Valid = false ∧
        r.ErrorCode = "invalid_transaction" ∧
        Contains r.ErrorMessage "does not match SponsoredID") := by
  refine ⟨?_, ?_, ?_⟩
  · intro r h hv
    obtain ⟨tx, hdec, htx⟩ := Verify_valid h hv
    obtain ⟨_, _, s, hl, hs, _, _⟩ := verifyTx_valid htx hv
    have hb := (verifyLoop_next hl).2.2.1
    rw [hs] at hb
    exact ⟨tx, hdec, hb⟩
  · intro tx p x rest st hdec hops hns hbr hst
    rw [Verify_simple hdec]
    apply verifyTx_rejects
    intro s' hl
    rw [hops, verifyLoop_append] at hl
    cases hp : verifyLoop sdk apiKey tx.SourceAccount {} 0 p with
    | panic => rw [hp] at hl; exact Step.noConfusion hl
    | ret r => rw [hp] at hl; exact Step.noConfusion hl
    | next s1 =>
      rw [hp] at hl
      simp only [] at hl
      obtain ⟨s2, hx, _⟩ := verifyLoop_cons_next.mp hl
      have hb := (verifyLoop_next hp).2.2.1
      simp only [] at hb
      rw [hbr, Option.some.injEq] at hb
      obtain ⟨_, hcase⟩ := verifyOp_next hx
      rcases hcase with ⟨sa, sid, rfl, _⟩ | ⟨hend, _⟩ | ⟨_, _, _, _, _, htop, _⟩
      · exact absurd hns (by simp [isStructuralOp, Operation.bodyType])
      · simp [isStructuralOp, hend] at hns
      · rw [← hb] at htop
        rcases hst with h0 | hne
        · rw [h0] at htop
          simp at htop
        · exact hne htop
  · intro tx p x rest s top hdec hsrc hops hp hb hs hns hx hk ha htop hne
    rw [Verify_simple hdec]
    have h := verifyTx_first_return (q := rest) hsrc hp
      (verifyOp_mismatch (i := p.length) hb hs hns hx hk ha htop hne)
    have htx : tx = ⟨tx.SourceAccount, p ++ x :: rest⟩ := by
      cases tx
      simp only [Transaction.mk.injEq, true_and]
      exact hops
    rw [htx, h]
    exact ⟨_, rfl, rfl, rfl, contains_mismatch_message _ _⟩

/-- Witness of C6: the accepted and the rejected transaction of the
repository's two verifier tests. -/
theorem Verify_bracket_law_witness :
    (∃ tx, (codecOf txSponsoredData).TransactionFromXDR "envelope" = .ok (.simple tx) ∧
      bracket [] tx.Operations = some []) ∧
    (∃ r, Verify (codecOf txMismatch) "envelope" (keyOf ["MANAGE_DATA"] []) = some r ∧
      r.Valid = false) ∧
    (∃ r, Verify (codecOf txMismatch) "envelope" (keyOf ["MANAGE_DATA"] []) = some r ∧
      r.Valid = false ∧ r.ErrorCode = "invalid_transaction" ∧
      Contains r.ErrorMessage "does not match SponsoredID") :=
  ⟨(Verify_bracket_law (codecOf txSponsoredData) "envelope" (keyOf ["MANAGE_DATA"] [])).1
      { Valid := true, Operations := ["MANAGE_DATA"], SourceAccount := "ALICE",
        ReservesLocked := 1 } (by decide) rfl,
   (Verify_bracket_law (codecOf txMismatch) "envelope" (keyOf ["MANAGE_DATA"] [])).2.1
      txMismatch [.BeginSponsoringFutureReserves "SPONSOR" "ALICE"]
      (.ManageData "MALLORY" "k" (some [118])) [.EndSponsoringFutureReserves "ALICE"]
      ["ALICE"] rfl rfl rfl rfl (Or.inr (by decide)),
   (Verify_bracket_law (codecOf txMismatch) "envelope" (keyOf ["MANAGE_DATA"] [])).2.2
      txMismatch [.BeginSponsoringFutureReserves "SPONSOR" "ALICE"]
      (.ManageData "MALLORY" "k" (some [118])) [.EndSponsoringFutureReserves "ALICE"]
      { sponsoredAccountStack := ["ALICE"] } "ALICE" rfl (by decide) rfl rfl rfl
      (by decide) rfl rfl rfl (by decide) rfl (by decide)⟩

/-- C7. Short-circuit determinism of `Verify`: when the loop is reached, every
operation of `p` passes its checks and the iteration on `x` returns the
rejection `res`, the envelopes with operations `p ++ [x] ++ r` and
`p ++ [x] ++ r'`, `r'` a permutation of `r`, both get exactly `res` (same code,
message, status and source). The proof does not use that `r'` permutes `r`:
nothing after `x` is read. -/
theorem Verify_short_circuit (sdk : SDK) (apiKey : model.APIKey) (e e' : String)
    (src : String) (p r r' : List Operation) (x : Operation) (s : LoopState)
    (res : VerifyResult) (_hperm : r'.Perm r)
    (hdec : sdk.TransactionFromXDR e = .ok (.simple ⟨src, p ++ [x] ++ r⟩))
    (hdec' : sdk.TransactionFromXDR e' = .ok (.simple ⟨src, p ++ [x] ++ r'⟩))
    (hsrc : src ≠ apiKey.SponsorAccount)
    (hp : verifyLoop sdk apiKey src {} 0 p = .next s)
    (hx : verifyOp sdk apiKey src s p.length x = .ret res) :
    Verify sdk e apiKey = some res ∧ Verify sdk e' apiKey = some res ∧
      Verify sdk e' apiKey = Verify sdk e apiKey := by
  have h1 : Verify sdk e apiKey = some res := by
    rw [Verify_simple hdec, List.append_assoc, List.singleton_append]
    exact verifyTx_first_return hsrc hp hx
  have h2 : Verify sdk e' apiKey = some res := by
    rw [Verify_simple hdec', List.append_assoc, List.singleton_append]
    exact verifyTx_first_return hsrc hp hx
  exact ⟨h1, h2, h2.trans h1.symm⟩

/-- Witness of C7: after the rejected MANAGE_DATA of `txMismatch`, an END and a
CREATE_ACCOUNT in either order. -/
theorem Verify_short_circuit_witness :
    Verify (codecPair txMismatchThenA txMismatchThenB) "first" (keyOf ["MANAGE_DATA"] []) =
      some (rejectResultWithSource 400 "invalid_transaction"
        ("Operation source MALLORY does not match SponsoredID ALICE" ++
          " in active BEGIN_SPONSORING_FUTURE_RESERVES block") "ALICE") ∧
    Verify (codecPair txMismatchThenA txMismatchThenB) "second" (keyOf ["MANAGE_DATA"] []) =
      some (rejectResultWithSource 400 "invalid_transaction"
        ("Operation source MALLORY does not match SponsoredID ALICE" ++
          " in active BEGIN_SPONSORING_FUTURE_RESERVES block") "ALICE") ∧
    Verify (codecPair txMismatchThenA txMismatchThenB) "second" (keyOf ["MANAGE_DATA"] []) =
      Verify (codecPair txMismatchThenA txMismatchThenB) "first" (keyOf ["MANAGE_DATA"] []) :=
  Verify_short_circuit (codecPair txMismatchThenA txMismatchThenB) (keyOf ["MANAGE_DATA"] [])
    "first" "second" "ALICE" [.BeginSponsoringFutureReserves "SPONSOR" "ALICE"]
    [.EndSponsoringFutureReserves "ALICE", .CreateAccount "ALICE" "BOB" "1.0000000"]
    [.CreateAccount "ALICE" "BOB" "1.0000000", .EndSponsoringFutureReserves "ALICE"]
    (.ManageData "MALLORY" "k" (some [118])) { sponsoredAccountStack := ["ALICE"] }
    _ (List.Perm.swap _ _ []) rfl rfl (by decide) rfl rfl

/-- C9. `reservesForOperation` is the catalog's cost table, read by canonical
name: CREATE_ACCOUNT gives 2; CHANGE_TRUST gives 0 when its limit is the string
"0" and 1 otherwise; MANAGE_SELL_OFFER and MANAGE_BUY_OFFER give 1 when the
offer id is 0 and 0 otherwise; SET_OPTIONS gives 1 when a signer is present and
0 otherwise; MANAGE_DATA gives 1 when a value is present and 0 when it is
absent; CREATE_CLAIMABLE_BALANCE gives 1; every operation whose name is not one
of these seven gives 0; so the result is always 0, 1 or 2. -/
theorem reservesForOperation_table (op : Operation) :
    (canonicalName op = "CREATE_ACCOUNT" → reservesForOperation op = 2) ∧
    (canonicalName op = "CHANGE_TRUST" →
      ∃ sa limit, op = .ChangeTrust sa limit ∧
        (limit = "0" → reservesForOperation op = 0) ∧
        (limit ≠ "0" → reservesForOperation op = 1)) ∧
    (canonicalName op = "MANAGE_SELL_OFFER" →
      ∃ sa offerID, op = .ManageSellOffer sa offerID ∧
        (offerID = 0 → reservesForOperation op = 1) ∧
        (offerID ≠ 0 → reservesForOperation op = 0)) ∧
    (canonicalName op = "MANAGE_BUY_OFFER" →
      ∃ sa offerID, op = .ManageBuyOffer sa offerID ∧
        (offerID = 0 → reservesForOperation op = 1) ∧
        (offerID ≠ 0 → reservesForOperation op = 0)) ∧
    (canonicalName op = "SET_OPTIONS" →
      ∃ sa signer mw lo me hi, op = .SetOptions sa signer mw lo me hi ∧
        (signer ≠ none → reservesForOperation op = 1) ∧
        (signer = none → reservesForOperation op = 0)) ∧
    (canonicalName op = "MANAGE_DATA" →
      ∃ sa name value, op = .ManageData sa name value ∧
        (value ≠ none → reservesForOperation op = 1) ∧
        (value = none → reservesForOperation op = 0)) ∧
    (canonicalName op = "CREATE_CLAIMABLE_BALANCE" → reservesForOperation op = 1) ∧
    (canonicalName op ∉ SupportedOperations → reservesForOperation op = 0) ∧
    (reservesForOperation op = 0 ∨ reservesForOperation op = 1 ∨
      reservesForOperation op = 2) := by
  cases op with
  | ChangeTrust sa limit =>
    by_cases h : limit = "0"
    · simp [canonicalName, OperationTypeName, Operation.bodyType, reservesForOperation,
        SupportedOperations, h]
    · simp [canonicalName, OperationTypeName, Operation.bodyType, reservesForOperation,
        SupportedOperations, h]
      exact ⟨sa, limit, ⟨rfl, rfl⟩, h⟩
  | ManageSellOffer sa offerID =>
    by_cases h : offerID = 0
    · simp [canonicalName, OperationTypeName, Operation.bodyType, reservesForOperation,
        SupportedOperations, h]
    · simp [canonicalName, OperationTypeName, Operation.bodyType, reservesForOperation,
        SupportedOperations, h]
      exact ⟨sa, offerID, ⟨rfl, rfl⟩, h⟩
  | ManageBuyOffer sa offerID =>
    by_cases h : offerID = 0
    · simp [canonicalName, OperationTypeName, Operation.bodyType, reservesForOperation,
        SupportedOperations, h]
    · simp [canonicalName, OperationTypeName, Operation.bodyType, reservesForOperation,
        SupportedOperations, h]
      exact ⟨sa, offerID, ⟨rfl, rfl⟩, h⟩
  | SetOptions sa signer mw lo me hi =>
    cases signer with
    | none =>
      simp [canonicalName, OperationTypeName, Operation.bodyType, reservesForOperation,
        SupportedOperations]
    | some sg =>
      simp [canonicalName, OperationTypeName, Operation.bodyType, reservesForOperation,
        SupportedOperations]
      exact ⟨sa, some sg, ⟨rfl, rfl⟩, by simp⟩
  | ManageData sa name value =>
    cases value with
    | none =>
      simp [canonicalName, OperationTypeName, Operation.bodyType, reservesForOperation,
        SupportedOperations]
    | some v =>
      simp [canonicalName, OperationTypeName, Operation.bodyType, reservesForOperation,
        SupportedOperations]
      exact ⟨sa, name, some v, ⟨rfl, rfl, rfl⟩, by simp⟩
  | _ =>
    simp [canonicalName, OperationTypeName, Operation.bodyType, reservesForOperation,
      SupportedOperations]

/-- Witness of C9: a CREATE_ACCOUNT, a CREATE_CLAIMABLE_BALANCE and, outside
the seven names, a PAYMENT. -/
theorem reservesForOperation_table_witness :
    reservesForOperation (.CreateAccount "" "BOB" "1.0000000") = 2 ∧
    reservesForOperation (.CreateClaimableBalance "") = 1 ∧
    reservesForOperation (.Payment "" "BOB" "1.0000000" (.CreditAsset "USDC" "ISSUER")) = 0 :=
  ⟨(reservesForOperation_table (.CreateAccount "" "BOB" "1.0000000")).1 rfl,
   (reservesForOperation_table (.CreateClaimableBalance "")).2.2.2.2.2.2.1 rfl,
   (reservesForOperation_table
      (.Payment "" "BOB" "1.0000000" (.CreditAsset "USDC" "ISSUER"))).2.2.2.2.2.2.2.1
      (by decide)⟩

/-- C10. `isXLMTransfer op` is true exactly when `op` is a PAYMENT whose asset
is native, a PATH_PAYMENT_STRICT_SEND or PATH_PAYMENT_STRICT_RECEIVE whose send
asset or destination asset is native, an ACCOUNT_MERGE, an INFLATION, or a
CLAWBACK whose asset is native; it is false for every other operation, and for
a path payment between two credit assets. -/
theorem isXLMTransfer_iff (op : Operation) :
    (isXLMTransfer op = true ↔
      (∃ sa dest amt asset, op = .Payment sa dest amt asset ∧ asset.IsNative = true) ∨
      (∃ sa send dst, op = .PathPaymentStrictSend sa send dst ∧
        (send.IsNative = true ∨ dst.IsNative = true)) ∨
      (∃ sa send dst, op = .PathPaymentStrictReceive sa send dst ∧
        (send.IsNative = true ∨ dst.IsNative = true)) ∨
      (∃ sa, op = .AccountMerge sa) ∨
      (∃ sa, op = .Inflation sa) ∨
      (∃ sa asset, op = .Clawback sa asset ∧ asset.IsNative = true)) ∧
    (∀ sa c1 i1 c2 i2,
      isXLMTransfer (.PathPaymentStrictSend sa (.CreditAsset c1 i1) (.CreditAsset c2 i2)) = false ∧
      isXLMTransfer (.PathPaymentStrictReceive sa (.CreditAsset c1 i1) (.CreditAsset c2 i2)) =
        false) := by
  refine ⟨?_, fun _ _ _ _ _ => ⟨rfl, rfl⟩⟩
  cases op with
  | Payment sa dest amt asset =>
    simp only [isXLMTransfer]
    constructor
    · intro h
      exact Or.inl ⟨sa, dest, amt, asset, rfl, h⟩
    · rintro (⟨_, _, _, _, heq, h⟩ | ⟨_, _, _, heq, _⟩ | ⟨_, _, _, heq, _⟩ | ⟨_, heq⟩ |
        ⟨_, heq⟩ | ⟨_, _, heq, _⟩) <;> cases heq
      exact h
  | PathPaymentStrictSend sa send dst =>
    simp only [isXLMTransfer, Bool.or_eq_true]
    constructor
    · intro h
      exact Or.inr (Or.inl ⟨sa, send, dst, rfl, h⟩)
    · rintro (⟨_, _, _, _, heq, _⟩ | ⟨_, _, _, heq, h⟩ | ⟨_, _, _, heq, _⟩ | ⟨_, heq⟩ |
        ⟨_, heq⟩ | ⟨_, _, heq, _⟩) <;> cases heq
      exact h
  | PathPaymentStrictReceive sa send dst =>
    simp only [isXLMTransfer, Bool.or_eq_true]
    constructor
    · intro h
      exact Or.inr (Or.inr (Or.inl ⟨sa, send, dst, rfl, h⟩))
    · rintro (⟨_, _, _, _, heq, _⟩ | ⟨_, _, _, heq, _⟩ | ⟨_, _, _, heq, h⟩ | ⟨_, heq⟩ |
        ⟨_, heq⟩ | ⟨_, _, heq, _⟩) <;> cases heq
      exact h
  | Clawback sa asset =>
    simp only [isXLMTransfer]
    constructor
    · intro h
      exact Or.inr (Or.inr (Or.inr (Or.inr (Or.inr ⟨sa, asset, rfl, h⟩))))
    · rintro (⟨_, _, _, _, heq, _⟩ | ⟨_, _, _, heq, _⟩ | ⟨_, _, _, heq, _⟩ | ⟨_, heq⟩ |
        ⟨_, heq⟩ | ⟨_, _, heq, h⟩) <;> cases heq
      exact h
  | _ => simp [isXLMTransfer]

end stellar

namespace middleware

/-! ## The rate limiter -/

theorem cleanupInterval_eq : cleanupInterval = 300000000000 := by decide

theorem expiredWindowGrace_eq : expiredWindowGrace = 600000000000 := by decide

theorem staleEntryTTL_eq : staleEntryTTL = 86400000000000 := by decide

theorem Second_eq : time.Second = 1000000000 := rfl

theorem window_evicted_iff (w : window) (now : Int) :
    w.evicted now = true ↔
      now - w.lastSeen > staleEntryTTL ∨ now > w.resetAt + expiredWindowGrace := by
  simp [window.evicted]

theorem RateLimiter.cleanupLocked_skip {rl : RateLimiter} {now : Int}
    (h : now - rl.lastCleanup < cleanupInterval) : rl.cleanupLocked now = rl := by
  unfold RateLimiter.cleanupLocked
  rw [if_pos h]

theorem RateLimiter.cleanupLocked_none {rl : RateLimiter} {now : Int} {k : String}
    (h : rl.counters k = none) : (rl.cleanupLocked now).counters k = none := by
  unfold RateLimiter.cleanupLocked
  split_ifs
  · exact h
  · simp only [h]

theorem RateLimiter.cleanupLocked_keep {rl : RateLimiter} {now : Int} {k : String}
    {w : window} (h : rl.counters k = some w) (hw : w.evicted now = false) :
    (rl.cleanupLocked now).counters k = some w := by
  unfold RateLimiter.cleanupLocked
  split_ifs
  · exact h
  · simp only [h, hw]
    rfl

theorem RateLimiter.cleanupLocked_evict {rl : RateLimiter} {now : Int} {k : String}
    {w : window} (hdue : ¬ now - rl.lastCleanup < cleanupInterval)
    (h : rl.counters k = some w) (hw : w.evicted now = true) :
    (rl.cleanupLocked now).counters k = none := by
  unfold RateLimiter.cleanupLocked
  rw [if_neg hdue]
  simp only [h, hw]
  rfl

theorem RateLimiter.cleanupLocked_cases (rl : RateLimiter) (now : Int) (k : String) :
    (rl.cleanupLocked now).counters k = rl.counters k ∨
      (rl.cleanupLocked now).counters k = none := by
  cases h : rl.counters k with
  | none => exact Or.inr (RateLimiter.cleanupLocked_none h)
  | some w =>
    cases hw : w.evicted now with
    | false => exact Or.inl (RateLimiter.cleanupLocked_keep h hw)
    | true =>
      by_cases hdue : now - rl.lastCleanup < cleanupInterval
      · rw [RateLimiter.cleanupLocked_skip hdue]
        exact Or.inl h
      · exact Or.inr (RateLimiter.cleanupLocked_evict hdue h hw)

theorem RateLimiter.cleanupLocked_lastCleanup {rl : RateLimiter} {now : Int}
    (hdue : ¬ now - rl.lastCleanup < cleanupInterval) :
    (rl.cleanupLocked now).lastCleanup = now := by
  unfold RateLimiter.cleanupLocked
  rw [if_neg hdue]

theorem RateLimiter.set_same (rl : RateLimiter) (k : String) (w : window) :
    (rl.set k w).counters k = some w := by
  simp [RateLimiter.set]

theorem RateLimiter.set_other (rl : RateLimiter) {k k' : String} (w : window) (h : k' ≠ k) :
    (rl.set k w).counters k' = rl.counters k' := by
  simp [RateLimiter.set, h]

theorem RateLimiter.set_lastCleanup (rl : RateLimiter) (k : String) (w : window) :
    (rl.set k w).lastCleanup = rl.lastCleanup := rfl

/-- The triple a fresh window returns. -/
theorem RateLimiter.Allow_none {rl : RateLimiter} {apiKey : model.APIKey} {now : Nat}
    (h : rl.counters apiKey.ID = none) :
    rl.Allow apiKey now =
      ((true, apiKey.RateLimitMax - 1,
        now + stellar.int64 (apiKey.RateLimitWindow * time.Second)),
       (rl.set apiKey.ID
          { count := 1, windowStart := now,
            resetAt := now + stellar.int64 (apiKey.RateLimitWindow * time.Second),
            lastSeen := now }).cleanupLocked now) := by
  simp only [RateLimiter.Allow, h]

theorem RateLimiter.Allow_expired {rl : RateLimiter} {apiKey : model.APIKey} {now : Nat}
    {w : window} (h : rl.counters apiKey.ID = some w) (hexp : (now : Int) > w.resetAt) :
    rl.Allow apiKey now =
      ((true, apiKey.RateLimitMax - 1,
        now + stellar.int64 (apiKey.RateLimitWindow * time.Second)),
       (rl.set apiKey.ID
          { count := 1, windowStart := now,
            resetAt := now + stellar.int64 (apiKey.RateLimitWindow * time.Second),
            lastSeen := now }).cleanupLocked now) := by
  simp only [RateLimiter.Allow, h, if_pos hexp]

theorem RateLimiter.Allow_full {rl : RateLimiter} {apiKey : model.APIKey} {now : Nat}
    {w : window} (h : rl.counters apiKey.ID = some w) (hlive : ¬ (now : Int) > w.resetAt)
    (hfull : w.count ≥ apiKey.RateLimitMax) :
    rl.Allow apiKey now =
      ((false, 0, w.resetAt),
       (rl.set apiKey.ID { w with lastSeen := now }).cleanupLocked now) := by
  simp only [RateLimiter.Allow, h, if_neg hlive, if_pos hfull]

theorem RateLimiter.Allow_count {rl : RateLimiter} {apiKey : model.APIKey} {now : Nat}
    {w : window} (h : rl.counters apiKey.ID = some w) (hlive : ¬ (now : Int) > w.resetAt)
    (hroom : ¬ w.count ≥ apiKey.RateLimitMax) :
    rl.Allow apiKey now =
      ((true, apiKey.RateLimitMax - (w.count + 1), w.resetAt),
       (rl.set apiKey.ID { w with lastSeen := now, count := w.count + 1 }).cleanupLocked
        now) := by
  simp only [RateLimiter.Allow, h, if_neg hlive, if_neg hroom]

/-- An entry touched at `now` inside its window survives the cleanup that
follows. -/
theorem window_live_not_evicted {w : window} {now : Int} (hseen : w.lastSeen = now)
    (hlive : ¬ now > w.resetAt) : w.evicted now = false := by
  rw [Bool.eq_false_iff]
  intro h
  rw [window_evicted_iff, staleEntryTTL_eq, expiredWindowGrace_eq] at h
  omega

end middleware

namespace middleware

theorem RateLimiter.Allow_result (rl : RateLimiter) (apiKey : model.APIKey) (now : Nat) :
    (rl.Allow apiKey now).1 =
      match rl.counters apiKey.ID with
      | none =>
        (true, apiKey.RateLimitMax - 1,
          now + stellar.int64 (apiKey.RateLimitWindow * time.Second))
      | some w =>
        if (now : Int) > w.resetAt then
          (true, apiKey.RateLimitMax - 1,
            now + stellar.int64 (apiKey.RateLimitWindow * time.Second))
        else if w.count ≥ apiKey.RateLimitMax then (false, 0, w.resetAt)
        else (true, apiKey.RateLimitMax - (w.count + 1), w.resetAt) := by
  cases h : rl.counters apiKey.ID with
  | none => rw [RateLimiter.Allow_none h]
  | some w =>
    by_cases hexp : (now : Int) > w.resetAt
    · rw [RateLimiter.Allow_expired h hexp]
      simp only [if_pos hexp]
    · by_cases hfull : w.count ≥ apiKey.RateLimitMax
      · rw [RateLimiter.Allow_full h hexp hfull]
        simp only [if_neg hexp, if_pos hfull]
      · rw [RateLimiter.Allow_count h hexp hfull]
        simp only [if_neg hexp, if_neg hfull]

/-- The entry of the key after an `Allow` call inside a live window. -/
theorem RateLimiter.Allow_live_entry {rl : RateLimiter} (apiKey : model.APIKey) {now : Nat}
    {w : window} (h : rl.counters apiKey.ID = some w) (hlive : ¬ (now : Int) > w.resetAt) :
    (rl.Allow apiKey now).2.counters apiKey.ID =
      some { w with
        lastSeen := now
        count := if w.count ≥ apiKey.RateLimitMax then w.count else w.count + 1 } := by
  by_cases hfull : w.count ≥ apiKey.RateLimitMax
  · rw [RateLimiter.Allow_full h hlive hfull, if_pos hfull]
    exact RateLimiter.cleanupLocked_keep (RateLimiter.set_same _ _ _)
      (window_live_not_evicted rfl hlive)
  · rw [RateLimiter.Allow_count h hlive hfull, if_neg hfull]
    exact RateLimiter.cleanupLocked_keep (RateLimiter.set_same _ _ _)
      (window_live_not_evicted rfl hlive)

/-- The state after a call that opens a fresh window. -/
theorem RateLimiter.Allow_fresh_state {rl : RateLimiter} {apiKey : model.APIKey} (now : Nat)
    (h : rl.counters apiKey.ID = none ∨
      ∃ w, rl.counters apiKey.ID = some w ∧ (now : Int) > w.resetAt) :
    rl.Allow apiKey now =
      ((true, apiKey.RateLimitMax - 1,
        now + stellar.int64 (apiKey.RateLimitWindow * time.Second)),
       (rl.set apiKey.ID
          { count := 1, windowStart := now,
            resetAt := now + stellar.int64 (apiKey.RateLimitWindow * time.Second),
            lastSeen := now }).cleanupLocked now) := by
  rcases h with h | ⟨w, h, hexp⟩
  · exact RateLimiter.Allow_none h
  · exact RateLimiter.Allow_expired h hexp

/-- The window product of `Allow` is exact for a window whose length in
nanoseconds is in the range of an `int64`. -/
theorem windowDuration_exact {window : Int} (hlo : -9223372036 ≤ window)
    (hhi : window ≤ 9223372036) :
    stellar.int64 (window * time.Second) = window * time.Second := by
  unfold stellar.int64
  rw [Second_eq]
  omega

/-- The entry of the key after a call that opens a fresh window, for a window
of at least one second whose length in nanoseconds is in the range of an
`int64`. -/
theorem RateLimiter.Allow_fresh_entry {rl : RateLimiter} {apiKey : model.APIKey} (now : Nat)
    (h : rl.counters apiKey.ID = none ∨
      ∃ w, rl.counters apiKey.ID = some w ∧ (now : Int) > w.resetAt)
    (hlo : 1 ≤ apiKey.RateLimitWindow) (hhi : apiKey.RateLimitWindow ≤ 9223372036) :
    (rl.Allow apiKey now).2.counters apiKey.ID =
      some { count := 1, windowStart := now,
             resetAt := now + apiKey.RateLimitWindow * time.Second, lastSeen := now } := by
  rw [RateLimiter.Allow_fresh_state now h, windowDuration_exact (by omega) hhi]
  apply RateLimiter.cleanupLocked_keep (RateLimiter.set_same _ _ _)
  rw [Bool.eq_false_iff]
  intro hev
  rw [window_evicted_iff, staleEntryTTL_eq, expiredWindowGrace_eq, Second_eq] at hev
  simp only at hev
  omega

/-- A run of calls that all fall inside the live window of the key's entry:
the call number `i` (from 0) is refused once `count + i` has reached the
maximum. -/
theorem RateLimiter.allowAll_live (apiKey : model.APIKey) (ts : List Nat) :
    ∀ (rl : RateLimiter) (w : window), rl.counters apiKey.ID = some w →
      (∀ t ∈ ts, (t : Int) ≤ w.resetAt) →
      (rl.allowAll apiKey ts).1 =
        (List.range ts.length).map (fun (i : Nat) =>
          if w.count + (i : Int) ≥ apiKey.RateLimitMax then (false, (0 : Int), w.resetAt)
          else (true, apiKey.RateLimitMax - (w.count + (i : Int) + 1), w.resetAt)) ∧
      ∃ w', (rl.allowAll apiKey ts).2.counters apiKey.ID = some w' ∧
        w'.resetAt = w.resetAt := by
  induction ts with
  | nil => intro rl w h _; exact ⟨rfl, w, h, rfl⟩
  | cons t rest ih =>
    intro rl w h hts
    have hlive : ¬ (t : Int) > w.resetAt := by
      have := hts t (List.mem_cons_self _ _)
      omega
    have hentry := RateLimiter.Allow_live_entry apiKey h hlive
    have hres := RateLimiter.Allow_result rl apiKey t
    rw [h] at hres
    simp only [if_neg hlive] at hres
    obtain ⟨ih1, w', ih2, ih3⟩ := ih (rl.Allow apiKey t).2 _ hentry
      (fun u hu => hts u (List.mem_cons_of_mem _ hu))
    refine ⟨?_, w', ih2, ih3⟩
    simp only [RateLimiter.allowAll, List.length_cons, List.range_succ_eq_map, List.map_cons,
      List.map_map]
    rw [ih1, hres]
    congr 1
    · simp
    · apply List.map_congr_left
      intro i _
      simp only [Function.comp]
      by_cases hfull : w.count ≥ apiKey.RateLimitMax
      · simp only [if_pos hfull]
        have h1 : w.count + (i : Int) ≥ apiKey.RateLimitMax := by omega
        have h2 : w.count + ((i + 1 : Nat) : Int) ≥ apiKey.RateLimitMax := by omega
        rw [if_pos h1, if_pos h2]
      · simp only [if_neg hfull]
        by_cases h1 : w.count + 1 + (i : Int) ≥ apiKey.RateLimitMax
        · have h2 : w.count + ((i + 1 : Nat) : Int) ≥ apiKey.RateLimitMax := by omega
          rw [if_pos h1, if_pos h2]
        · have h2 : ¬ w.count + ((i + 1 : Nat) : Int) ≥ apiKey.RateLimitMax := by omega
          rw [if_neg h1, if_neg h2]
          congr 2
          push_cast
          ring

end middleware

namespace middleware

/-! ## The claims on the rate limiter -/

/-- C11 (the code departs from it). A key with `max = 2` and a window of 10 s,
on a new limiter: the calls at 0 s, 9 s, 11 s and 12 s are all allowed, the
third one opening a new fixed window, so that three calls are allowed in the
interval from 9 s to 12 s, which is shorter than the window. -/
theorem RateLimiter_burst_across_windows :
    (((NewRateLimiter 0).allowAll (keyRate 2 10)
        [0, 9000000000, 11000000000, 12000000000]).1.map (fun r => r.1) =
      [true, true, true, true]) ∧
    allowedWithin 9000000000 12000000000 [0, 9000000000, 11000000000, 12000000000]
      ((NewRateLimiter 0).allowAll (keyRate 2 10)
        [0, 9000000000, 11000000000, 12000000000]).1 = 3 ∧
    ((12000000000 : Int) - 9000000000 ≤ (keyRate 2 10).RateLimitWindow * time.Second) ∧
    (keyRate 2 10).RateLimitMax < 3 := by
  decide

/-- C12, as amended. `Allow` follows the fixed-window rule for a key with
`max ≥ 1` and a window from 1 s to 9223372036 s, the windows whose length in
nanoseconds is in the range of an `int64`: with no entry, or with `now` after
the entry's `resetAt`, the entry becomes
`{count = 1, windowStart = now, resetAt = now + window}` and the call returns
`(true, max − 1, now + window)`; otherwise with `count ≥ max` it returns
`(false, 0, resetAt)` and leaves the count, else it adds one to the count and
returns `(true, max − count, resetAt)`. Hence from a limiter with no entry for
the key the call number `k` inside one window returns `(true, max − k)` for
`k ≤ max` and `(false, 0)` for `k > max`, and a call after `resetAt` returns
`(true, max − 1)` again. -/
theorem RateLimiter.Allow_fixed_window (rl : RateLimiter) (apiKey : model.APIKey)
    (hmax : 1 ≤ apiKey.RateLimitMax) (hlo : 1 ≤ apiKey.RateLimitWindow)
    (hhi : apiKey.RateLimitWindow ≤ 9223372036) :
    (∀ now : Nat,
      (rl.counters apiKey.ID = none ∨
        ∃ w, rl.counters apiKey.ID = some w ∧ (now : Int) > w.resetAt) →
      (rl.Allow apiKey now).1 =
        (true, apiKey.RateLimitMax - 1, now + apiKey.RateLimitWindow * time.Second) ∧
      (rl.Allow apiKey now).2.counters apiKey.ID =
        some { count := 1, windowStart := now,
               resetAt := now + apiKey.RateLimitWindow * time.Second, lastSeen := now }) ∧
    (∀ (now : Nat) (w : window), rl.counters apiKey.ID = some w → ¬ (now : Int) > w.resetAt →
      (w.count ≥ apiKey.RateLimitMax →
        (rl.Allow apiKey now).1 = (false, 0, w.resetAt) ∧
        (rl.Allow apiKey now).2.counters apiKey.ID = some { w with lastSeen := now }) ∧
      (w.count < apiKey.RateLimitMax →
        (rl.Allow apiKey now).1 = (true, apiKey.RateLimitMax - (w.count + 1), w.resetAt) ∧
        (rl.Allow apiKey now).2.counters apiKey.ID =
          some { w with lastSeen := now, count := w.count + 1 })) ∧
    (rl.counters apiKey.ID = none → ∀ (t1 : Nat) (ts : List Nat),
      (∀ t ∈ ts, t1 ≤ t ∧ (t : Int) ≤ t1 + apiKey.RateLimitWindow * time.Second) →
      (rl.allowAll apiKey (t1 :: ts)).1 =
        (List.range (ts.length + 1)).map (fun (i : Nat) =>
          if (i : Int) + 1 ≤ apiKey.RateLimitMax then
            (true, apiKey.RateLimitMax - ((i : Int) + 1),
              (t1 : Int) + apiKey.RateLimitWindow * time.Second)
          else (false, (0 : Int), (t1 : Int) + apiKey.RateLimitWindow * time.Second)) ∧
      ∀ t : Nat, (t : Int) > t1 + apiKey.RateLimitWindow * time.Second →
        ((rl.allowAll apiKey (t1 :: ts)).2.Allow apiKey t).1 =
          (true, apiKey.RateLimitMax - 1, t + apiKey.RateLimitWindow * time.Second)) := by
  have hexact := windowDuration_exact (show -9223372036 ≤ apiKey.RateLimitWindow by omega) hhi
  refine ⟨?_, ?_, ?_⟩
  · intro now h
    exact ⟨by rw [RateLimiter.Allow_fresh_state now h, hexact],
      RateLimiter.Allow_fresh_entry now h hlo hhi⟩
  · intro now w h hlive
    constructor
    · intro hfull
      have he := RateLimiter.Allow_live_entry apiKey h hlive
      rw [if_pos hfull] at he
      exact ⟨by rw [RateLimiter.Allow_full h hlive hfull], he⟩
    · intro hroom
      have hroom' : ¬ w.count ≥ apiKey.RateLimitMax := by omega
      have he := RateLimiter.Allow_live_entry apiKey h hlive
      rw [if_neg hroom'] at he
      exact ⟨by rw [RateLimiter.Allow_count h hlive hroom'], he⟩
  · intro hnone t1 ts hts
    have hfirst := RateLimiter.Allow_fresh_state t1 (Or.inl hnone)
    rw [hexact] at hfirst
    have hentry := RateLimiter.Allow_fresh_entry t1 (Or.inl hnone) hlo hhi
    obtain ⟨hrun, w', hw', hreset⟩ := RateLimiter.allowAll_live apiKey ts
      (rl.Allow apiKey t1).2 _ hentry (fun t ht => (hts t ht).2)
    constructor
    · simp only [RateLimiter.allowAll, List.range_succ_eq_map, List.map_cons, List.map_map]
      rw [hrun, hfirst]
      congr 1
      · simp [hmax]
      · apply List.map_congr_left
        intro i _
        simp only [Function.comp]
        by_cases h1 : (1 : Int) + (i : Int) ≥ apiKey.RateLimitMax
        · have h2 : ¬ ((i + 1 : Nat) : Int) + 1 ≤ apiKey.RateLimitMax := by omega
          rw [if_pos h1, if_neg h2]
        · have h2 : ((i + 1 : Nat) : Int) + 1 ≤ apiKey.RateLimitMax := by omega
          rw [if_neg h1, if_pos h2]
          congr 2
          push_cast
          ring
    · intro t ht
      have hstate : (rl.allowAll apiKey (t1 :: ts)).2 =
          ((rl.Allow apiKey t1).2.allowAll apiKey ts).2 := rfl
      rw [hstate, RateLimiter.Allow_result, hw', hexact]
      have hexp : (t : Int) > w'.resetAt := by
        rw [hreset]
        exact ht
      simp only [if_pos hexp]

end middleware

namespace middleware

/-- Witness of C12 as amended: the repository's test, a key with `max = 2` and
a window of 1 s; three calls inside the window, then one after it. -/
theorem RateLimiter.Allow_fixed_window_witness :
    ((NewRateLimiter 0).allowAll (keyRate 2 1) [0, 100000000, 200000000]).1 =
      [(true, 1, 1000000000), (true, 0, 1000000000), (false, 0, 1000000000)] ∧
    (((NewRateLimiter 0).allowAll (keyRate 2 1) [0, 100000000, 200000000]).2.Allow
      (keyRate 2 1) 1100000000).1 = (true, 1, 2100000000) := by
  have h := (RateLimiter.Allow_fixed_window (NewRateLimiter 0) (keyRate 2 1) (by decide)
    (by decide) (by decide)).2.2 rfl 0 [100000000, 200000000] (by decide)
  refine ⟨?_, h.2 1100000000 (by decide)⟩
  rw [h.1]
  decide

/-- Counterexample to C12 as stated: a key with `max = 2` and a window of
9223372037 s, which the middleware admits, on a new limiter. The length of the
window in nanoseconds is beyond the range of an `int64` and the product wraps
to −9223372036709551616 ns: the first call, at 1 s, returns a `resetAt` about
292 years in the past instead of `now + window`, and since every later call
comes after that `resetAt` each one opens a window of its own, so that the
third call inside the window, at 3 s, is answered `(true, 1)` instead of
`(false, 0)`. -/
theorem RateLimiter.Allow_fixed_window_counterexample :
    (NewRateLimiter 0).counters (keyRate 2 9223372037).ID = none ∧
    1 ≤ (keyRate 2 9223372037).RateLimitMax ∧
    1 ≤ (keyRate 2 9223372037).RateLimitWindow ∧
    ((NewRateLimiter 0).Allow (keyRate 2 9223372037) 1000000000).1 =
      (true, 1, 1000000000 - 9223372036709551616) ∧
    ((NewRateLimiter 0).Allow (keyRate 2 9223372037) 1000000000).1 ≠
      (true, 1, 1000000000 + (keyRate 2 9223372037).RateLimitWindow * time.Second) ∧
    ((3000000000 : Int) ≤
      1000000000 + (keyRate 2 9223372037).RateLimitWindow * time.Second) ∧
    ((NewRateLimiter 0).allowAll (keyRate 2 9223372037)
        [1000000000, 2000000000, 3000000000]).1.map (fun r => (r.1, r.2.1)) =
      [(true, 1), (true, 1), (true, 1)] := by
  decide

end middleware

namespace middleware

/-- The state `Remaining` leaves inside a live window. -/
theorem RateLimiter.Remaining_live {rl : RateLimiter} (apiKey : model.APIKey) {now : Nat}
    {w : window} (h : rl.counters apiKey.ID = some w) (hlive : ¬ (now : Int) > w.resetAt) :
    (rl.Remaining apiKey now).1 = max 0 (apiKey.RateLimitMax - w.count) ∧
    (rl.Remaining apiKey now).2 =
      (rl.set apiKey.ID { w with lastSeen := now }).cleanupLocked now := by
  by_cases hneg : apiKey.RateLimitMax - w.count < 0
  · simp only [RateLimiter.Remaining, h, if_neg hlive, if_pos hneg, and_true]
    exact (max_eq_left (by omega)).symm
  · simp only [RateLimiter.Remaining, h, if_neg hlive, if_neg hneg, and_true]
    exact (max_eq_right (by omega)).symm

/-- The state `Remaining` leaves when the key has no live window. -/
theorem RateLimiter.Remaining_idle {rl : RateLimiter} {apiKey : model.APIKey} (now : Nat)
    (h : rl.counters apiKey.ID = none ∨
      ∃ w, rl.counters apiKey.ID = some w ∧ (now : Int) > w.resetAt) :
    rl.Remaining apiKey now = (apiKey.RateLimitMax, rl.cleanupLocked now) := by
  rcases h with h | ⟨w, h, hexp⟩
  · simp only [RateLimiter.Remaining, h]
  · simp only [RateLimiter.Remaining, h, if_pos hexp]

/-- C13. `Remaining` never changes the request counter: for every limiter
state, key and clock reading, the key's entry after the call, if it still
exists, has the count, window start and reset time it had before; the value
returned is `max` when there is no entry or the window has expired and
`max(0, max − count)` otherwise; and an `Allow` for the key made afterwards (at
the same or a later clock reading) returns what it would have returned had
`Remaining` not been called. -/
theorem RateLimiter.Remaining_read_only (rl : RateLimiter) (apiKey : model.APIKey)
    (now : Nat) :
    (∀ w', (rl.Remaining apiKey now).2.counters apiKey.ID = some w' →
      ∃ w, rl.counters apiKey.ID = some w ∧ w'.count = w.count ∧
        w'.windowStart = w.windowStart ∧ w'.resetAt = w.resetAt) ∧
    ((rl.counters apiKey.ID = none ∨
        ∃ w, rl.counters apiKey.ID = some w ∧ (now : Int) > w.resetAt) →
      (rl.Remaining apiKey now).1 = apiKey.RateLimitMax) ∧
    (∀ w, rl.counters apiKey.ID = some w → ¬ (now : Int) > w.resetAt →
      (rl.Remaining apiKey now).1 = max 0 (apiKey.RateLimitMax - w.count)) ∧
    (∀ now' : Nat, now ≤ now' →
      ((rl.Remaining apiKey now).2.Allow apiKey now').1 = (rl.Allow apiKey now').1) := by
  have hcases : rl.counters apiKey.ID = none ∨
      (∃ w, rl.counters apiKey.ID = some w ∧ (now : Int) > w.resetAt) ∨
      (∃ w, rl.counters apiKey.ID = some w ∧ ¬ (now : Int) > w.resetAt) := by
    cases h : rl.counters apiKey.ID with
    | none => exact Or.inl rfl
    | some w =>
      by_cases hexp : (now : Int) > w.resetAt
      · exact Or.inr (Or.inl ⟨w, rfl, hexp⟩)
      · exact Or.inr (Or.inr ⟨w, rfl, hexp⟩)
  refine ⟨?_, ?_, ?_, ?_⟩
  · intro w' hw'
    rcases hcases with h | ⟨w, h, hexp⟩ | ⟨w, h, hlive⟩
    · rw [RateLimiter.Remaining_idle now (Or.inl h), RateLimiter.cleanupLocked_none h] at hw'
      exact Option.noConfusion hw'
    · rw [RateLimiter.Remaining_idle now (Or.inr ⟨w, h, hexp⟩)] at hw'
      rcases RateLimiter.cleanupLocked_cases rl now apiKey.ID with hc | hc
      · rw [hc, h] at hw'
        cases hw'
        exact ⟨_, h, rfl, rfl, rfl⟩
      · rw [hc] at hw'
        exact Option.noConfusion hw'
    · rw [(RateLimiter.Remaining_live apiKey h hlive).2,
        RateLimiter.cleanupLocked_keep (RateLimiter.set_same _ _ _)
          (window_live_not_evicted rfl hlive)] at hw'
      cases hw'
      exact ⟨w, h, rfl, rfl, rfl⟩
  · intro h
    rw [RateLimiter.Remaining_idle now h]
  · intro w h hlive
    exact (RateLimiter.Remaining_live apiKey h hlive).1
  · intro now' hle
    rw [RateLimiter.Allow_result, RateLimiter.Allow_result rl]
    rcases hcases with h | ⟨w, h, hexp⟩ | ⟨w, h, hlive⟩
    · rw [RateLimiter.Remaining_idle now (Or.inl h), RateLimiter.cleanupLocked_none h, h]
    · rw [RateLimiter.Remaining_idle now (Or.inr ⟨w, h, hexp⟩)]
      have hexp' : (now' : Int) > w.resetAt := by omega
      rcases RateLimiter.cleanupLocked_cases rl now apiKey.ID with hc | hc
      · rw [hc]
      · rw [hc, h]
        simp only [if_pos hexp']
    · rw [(RateLimiter.Remaining_live apiKey h hlive).2,
        RateLimiter.cleanupLocked_keep (RateLimiter.set_same _ _ _)
          (window_live_not_evicted rfl hlive), h]

/-- Witness of C13: a limiter with a live window for `key-1` (one call counted
of two, ending at 10 s), read at 5 s. -/
theorem RateLimiter.Remaining_read_only_witness :
    (liveLimiter.Remaining (keyRate 2 10) 5000000000).1 = 1 ∧
    (∃ w, liveLimiter.counters (keyRate 2 10).ID = some w ∧ (1 : Int) = w.count ∧
      (0 : Int) = w.windowStart ∧ 10 * time.Second = w.resetAt) ∧
    ((liveLimiter.Remaining (keyRate 2 10) 5000000000).2.Allow (keyRate 2 10) 6000000000).1 =
      (liveLimiter.Allow (keyRate 2 10) 6000000000).1 :=
  ⟨(RateLimiter.Remaining_read_only liveLimiter (keyRate 2 10) 5000000000).2.2.1
      { count := 1, windowStart := 0, resetAt := 10 * time.Second, lastSeen := 0 } rfl
      (by decide),
   (RateLimiter.Remaining_read_only liveLimiter (keyRate 2 10) 5000000000).1
      { count := 1, windowStart := 0, resetAt := 10 * time.Second, lastSeen := 5000000000 }
      (by decide),
   (RateLimiter.Remaining_read_only liveLimiter (keyRate 2 10) 5000000000).2.2.2
      6000000000 (by decide)⟩

/-- C14. Rate-limiter cleanup. When `cleanupLocked(now)` runs with
`now − lastCleanup ≥ 5 min` it deletes exactly the entries with
`now − lastSeen > 24 h` or `now > resetAt + 10 min`, keeps every other entry
unchanged, adds none, and sets `lastCleanup = now`; when
`now − lastCleanup < 5 min` it changes nothing. In particular an entry not
touched for more than 24 h is gone after the next `Allow` call (of another
key) that triggers a cleanup. -/
theorem RateLimiter.cleanupLocked_spec (rl : RateLimiter) :
    (∀ now : Int, now - rl.lastCleanup ≥ 5 * time.Minute →
      (rl.cleanupLocked now).lastCleanup = now ∧
      ∀ k, (rl.counters k = none → (rl.cleanupLocked now).counters k = none) ∧
        ∀ w, rl.counters k = some w →
          ((now - w.lastSeen > 24 * time.Hour ∨ now > w.resetAt + 10 * time.Minute) →
            (rl.cleanupLocked now).counters k = none) ∧
          (¬ (now - w.lastSeen > 24 * time.Hour ∨ now > w.resetAt + 10 * time.Minute) →
            (rl.cleanupLocked now).counters k = some w)) ∧
    (∀ now : Int, now - rl.lastCleanup < 5 * time.Minute → rl.cleanupLocked now = rl) ∧
    (∀ (apiKey : model.APIKey) (now : Nat) (k : String) (w : window),
      k ≠ apiKey.ID → rl.counters k = some w →
      (now : Int) - w.lastSeen > 24 * time.Hour →
      (now : Int) - rl.lastCleanup ≥ 5 * time.Minute →
      (rl.Allow apiKey now).2.counters k = none) := by
  refine ⟨?_, ?_, ?_⟩
  · intro now hdue
    have hdue' : ¬ now - rl.lastCleanup < cleanupInterval := by
      unfold cleanupInterval
      omega
    refine ⟨RateLimiter.cleanupLocked_lastCleanup hdue', fun k => ⟨fun h =>
      RateLimiter.cleanupLocked_none h, fun w h => ⟨fun hst => ?_, fun hst => ?_⟩⟩⟩
    · exact RateLimiter.cleanupLocked_evict hdue' h ((window_evicted_iff w now).mpr hst)
    · apply RateLimiter.cleanupLocked_keep h
      rw [Bool.eq_false_iff]
      exact fun hev => hst ((window_evicted_iff w now).mp hev)
  · intro now hskip
    exact RateLimiter.cleanupLocked_skip hskip
  · intro apiKey now k w hk h hstale hdue
    have hdue' : ∀ k' w', ¬ (now : Int) - (rl.set k' w').lastCleanup < cleanupInterval := by
      intro k' w'
      rw [RateLimiter.set_lastCleanup]
      unfold cleanupInterval
      omega
    have hev : w.evicted now = true := (window_evicted_iff w now).mpr (Or.inl hstale)
    have hgone : ∀ w', ((rl.set apiKey.ID w').cleanupLocked now).counters k = none := by
      intro w'
      exact RateLimiter.cleanupLocked_evict (hdue' _ _)
        ((RateLimiter.set_other rl w' hk).trans h) hev
    cases hc : rl.counters apiKey.ID with
    | none =>
      rw [RateLimiter.Allow_none hc]
      exact hgone _
    | some w0 =>
      by_cases hexp : (now : Int) > w0.resetAt
      · rw [RateLimiter.Allow_expired hc hexp]
        exact hgone _
      · by_cases hfull : w0.count ≥ apiKey.RateLimitMax
        · rw [RateLimiter.Allow_full hc hexp hfull]
          exact hgone _
        · rw [RateLimiter.Allow_count hc hexp hfull]
          exact hgone _

/-- Witness of C14: the repository's cleanup test; the entry `stale` is gone
after an `Allow` of `key-1` at 200000 s. -/
theorem RateLimiter.cleanupLocked_spec_witness :
    staleLimiter.counters "stale" =
      some { count := 1, windowStart := 27200 * time.Second,
             resetAt := 113600 * time.Second, lastSeen := 27200 * time.Second } ∧
    (staleLimiter.Allow (keyRate 10 60) 200000000000000).2.counters "stale" = none :=
  ⟨rfl,
   (RateLimiter.cleanupLocked_spec staleLimiter).2.2 (keyRate 10 60) 200000000000000 "stale"
      { count := 1, windowStart := 27200 * time.Second, resetAt := 113600 * time.Second,
        lastSeen := 27200 * time.Second } (by decide) rfl (by decide) (by decide)⟩

end middleware

namespace middleware

/-! ## The authentication-failure limiter -/

theorem NewAuthAttemptLimiter_built (maxFailures window blockDuration : Int) (now : Nat) :
    (NewAuthAttemptLimiter maxFailures window blockDuration now).Built := by
  unfold AuthAttemptLimiter.Built NewAuthAttemptLimiter
  refine ⟨?_, ?_, ?_, rfl, rfl⟩
  · dsimp only
    split_ifs <;> omega
  · dsimp only
    split_ifs
    · decide
    · omega
  · dsimp only
    split_ifs
    · decide
    · omega

theorem AuthAttemptLimiter.cleanupLocked_entry_none {l : AuthAttemptLimiter} {now : Int}
    {k : String} (h : l.entries k = none) : (l.cleanupLocked now).entries k = none := by
  unfold AuthAttemptLimiter.cleanupLocked
  split_ifs
  · exact h
  · simp only [h]

theorem AuthAttemptLimiter.cleanupLocked_entry_keep {l : AuthAttemptLimiter} {now : Int}
    {k : String} {e : authAttempt} (h : l.entries k = some e)
    (he : ¬ (now - e.lastSeen > l.staleEntryTTL ∧ now > e.blockedUntil)) :
    (l.cleanupLocked now).entries k = some e := by
  unfold AuthAttemptLimiter.cleanupLocked
  split_ifs
  · exact h
  · simp only [h, if_neg he]

theorem AuthAttemptLimiter.cleanupLocked_entry_cases (l : AuthAttemptLimiter) (now : Int)
    (k : String) :
    (l.cleanupLocked now).entries k = l.entries k ∨ (l.cleanupLocked now).entries k = none := by
  cases h : l.entries k with
  | none => exact Or.inr (AuthAttemptLimiter.cleanupLocked_entry_none h)
  | some e =>
    by_cases he : now - e.lastSeen > l.staleEntryTTL ∧ now > e.blockedUntil
    · unfold AuthAttemptLimiter.cleanupLocked
      split_ifs
      · exact Or.inl h
      · simp only [h, if_pos he]
        exact Or.inr trivial
    · exact Or.inl (AuthAttemptLimiter.cleanupLocked_entry_keep h he)

theorem AuthAttemptLimiter.cleanupLocked_params (l : AuthAttemptLimiter) (now : Int) :
    (l.cleanupLocked now).maxFailures = l.maxFailures ∧
    (l.cleanupLocked now).window = l.window ∧
    (l.cleanupLocked now).blockDuration = l.blockDuration ∧
    (l.cleanupLocked now).cleanupEvery = l.cleanupEvery ∧
    (l.cleanupLocked now).staleEntryTTL = l.staleEntryTTL := by
  unfold AuthAttemptLimiter.cleanupLocked
  split_ifs <;> exact ⟨rfl, rfl, rfl, rfl, rfl⟩

theorem AuthAttemptLimiter.set_entry_same (l : AuthAttemptLimiter) (k : String) (e : authAttempt) :
    (l.set k e).entries k = some e := by
  simp [AuthAttemptLimiter.set]

/-- An entry written at `now` is what the limiter holds for the key after the
cleanup that follows, the stale-entry age being non-negative. -/
theorem AuthAttemptLimiter.set_cleanup_same (l : AuthAttemptLimiter) (k : String)
    (e : authAttempt) (now : Int) (hseen : e.lastSeen = now) (httl : 0 ≤ l.staleEntryTTL) :
    ((l.set k e).cleanupLocked now).entries k = some e := by
  apply AuthAttemptLimiter.cleanupLocked_entry_keep (AuthAttemptLimiter.set_entry_same l k e)
  intro h
  have h1 : now - e.lastSeen > l.staleEntryTTL := h.1
  rw [hseen] at h1
  omega

/-- An entry written by a method is the key's entry after the cleanup that
ends the method, or the cleanup has deleted it. -/
theorem AuthAttemptLimiter.set_cleanup_cases (l : AuthAttemptLimiter) (k : String)
    (e : authAttempt) (now : Int) :
    ((l.set k e).cleanupLocked now).entries k = some e ∨
      ((l.set k e).cleanupLocked now).entries k = none := by
  rcases AuthAttemptLimiter.cleanupLocked_entry_cases (l.set k e) now k with h | h
  · rw [AuthAttemptLimiter.set_entry_same] at h
    exact Or.inl h
  · exact Or.inr h

theorem AuthAttemptLimiter.registerFailure_params (l : AuthAttemptLimiter) (key : String)
    (now : Nat) :
    (l.registerFailure key now).maxFailures = l.maxFailures ∧
    (l.registerFailure key now).window = l.window ∧
    (l.registerFailure key now).blockDuration = l.blockDuration ∧
    (l.registerFailure key now).cleanupEvery = l.cleanupEvery ∧
    (l.registerFailure key now).staleEntryTTL = l.staleEntryTTL := by
  unfold AuthAttemptLimiter.registerFailure
  split <;> exact AuthAttemptLimiter.cleanupLocked_params _ _

theorem AuthAttemptLimiter.allow_params (l : AuthAttemptLimiter) (key : String) (now : Nat) :
    (l.allow key now).2.maxFailures = l.maxFailures ∧
    (l.allow key now).2.window = l.window ∧
    (l.allow key now).2.blockDuration = l.blockDuration ∧
    (l.allow key now).2.cleanupEvery = l.cleanupEvery ∧
    (l.allow key now).2.staleEntryTTL = l.staleEntryTTL := by
  unfold AuthAttemptLimiter.allow
  split
  · exact AuthAttemptLimiter.cleanupLocked_params _ _
  · split_ifs <;> exact AuthAttemptLimiter.cleanupLocked_params _ _

/-- A first failure of a key with no entry opens a window with one failure and
no block. -/
theorem AuthAttemptLimiter.registerFailure_none {l : AuthAttemptLimiter} {key : String}
    (now : Nat) (h : l.entries key = none) :
    l.registerFailure key now =
      (l.set key { failures := 1, windowStart := now, blockedUntil := 0,
                   lastSeen := now }).cleanupLocked now := by
  simp only [AuthAttemptLimiter.registerFailure, h]

/-- A failure inside the window that does not reach the threshold adds one to
the count. -/
theorem AuthAttemptLimiter.registerFailure_count {l : AuthAttemptLimiter} {key : String}
    {now : Nat} {e : authAttempt} (h : l.entries key = some e)
    (hwin : ¬ (now : Int) - e.windowStart > l.window)
    (hlow : ¬ e.failures + 1 ≥ l.maxFailures) :
    l.registerFailure key now =
      (l.set key { e with lastSeen := now, failures := e.failures + 1 }).cleanupLocked now := by
  simp only [AuthAttemptLimiter.registerFailure, h, if_neg hwin, if_neg hlow]

/-- A failure inside the window that reaches the threshold blocks the key for
`blockDuration` from `now` and restarts the count. -/
theorem AuthAttemptLimiter.registerFailure_block {l : AuthAttemptLimiter} {key : String}
    {now : Nat} {e : authAttempt} (h : l.entries key = some e)
    (hwin : ¬ (now : Int) - e.windowStart > l.window)
    (hhigh : e.failures + 1 ≥ l.maxFailures) :
    l.registerFailure key now =
      (l.set key { failures := 0, windowStart := now, blockedUntil := now + l.blockDuration,
                   lastSeen := now }).cleanupLocked now := by
  simp only [AuthAttemptLimiter.registerFailure, h, if_neg hwin, if_pos hhigh]

end middleware

namespace middleware

theorem AuthAttemptLimiter.registerFailures_append (l : AuthAttemptLimiter) (key : String)
    (a b : List Nat) :
    l.registerFailures key (a ++ b) = (l.registerFailures key a).registerFailures key b := by
  induction a generalizing l with
  | nil => rfl
  | cons t rest ih =>
    simp only [List.cons_append, AuthAttemptLimiter.registerFailures]
    exact ih _

theorem AuthAttemptLimiter.registerFailures_params (key : String) (ts : List Nat) :
    ∀ l : AuthAttemptLimiter,
      (l.registerFailures key ts).maxFailures = l.maxFailures ∧
      (l.registerFailures key ts).window = l.window ∧
      (l.registerFailures key ts).blockDuration = l.blockDuration ∧
      (l.registerFailures key ts).cleanupEvery = l.cleanupEvery ∧
      (l.registerFailures key ts).staleEntryTTL = l.staleEntryTTL := by
  induction ts with
  | nil => intro l; exact ⟨rfl, rfl, rfl, rfl, rfl⟩
  | cons t rest ih =>
    intro l
    obtain ⟨h1, h2, h3, h4, h5⟩ := ih (l.registerFailure key t)
    obtain ⟨g1, g2, g3, g4, g5⟩ := AuthAttemptLimiter.registerFailure_params l key t
    exact ⟨h1.trans g1, h2.trans g2, h3.trans g3, h4.trans g4, h5.trans g5⟩

/-- Failures inside the window that stay below the threshold are counted one
by one. -/
theorem AuthAttemptLimiter.registerFailures_count (key : String) (ts : List Nat) :
    ∀ (l : AuthAttemptLimiter) (e : authAttempt), 0 ≤ l.staleEntryTTL →
      l.entries key = some e →
      (∀ t ∈ ts, (t : Int) - e.windowStart ≤ l.window) →
      e.failures + (ts.length : Int) < l.maxFailures →
      ∃ e', (l.registerFailures key ts).entries key = some e' ∧
        e'.failures = e.failures + (ts.length : Int) ∧ e'.windowStart = e.windowStart ∧
        e'.blockedUntil = e.blockedUntil := by
  induction ts with
  | nil =>
    intro l e _ h _ _
    exact ⟨e, h, by simp, rfl, rfl⟩
  | cons t rest ih =>
    intro l e httl h hspan hlow
    have hwin : ¬ (t : Int) - e.windowStart > l.window := by
      have := hspan t (List.mem_cons_self _ _)
      omega
    have hlen : ((t :: rest).length : Int) = (rest.length : Int) + 1 := by
      simp
    have hlow1 : ¬ e.failures + 1 ≥ l.maxFailures := by omega
    have hstep := AuthAttemptLimiter.registerFailure_count h hwin hlow1
    have hentry : (l.registerFailure key t).entries key =
        some { e with lastSeen := t, failures := e.failures + 1 } := by
      rw [hstep]
      exact AuthAttemptLimiter.set_cleanup_same l key _ t rfl httl
    have hp := AuthAttemptLimiter.registerFailure_params l key t
    obtain ⟨e', he', hf, hw, hb⟩ := ih (l.registerFailure key t) _
      (by rw [hp.2.2.2.2]; exact httl) hentry
      (by rw [hp.2.1]; exact fun u hu => hspan u (List.mem_cons_of_mem _ hu))
      (by rw [hp.1]; simp only; omega)
    refine ⟨e', he', ?_, hw, hb⟩
    rw [hf, hlen]
    simp only
    ring

/-- The key's entry after `maxFailures` failures that follow one another inside
one window, from a state with no entry for the key. -/
theorem AuthAttemptLimiter.registerFailures_block {l : AuthAttemptLimiter} {key : String}
    (httl : 0 ≤ l.staleEntryTTL) (hnone : l.entries key = none) (t1 : Nat) (mid : List Nat)
    (tM : Nat) (hlen : (mid.length : Int) + 2 = l.maxFailures)
    (hspan : ∀ t ∈ mid ++ [tM], (t : Int) - t1 ≤ l.window) :
    (l.registerFailures key (t1 :: mid ++ [tM])).entries key =
      some { failures := 0, windowStart := tM, blockedUntil := tM + l.blockDuration,
             lastSeen := tM } := by
  have h1 : (l.registerFailure key t1).entries key =
      some { failures := 1, windowStart := t1, blockedUntil := 0, lastSeen := t1 } := by
    rw [AuthAttemptLimiter.registerFailure_none t1 hnone]
    exact AuthAttemptLimiter.set_cleanup_same l key _ t1 rfl httl
  have hp1 := AuthAttemptLimiter.registerFailure_params l key t1
  obtain ⟨e', he', hf, hw, _⟩ := AuthAttemptLimiter.registerFailures_count key mid
    (l.registerFailure key t1) _ (by rw [hp1.2.2.2.2]; exact httl) h1
    (by
      rw [hp1.2.1]
      exact fun u hu => hspan u (List.mem_append_left _ hu))
    (by rw [hp1.1]; simp only; omega)
  have hp2 := AuthAttemptLimiter.registerFailures_params key mid (l.registerFailure key t1)
  have hrun : l.registerFailures key (t1 :: mid ++ [tM]) =
      ((l.registerFailure key t1).registerFailures key mid).registerFailure key tM := by
    show (l.registerFailure key t1).registerFailures key (mid ++ [tM]) = _
    rw [AuthAttemptLimiter.registerFailures_append]
    rfl
  have hwin : ¬ (tM : Int) - e'.windowStart >
      ((l.registerFailure key t1).registerFailures key mid).window := by
    rw [hp2.2.1, hp1.2.1, hw]
    have := hspan tM (List.mem_append_right _ (List.mem_singleton_self _))
    simp only
    omega
  have hhigh : e'.failures + 1 ≥
      ((l.registerFailure key t1).registerFailures key mid).maxFailures := by
    rw [hp2.1, hp1.1, hf]
    simp only
    omega
  rw [hrun, AuthAttemptLimiter.registerFailure_block he' hwin hhigh, hp2.2.2.1, hp1.2.2.1]
  apply AuthAttemptLimiter.set_cleanup_same _ key _ tM rfl
  rw [hp2.2.2.2.2, hp1.2.2.2.2]
  exact httl

/-- While the key is blocked, `allow` answers false and leaves the block. -/
theorem AuthAttemptLimiter.allows_blocked (key : String) (us : List Nat) :
    ∀ (l : AuthAttemptLimiter) (e : authAttempt), 0 ≤ l.staleEntryTTL →
      l.entries key = some e → (∀ u ∈ us, (u : Int) < e.blockedUntil) →
      (∀ b ∈ (l.allows key us).1, b = false) ∧
      ∃ e', (l.allows key us).2.entries key = some e' ∧ e'.blockedUntil = e.blockedUntil := by
  induction us with
  | nil =>
    intro l e _ h _
    exact ⟨fun b hb => by simp [AuthAttemptLimiter.allows] at hb, e, h, rfl⟩
  | cons u rest ih =>
    intro l e httl h hus
    have hu : (u : Int) < e.blockedUntil := hus u (List.mem_cons_self _ _)
    have hstep : l.allow key u =
        (false, (l.set key { e with lastSeen := u }).cleanupLocked u) := by
      simp only [AuthAttemptLimiter.allow, h, if_pos hu]
    have hentry : (l.allow key u).2.entries key = some { e with lastSeen := u } := by
      rw [hstep]
      exact AuthAttemptLimiter.set_cleanup_same l key _ u rfl httl
    have hp := AuthAttemptLimiter.allow_params l key u
    obtain ⟨hall, e', he', hb⟩ := ih (l.allow key u).2 _ (by rw [hp.2.2.2.2]; exact httl)
      hentry (fun v hv => hus v (List.mem_cons_of_mem _ hv))
    refine ⟨?_, e', he', hb⟩
    intro b hb'
    simp only [AuthAttemptLimiter.allows, List.mem_cons] at hb'
    rcases hb' with rfl | hb'
    · rw [hstep]
    · exact hall b hb'

/-- Once the block has elapsed, `allow` answers true. -/
theorem AuthAttemptLimiter.allow_unblocked {l : AuthAttemptLimiter} {key : String}
    {e : authAttempt} (h : l.entries key = some e) (u : Nat) (hu : ¬ (u : Int) < e.blockedUntil) :
    (l.allow key u).1 = true := by
  simp only [AuthAttemptLimiter.allow, h, if_neg hu]
  split_ifs <;> rfl

/-- C15, as amended. For every limiter as `NewAuthAttemptLimiter` builds it
with `maxFailures ≥ 2`, every key and every state in which the key has no
entry: after `maxFailures` calls `registerFailure(key)` that follow one
another, at `t1`, then the clock readings `mid`, then `tM`, none later than
`window` after `t1`, every `allow(key)` of a run of such calls that follows,
made from `tM` until `blockDuration` has elapsed, answers false, and the
`allow(key)` after that run, once `blockDuration` has elapsed since `tM`,
answers true. -/
theorem AuthAttemptLimiter.blocks_after_threshold (l : AuthAttemptLimiter) (key : String)
    (hl : l.Built) (hnone : l.entries key = none) (t1 : Nat) (mid : List Nat) (tM : Nat)
    (hlen : (mid.length : Int) + 2 = l.maxFailures)
    (hspan : ∀ t ∈ mid ++ [tM], (t : Int) - t1 ≤ l.window)
    (us : List Nat) (hus : ∀ u ∈ us, tM ≤ u ∧ (u : Int) < tM + l.blockDuration) :
    (∀ b ∈ ((l.registerFailures key (t1 :: mid ++ [tM])).allows key us).1, b = false) ∧
    (∀ u : Nat, (u : Int) ≥ tM + l.blockDuration →
      (((l.registerFailures key (t1 :: mid ++ [tM])).allows key us).2.allow key u).1 =
        true) := by
  have httl : 0 ≤ l.staleEntryTTL := by
    rw [hl.2.2.2.2]
    decide
  have hentry := AuthAttemptLimiter.registerFailures_block httl hnone t1 mid tM hlen hspan
  have hp := AuthAttemptLimiter.registerFailures_params key (t1 :: mid ++ [tM]) l
  obtain ⟨hall, e', he', hb⟩ := AuthAttemptLimiter.allows_blocked key us
    (l.registerFailures key (t1 :: mid ++ [tM])) _ (by rw [hp.2.2.2.2]; exact httl) hentry
    (fun u hu => (hus u hu).2)
  refine ⟨hall, fun u hu => AuthAttemptLimiter.allow_unblocked he' u ?_⟩
  rw [hb]
  simp only
  omega

end middleware

namespace middleware

/-- Witness of C15 as amended: the repository's test; three failures at 1, 2
and 3 ms, an `allow` at 4 ms and one at 203 ms. -/
theorem AuthAttemptLimiter.blocks_after_threshold_witness :
    (∀ b ∈ ((limiter3.registerFailures "api_key:198.51.100.1"
        (1000000 :: [2000000] ++ [3000000])).allows "api_key:198.51.100.1" [4000000]).1,
      b = false) ∧
    (((limiter3.registerFailures "api_key:198.51.100.1"
        (1000000 :: [2000000] ++ [3000000])).allows "api_key:198.51.100.1"
          [4000000]).2.allow "api_key:198.51.100.1" 203000000).1 = true := by
  have h := AuthAttemptLimiter.blocks_after_threshold limiter3 "api_key:198.51.100.1"
    (NewAuthAttemptLimiter_built _ _ _ _) rfl 1000000 [2000000] 3000000 (by decide)
    (by decide) [4000000] (by decide)
  exact ⟨h.1, h.2 203000000 (by decide)⟩

/-- Counterexample to C15 as stated: with three failures allowed per minute, a
failure at 0 s is followed by failures at 50 s, 70 s and 80 s, three calls
inside a span of 30 s; the one at 70 s opens a new window, the count is 2 after
the one at 80 s, and the `allow` made 1 ms later answers true. -/
theorem AuthAttemptLimiter.blocks_after_threshold_counterexample :
    limiter3.maxFailures = 3 ∧
    ((80000000000 : Int) - 50000000000 ≤ limiter3.window) ∧
    ((80001000000 : Int) < 80000000000 + limiter3.blockDuration) ∧
    (((limiter3.registerFailure "ip" 0).registerFailures "ip"
        [50000000000, 70000000000, 80000000000]).allow "ip" 80001000000).1 = true := by
  decide

/-- Fewer failures than the threshold, from a state with no entry for the key,
leave the key with no entry or with an entry that is not blocked. -/
theorem AuthAttemptLimiter.registerFailures_below (key : String) (ts : List Nat) :
    ∀ (l : AuthAttemptLimiter) (j : Nat),
      (l.entries key = none ∨
        ∃ e, l.entries key = some e ∧ e.blockedUntil ≤ 0 ∧ e.failures ≤ j) →
      (j : Int) + (ts.length : Int) < l.maxFailures →
      (l.registerFailures key ts).entries key = none ∨
        ∃ e, (l.registerFailures key ts).entries key = some e ∧ e.blockedUntil ≤ 0 := by
  induction ts with
  | nil =>
    intro l j h _
    rcases h with h | ⟨e, h, hb, _⟩
    · exact Or.inl h
    · exact Or.inr ⟨e, h, hb⟩
  | cons t rest ih =>
    intro l j h hlow
    have hlen : ((t :: rest).length : Int) = (rest.length : Int) + 1 := by simp
    have hp := AuthAttemptLimiter.registerFailure_params l key t
    apply ih (l.registerFailure key t) (j + 1) _ (by rw [hp.1]; push_cast; omega)
    rcases h with h | ⟨e, h, hb, hf⟩
    · rw [AuthAttemptLimiter.registerFailure_none t h]
      rcases AuthAttemptLimiter.set_cleanup_cases l key
        { failures := 1, windowStart := t, blockedUntil := 0, lastSeen := t } t with hc | hc
      · exact Or.inr ⟨_, hc, le_refl _, by simp only; omega⟩
      · exact Or.inl hc
    · by_cases hwin : (t : Int) - e.windowStart > l.window
      · have hlow0 : ¬ (0 : Int) + 1 ≥ l.maxFailures := by omega
        have hstep : l.registerFailure key t =
            (l.set key { e with lastSeen := t, windowStart := t, failures := 0 + 1 }).cleanupLocked
              t := by
          simp only [AuthAttemptLimiter.registerFailure, h, if_pos hwin, if_neg hlow0]
        rw [hstep]
        rcases AuthAttemptLimiter.set_cleanup_cases l key
          { e with lastSeen := t, windowStart := t, failures := 0 + 1 } t with hc | hc
        · exact Or.inr ⟨_, hc, hb, by simp only; omega⟩
        · exact Or.inl hc
      · have hlow1 : ¬ e.failures + 1 ≥ l.maxFailures := by omega
        rw [AuthAttemptLimiter.registerFailure_count h hwin hlow1]
        rcases AuthAttemptLimiter.set_cleanup_cases l key
          { e with lastSeen := t, failures := e.failures + 1 } t with hc | hc
        · exact Or.inr ⟨_, hc, hb, by simp only; omega⟩
        · exact Or.inl hc

/-- C16, as amended. For every limiter state and key, `registerSuccess(key)`
leaves the key with no entry (no failure count, no block), leaves the entry of
every other key as the lazy cleanup of the state before leaves it (unchanged,
or deleted by the cleanup), and afterwards `allow(key)` answers true and keeps
answering true after any number of further `registerFailure(key)` calls smaller
than `maxFailures`. For a limiter as `NewAuthAttemptLimiter` builds it with
`maxFailures ≥ 2`, `maxFailures` further calls `registerFailure(key)` that
follow one another, at `t1`, then the clock readings `mid`, then `tM`, none
later than `window` after `t1`, block the key again: every `allow(key)` of a
run of such calls that follows, made from `tM` until `blockDuration` has
elapsed, answers false, and the `allow(key)` after that run, once
`blockDuration` has elapsed since `tM`, answers true. -/
theorem AuthAttemptLimiter.registerSuccess_wipes (l : AuthAttemptLimiter) (key : String)
    (now : Nat) :
    (l.registerSuccess key now).entries key = none ∧
    (∀ k, k ≠ key →
      (l.registerSuccess key now).entries k = (l.cleanupLocked now).entries k ∧
      ((l.registerSuccess key now).entries k = l.entries k ∨
        (l.registerSuccess key now).entries k = none)) ∧
    (∀ u : Nat, ((l.registerSuccess key now).allow key u).1 = true) ∧
    (∀ (ts : List Nat) (u : Nat), (ts.length : Int) < l.maxFailures →
      (((l.registerSuccess key now).registerFailures key ts).allow key u).1 = true) ∧
    (l.Built → ∀ (t1 : Nat) (mid : List Nat) (tM : Nat),
      (mid.length : Int) + 2 = l.maxFailures →
      (∀ t ∈ mid ++ [tM], (t : Int) - t1 ≤ l.window) →
      ∀ us : List Nat, (∀ u ∈ us, tM ≤ u ∧ (u : Int) < tM + l.blockDuration) →
        (∀ b ∈ (((l.registerSuccess key now).registerFailures key
            (t1 :: mid ++ [tM])).allows key us).1, b = false) ∧
        (∀ u : Nat, (u : Int) ≥ tM + l.blockDuration →
          ((((l.registerSuccess key now).registerFailures key
            (t1 :: mid ++ [tM])).allows key us).2.allow key u).1 = true)) := by
  have hnone : (l.registerSuccess key now).entries key = none := by
    unfold AuthAttemptLimiter.registerSuccess
    apply AuthAttemptLimiter.cleanupLocked_entry_none
    simp
  have hparams : (l.registerSuccess key now).maxFailures = l.maxFailures ∧
      (l.registerSuccess key now).window = l.window ∧
      (l.registerSuccess key now).blockDuration = l.blockDuration ∧
      (l.registerSuccess key now).staleEntryTTL = l.staleEntryTTL := by
    unfold AuthAttemptLimiter.registerSuccess
    have hp := AuthAttemptLimiter.cleanupLocked_params
      { l with entries := fun k => if k = key then none else l.entries k } now
    exact ⟨hp.1, hp.2.1, hp.2.2.1, hp.2.2.2.2⟩
  have hother : ∀ k, k ≠ key →
      (l.registerSuccess key now).entries k = (l.cleanupLocked now).entries k := by
    intro k hk
    unfold AuthAttemptLimiter.registerSuccess AuthAttemptLimiter.cleanupLocked
    simp only
    split_ifs
    · simp only [if_neg hk]
    · simp only [if_neg hk]
  refine ⟨hnone, fun k hk => ⟨hother k hk, ?_⟩, ?_, ?_, ?_⟩
  · rw [hother k hk]
    exact AuthAttemptLimiter.cleanupLocked_entry_cases l now k
  · intro u
    simp only [AuthAttemptLimiter.allow, hnone]
  · intro ts u hlen
    rcases AuthAttemptLimiter.registerFailures_below key ts (l.registerSuccess key now) 0
      (Or.inl hnone) (by rw [hparams.1]; push_cast; omega) with h | ⟨e, h, hb⟩
    · simp only [AuthAttemptLimiter.allow, h]
    · exact AuthAttemptLimiter.allow_unblocked h u (by omega)
  · intro hl t1 mid tM hlen hspan us hus
    have httl : 0 ≤ (l.registerSuccess key now).staleEntryTTL := by
      rw [hparams.2.2.2, hl.2.2.2.2]
      decide
    have hentry := AuthAttemptLimiter.registerFailures_block httl hnone t1 mid tM
      (by rw [hparams.1]; exact hlen) (by rw [hparams.2.1]; exact hspan)
    rw [hparams.2.2.1] at hentry
    have hp := AuthAttemptLimiter.registerFailures_params key (t1 :: mid ++ [tM])
      (l.registerSuccess key now)
    obtain ⟨hall, e', he', hb⟩ := AuthAttemptLimiter.allows_blocked key us
      ((l.registerSuccess key now).registerFailures key (t1 :: mid ++ [tM])) _
      (by rw [hp.2.2.2.2]; exact httl) hentry (fun u hu => (hus u hu).2)
    refine ⟨hall, fun u hu => AuthAttemptLimiter.allow_unblocked he' u ?_⟩
    rw [hb]
    simp only
    omega

/-- Witness of C16 as amended: the repository's test and its sequel; with two
failures allowed per minute, a failure at 1 ms, a success at 2 ms and one more
failure at 3 ms leave the key allowed; a second failure at 4 ms blocks it, so
that the `allow` at 5 ms answers false and the one at 61 s answers true. -/
theorem AuthAttemptLimiter.registerSuccess_wipes_witness :
    ((((limiter2.registerFailure "admin:203.0.113.5" 1000000).registerSuccess
        "admin:203.0.113.5" 2000000).registerFailures "admin:203.0.113.5" [3000000]).allow
          "admin:203.0.113.5" 4000000).1 = true ∧
    (∀ b ∈ ((((limiter2.registerFailure "admin:203.0.113.5" 1000000).registerSuccess
        "admin:203.0.113.5" 2000000).registerFailures "admin:203.0.113.5"
          (3000000 :: [] ++ [4000000])).allows "admin:203.0.113.5" [5000000]).1, b = false) ∧
    (((((limiter2.registerFailure "admin:203.0.113.5" 1000000).registerSuccess
        "admin:203.0.113.5" 2000000).registerFailures "admin:203.0.113.5"
          (3000000 :: [] ++ [4000000])).allows "admin:203.0.113.5" [5000000]).2.allow
            "admin:203.0.113.5" 61000000000).1 = true :=
  have h := AuthAttemptLimiter.registerSuccess_wipes
    (limiter2.registerFailure "admin:203.0.113.5" 1000000) "admin:203.0.113.5" 2000000
  have h5 := h.2.2.2.2 (by unfold AuthAttemptLimiter.Built; decide) 3000000 [] 4000000
    (by decide) (by decide) [5000000] (by decide)
  ⟨h.2.2.2.1 [3000000] 4000000 (by decide), h5.1, h5.2 61000000000 (by decide)⟩

/-- Counterexample to C16 as stated. With two failures allowed per minute, a
success at 2 s is followed by two further failures, at 10 s and at 100 s: the
second one comes after the window of the first has ended and opens a new
window with a count of 1, so the `allow` made 1 ms later still answers true,
and only a third failure, at 110 s, blocks the key. (With one failure allowed,
one further failure after a success does not block the key either: the call
that creates the entry does not compare the count with the threshold.) -/
theorem AuthAttemptLimiter.registerSuccess_wipes_counterexample :
    limiter2.maxFailures = 2 ∧
    ((((limiter2.registerFailure "ip" 1000000000).registerSuccess "ip" 2000000000).registerFailures
        "ip" [10000000000, 100000000000]).allow "ip" 100001000000).1 = true ∧
    ((((limiter2.registerFailure "ip" 1000000000).registerSuccess "ip" 2000000000).registerFailures
        "ip" [10000000000, 100000000000, 110000000000]).allow "ip" 110001000000).1 = false ∧
    (NewAuthAttemptLimiter 1 time.Minute time.Minute 0).maxFailures = 1 ∧
    ((((NewAuthAttemptLimiter 1 time.Minute time.Minute 0).registerSuccess "ip"
        2000000000).registerFailures "ip" [3000000000]).allow "ip" 3001000000).1 = true := by
  decide

end middleware

namespace amount

/-! ## Decimal amounts -/

theorem digitChar_spec (d : Nat) (h : d < 10) :
    (Nat.digitChar d).isDigit = true ∧ (Nat.digitChar d).toNat - 48 = d ∧
      Nat.digitChar d ≠ '.' ∧ Nat.digitChar d ≠ '-' := by
  interval_cases d <;> decide

theorem digitsValue_append (a b : List Char) :
    ∀ acc, digitsValue (a ++ b) acc = (digitsValue a acc).bind (digitsValue b) := by
  induction a with
  | nil => intro acc; rfl
  | cons c cs ih =>
    intro acc
    simp only [List.cons_append, digitsValue]
    split_ifs
    · exact ih _
    · rfl

theorem digitsValue_digit (d : Nat) (h : d < 10) (acc : Nat) :
    digitsValue [Nat.digitChar d] acc = some (acc * 10 + d) := by
  obtain ⟨h1, h2, _, _⟩ := digitChar_spec d h
  simp only [digitsValue, h1, if_true, h2]

theorem natDigits_value : ∀ (fuel n : Nat), n ≤ fuel →
    digitsValue (natDigits fuel n) 0 = some n := by
  intro fuel
  induction fuel with
  | zero =>
    intro n hn
    have h0 : n = 0 := by omega
    subst h0
    rfl
  | succ fuel ih =>
    intro n hn
    unfold natDigits
    split_ifs with h10
    · rw [digitsValue_digit n h10]
      simp
    · rw [digitsValue_append, ih (n / 10) (by omega)]
      show digitsValue [Nat.digitChar (n % 10)] (n / 10) = some n
      rw [digitsValue_digit (n % 10) (Nat.mod_lt _ (by decide))]
      congr 1
      omega

theorem fixedDigits_value : ∀ (k n acc : Nat),
    digitsValue (fixedDigits k n) acc = some (acc * 10 ^ k + n % 10 ^ k) := by
  intro k
  induction k with
  | zero =>
    intro n acc
    simp [fixedDigits, digitsValue, Nat.mod_one]
  | succ k ih =>
    intro n acc
    unfold fixedDigits
    rw [digitsValue_append, ih (n / 10) acc]
    show digitsValue [Nat.digitChar (n % 10)] (acc * 10 ^ k + n / 10 % 10 ^ k) = _
    rw [digitsValue_digit (n % 10) (Nat.mod_lt _ (by decide))]
    congr 1
    have hmod : n % (10 * 10 ^ k) = n % 10 + 10 * (n / 10 % 10 ^ k) := Nat.mod_mul
    rw [pow_succ, Nat.mul_comm (10 ^ k) 10, hmod]
    ring

theorem fixedDigits_length : ∀ (k n : Nat), (fixedDigits k n).length = k := by
  intro k
  induction k with
  | zero => intro n; rfl
  | succ k ih =>
    intro n
    simp [fixedDigits, ih]

theorem fixedDigits_digits : ∀ (k n : Nat), ∀ c ∈ fixedDigits k n,
    c.isDigit = true ∧ c ≠ '.' ∧ c ≠ '-' := by
  intro k
  induction k with
  | zero => intro n c hc; simp [fixedDigits] at hc
  | succ k ih =>
    intro n c hc
    simp only [fixedDigits, List.mem_append, List.mem_singleton] at hc
    rcases hc with hc | rfl
    · exact ih _ c hc
    · obtain ⟨h1, _, h3, h4⟩ := digitChar_spec (n % 10) (Nat.mod_lt _ (by decide))
      exact ⟨h1, h3, h4⟩

theorem natDigits_digits : ∀ (fuel n : Nat), ∀ c ∈ natDigits fuel n,
    c.isDigit = true ∧ c ≠ '.' ∧ c ≠ '-' := by
  intro fuel
  induction fuel with
  | zero =>
    intro n c hc
    simp only [natDigits, List.mem_singleton] at hc
    subst hc
    obtain ⟨h1, _, h3, h4⟩ := digitChar_spec (n % 10) (Nat.mod_lt _ (by decide))
    exact ⟨h1, h3, h4⟩
  | succ fuel ih =>
    intro n c hc
    unfold natDigits at hc
    split_ifs at hc with h10
    · simp only [List.mem_singleton] at hc
      subst hc
      obtain ⟨h1, _, h3, h4⟩ := digitChar_spec n h10
      exact ⟨h1, h3, h4⟩
    · simp only [List.mem_append, List.mem_singleton] at hc
      rcases hc with hc | rfl
      · exact ih _ c hc
      · obtain ⟨h1, _, h3, h4⟩ := digitChar_spec (n % 10) (Nat.mod_lt _ (by decide))
        exact ⟨h1, h3, h4⟩

theorem natDigits_ne_nil (fuel n : Nat) : natDigits fuel n ≠ [] := by
  cases fuel with
  | zero => simp [natDigits]
  | succ fuel =>
    unfold natDigits
    split_ifs <;> simp

end amount

namespace amount

theorem parseUnsigned_decimal (v : String) (whole frac : List Char) (ip fp : Nat)
    (hwd : ∀ c ∈ whole, c.isDigit = true ∧ c ≠ '.' ∧ c ≠ '-')
    (hfd : ∀ c ∈ frac, c.isDigit = true ∧ c ≠ '.' ∧ c ≠ '-')
    (hwne : whole ≠ []) (hw : digitsValue whole 0 = some ip)
    (hf : ∀ acc, digitsValue frac acc = some (acc * 10 ^ 7 + fp))
    (hlen : frac.length = 7) :
    parseUnsigned v (whole ++ '.' :: frac) = .ok (ip * 10000000 + fp) := by
  have hbody : ¬ (whole ++ '.' :: frac = [] ∨
      ¬ (whole ++ '.' :: frac).all (fun c => c.isDigit || c = '.') = true) := by
    intro h
    rcases h with h | h
    · simp at h
    · apply h
      rw [List.all_eq_true]
      intro c hc
      simp only [List.mem_append, List.mem_cons] at hc
      rcases hc with hc | rfl | hc
      · simp [(hwd c hc).1]
      · simp
      · simp [(hfd c hc).1]
  have hpos : ∀ c ∈ whole, (c != '.') = true := by
    intro c hc
    simpa using (hwd c hc).2.1
  have htake : (whole ++ '.' :: frac).takeWhile (fun c => c != '.') = whole := by
    rw [List.takeWhile_append_of_pos hpos]
    simp
  have hdrop : ((whole ++ '.' :: frac).dropWhile (fun c => c != '.')).tail = frac := by
    rw [List.dropWhile_append_of_pos hpos]
    simp
  have hany : ¬ (frac.any (fun c => decide (c = '.')) = true ∨ (whole = [] ∧ frac = [])) := by
    intro h
    rcases h with h | h
    · rw [List.any_eq_true] at h
      obtain ⟨c, hc, hdot⟩ := h
      exact (hfd c hc).2.1 (by simpa using hdot)
    · exact hwne h.1
  have hval : digitsValue (whole ++ frac) 0 = some (ip * 10 ^ 7 + fp) := by
    rw [digitsValue_append, hw]
    exact hf ip
  unfold parseUnsigned
  rw [if_neg hbody]
  simp only [htake, hdrop]
  rw [if_neg hany, hval]
  simp only [hlen]
  have hdvd : (10 : Nat) ^ 7 ∣ (ip * 10 ^ 7 + fp) * 10000000 := ⟨ip * 10 ^ 7 + fp, by ring⟩
  rw [if_neg (not_not.mpr hdvd)]
  congr 1
  norm_num

/-- Parsing what `StringFromInt64` renders gives the count back, over the whole
64-bit range. -/
theorem ParseInt64_StringFromInt64 (v : Int) (hlo : -9223372036854775808 ≤ v)
    (hhi : v ≤ 9223372036854775807) : ParseInt64 (StringFromInt64 v) = .ok v := by
  have hwd := natDigits_digits (v.natAbs / 10000000) (v.natAbs / 10000000)
  have hfd := fixedDigits_digits 7 (v.natAbs % 10000000)
  have hwne := natDigits_ne_nil (v.natAbs / 10000000) (v.natAbs / 10000000)
  have hparse := parseUnsigned_decimal (StringFromInt64 v) _ _ (v.natAbs / 10000000)
    (v.natAbs % 10000000) hwd hfd hwne (natDigits_value _ _ (le_refl _))
    (fun acc => by
      rw [fixedDigits_value]
      congr 2
      exact Nat.mod_eq_of_lt (Nat.mod_lt _ (by decide)))
    (fixedDigits_length _ _)
  have hmag : v.natAbs / 10000000 * 10000000 + v.natAbs % 10000000 = v.natAbs :=
    Nat.div_add_mod' _ _
  rw [hmag] at hparse
  by_cases hneg : v < 0
  · have hdata : (StringFromInt64 v).data =
        '-' :: (natDigits (v.natAbs / 10000000) (v.natAbs / 10000000) ++
          '.' :: fixedDigits 7 (v.natAbs % 10000000)) := by
      simp [StringFromInt64, hneg]
    unfold ParseInt64
    simp only [hdata, List.head?_cons, List.tail_cons, decide_True, if_true]
    rw [hparse]
    simp only
    have hv : -(v.natAbs : Int) = v := by omega
    rw [hv, if_neg (by omega)]
  · have hdata : (StringFromInt64 v).data =
        natDigits (v.natAbs / 10000000) (v.natAbs / 10000000) ++
          '.' :: fixedDigits 7 (v.natAbs % 10000000) := by
      simp [StringFromInt64, hneg]
    have hhead : decide ((StringFromInt64 v).data.head? = some '-') = false := by
      rw [decide_eq_false_iff_not, hdata]
      intro h
      cases hdig : natDigits (v.natAbs / 10000000) (v.natAbs / 10000000) with
      | nil => exact hwne hdig
      | cons c cs =>
        rw [hdig] at h
        simp only [List.cons_append, List.head?_cons, Option.some.injEq] at h
        exact (hwd c (by rw [hdig]; exact List.mem_cons_self _ _)).2.2 h
    unfold ParseInt64
    simp only [hhead, Bool.false_eq_true, if_false]
    rw [hdata, hparse]
    simp only
    have hv : (v.natAbs : Int) = v := by omega
    rw [hv, if_neg (by omega)]

/-- What `StringFromInt64` renders has exactly seven digits after its point. -/
theorem StringFromInt64_seven (v : Int) :
    ∃ whole frac : List Char, (StringFromInt64 v).data = whole ++ '.' :: frac ∧
      frac.length = 7 ∧ (∀ c ∈ frac, c.isDigit = true) ∧ '.' ∉ whole := by
  refine ⟨(if v < 0 then ['-'] else []) ++
    natDigits (v.natAbs / 10000000) (v.natAbs / 10000000),
    fixedDigits 7 (v.natAbs % 10000000), ?_, fixedDigits_length _ _,
    fun c hc => (fixedDigits_digits _ _ c hc).1, ?_⟩
  · simp [StringFromInt64]
  · intro h
    rw [List.mem_append] at h
    rcases h with h | h
    · split_ifs at h
      · simp at h
      · simp at h
    · exact (natDigits_digits _ _ _ h).2.1 rfl

end amount

namespace service

open txnbuild

/-! ## The re-validators -/

theorem decodeV1Transaction_ok {sdk : Toolkit} {txXDR : String} {tx : Transaction} :
    decodeV1Transaction sdk txXDR = .ok tx ↔
      sdk.TransactionFromXDR txXDR = .ok (.simple tx) := by
  unfold decodeV1Transaction
  constructor
  · intro h
    split at h
    · cases h
    · rename_i g hg
      cases g with
      | simple tx' =>
        simp only [GenericTransaction.Transaction, Except.ok.injEq] at h
        rw [hg, h]
      | feeBump fs inner =>
        simp only [GenericTransaction.Transaction] at h
        cases h
  · intro h
    rw [h]
    rfl

theorem validateActivateTransaction_ok {sdk : Toolkit}
    {signedXDR networkPassphrase masterPublicKey sponsor : String}
    (h : validateActivateTransaction sdk signedXDR networkPassphrase masterPublicKey =
      .ok sponsor) :
    ∃ tx, sdk.TransactionFromXDR signedXDR = .ok (.simple tx) ∧
      tx.SourceAccount = masterPublicKey ∧ sponsor ≠ "" ∧
      (∃ hash, sdk.HashHex tx networkPassphrase = .ok hash) ∧
      ∃ s0 s1 amt s2 g2 m2 l2 e2 h2 s3 g3 m3 l3 e3 h3,
        tx.Operations =
          [.BeginSponsoringFutureReserves s0 sponsor, .CreateAccount s1 sponsor amt,
           .SetOptions s2 g2 m2 l2 e2 h2, .SetOptions s3 g3 m3 l3 e3 h3,
           .EndSponsoringFutureReserves sponsor] := by
  unfold validateActivateTransaction at h
  split at h
  · cases h
  · rename_i tx hdec
    refine ⟨tx, decodeV1Transaction_ok.mp hdec, ?_⟩
    split_ifs at h with hsrc
    split at h
    · rename_i op0 op1 op2 op3 op4 hops
      split at h
      · rename_i s0 sid
        split at h
        · rename_i s1 dest amt
          split_ifs at h with hempty hsid
          split at h
          · rename_i s2 g2 m2 l2 e2 h2
            split at h
            · rename_i s3 g3 m3 l3 e3 h3
              split at h
              · rename_i endSource
                split_ifs at h with hend
                split at h
                · cases h
                · rename_i hash hhash
                  cases h
                  have hsid' : sid = sponsor := not_not.mp hsid
                  have hend' : endSource = sponsor := not_not.mp hend
                  subst hsid' hend'
                  exact ⟨not_not.mp hsrc, hempty, ⟨hash, hhash⟩,
                    s0, s1, amt, s2, g2, m2, l2, e2, h2, s3, g3, m3, l3, e3, h3, hops⟩
              · cases h
            · cases h
          · cases h
        · cases h
      · cases h
    · cases h

end service

namespace service

open txnbuild

theorem validateActivateTransaction_accepts {sdk : Toolkit}
    {signedXDR networkPassphrase masterPublicKey sponsor hash : String} {tx : Transaction}
    {s0 s1 amt s2 s3 : String} {g2 g3 : Option Signer} {m2 l2 e2 h2 m3 l3 e3 h3 : Option Nat}
    (hdec : sdk.TransactionFromXDR signedXDR = .ok (.simple tx))
    (hsrc : tx.SourceAccount = masterPublicKey) (hne : sponsor ≠ "")
    (hhash : sdk.HashHex tx networkPassphrase = .ok hash)
    (hops : tx.Operations =
      [.BeginSponsoringFutureReserves s0 sponsor, .CreateAccount s1 sponsor amt,
       .SetOptions s2 g2 m2 l2 e2 h2, .SetOptions s3 g3 m3 l3 e3 h3,
       .EndSponsoringFutureReserves sponsor]) :
    validateActivateTransaction sdk signedXDR networkPassphrase masterPublicKey =
      .ok sponsor := by
  unfold validateActivateTransaction
  rw [decodeV1Transaction_ok.mpr hdec]
  simp only [hsrc, ne_eq, not_true_eq_false, if_false, hops, hne, hhash]

theorem validateFundTransaction_ok {sdk : Toolkit}
    {signedXDR networkPassphrase masterPublicKey sponsorAccount amt : String}
    (h : validateFundTransaction sdk signedXDR networkPassphrase masterPublicKey
      sponsorAccount = .ok amt) :
    ∃ tx, sdk.TransactionFromXDR signedXDR = .ok (.simple tx) ∧
      tx.SourceAccount = masterPublicKey ∧
      (∃ hash, sdk.HashHex tx networkPassphrase = .ok hash) ∧
      (∃ stroops, amount.ParseInt64 amt = .ok stroops ∧ 0 < stroops) ∧
      ∃ source asset, tx.Operations = [.Payment source sponsorAccount amt asset] ∧
        asset.IsNative = true ∧ (source = "" ∨ source = masterPublicKey) := by
  unfold validateFundTransaction at h
  split at h
  · cases h
  · rename_i tx hdec
    refine ⟨tx, decodeV1Transaction_ok.mp hdec, ?_⟩
    split_ifs at h with hsrc
    split at h
    · rename_i op hops
      split at h
      · rename_i source destination amt' asset
        split_ifs at h with hnative hdest hopsrc
        split at h
        · cases h
        · rename_i stroops hparse
          split_ifs at h with hpos
          split at h
          · cases h
          · rename_i hash hhash
            cases h
            have hdest' : destination = sponsorAccount := not_not.mp hdest
            subst hdest'
            refine ⟨not_not.mp hsrc, ⟨hash, hhash⟩, ⟨stroops, hparse, by omega⟩, source, asset,
              hops, by simpa using hnative, ?_⟩
            by_cases hs : source = ""
            · exact Or.inl hs
            · exact Or.inr (not_not.mp (fun hm => hopsrc ⟨hs, hm⟩))
      · cases h
    · cases h

theorem validateFundTransaction_accepts {sdk : Toolkit}
    {signedXDR networkPassphrase masterPublicKey sponsorAccount amt hash : String}
    {tx : Transaction} {stroops : Int}
    (hdec : sdk.TransactionFromXDR signedXDR = .ok (.simple tx))
    (hsrc : tx.SourceAccount = masterPublicKey)
    (hhash : sdk.HashHex tx networkPassphrase = .ok hash)
    (hparse : amount.ParseInt64 amt = .ok stroops) (hpos : 0 < stroops)
    (hops : tx.Operations = [.Payment "" sponsorAccount amt .NativeAsset]) :
    validateFundTransaction sdk signedXDR networkPassphrase masterPublicKey sponsorAccount =
      .ok amt := by
  unfold validateFundTransaction
  rw [decodeV1Transaction_ok.mpr hdec]
  have hpos' : ¬ stroops ≤ 0 := by omega
  simp only [hsrc, ne_eq, not_true_eq_false, if_false, hops, Asset.IsNative, hparse, hpos',
    hhash, false_and, not_false_eq_true, Bool.not_eq_true]

theorem toolkitOf_roundTripsAt (tx : Transaction) : (toolkitOf tx).RoundTripsAt tx := by
  intro xdr h
  have henc : (Except.ok "envelope" : Except String String) = .ok xdr := by
    simpa [toolkitOf] using h
  cases henc
  rfl

theorem horizonOf_answers : horizonOf.Answers := by
  intro id account h
  simp only [horizonOf, Except.ok.injEq] at h
  rw [← h]

end service

namespace stellar

open txnbuild

/-- What a successful `BuildCreateSponsorAccount` has done. -/
theorem Builder.BuildCreateSponsorAccount_ok {b : Builder} {sdk : Toolkit}
    {sponsorKP : keypair.Full} {xlmBudget : Int} {xdr : String}
    (h : b.BuildCreateSponsorAccount sdk sponsorKP xlmBudget = .ok xdr) :
    ∃ masterAccount hash,
      b.horizonClient.AccountDetail b.masterPublicKey = .ok masterAccount ∧
      sdk.HashHex ⟨masterAccount.AccountID,
        activateOperations b sponsorKP.Address xlmBudget⟩ b.networkPassphrase = .ok hash ∧
      sdk.Base64 ⟨masterAccount.AccountID,
        activateOperations b sponsorKP.Address xlmBudget⟩ = .ok xdr := by
  unfold Builder.BuildCreateSponsorAccount at h
  simp only at h
  split at h
  · cases h
  · rename_i masterAccount hacc
    split at h
    · cases h
    · rename_i tx htx
      have htx' : tx = ⟨masterAccount.AccountID,
          activateOperations b sponsorKP.Address xlmBudget⟩ := by
        unfold NewTransaction at htx
        split at htx
        · cases htx
        · cases htx
          rfl
      subst htx'
      split at h
      · cases h
      · rename_i signed hsign
        unfold Transaction.Sign at hsign
        split at hsign
        · cases hsign
        · rename_i hash hhash
          split at hsign
          · cases hsign
          · cases hsign
            split at h
            · cases h
            · rename_i xdr' hxdr
              cases h
              exact ⟨masterAccount, hash, hacc, hhash, hxdr⟩

/-- What a successful `BuildFundTransaction` has done. -/
theorem Builder.BuildFundTransaction_ok {b : Builder} {sdk : Toolkit}
    {sponsorAccount : String} {fundAmount : Int} {xdr : String}
    (h : b.BuildFundTransaction sdk sponsorAccount fundAmount = .ok xdr) :
    ∃ masterAccount,
      b.horizonClient.AccountDetail b.masterPublicKey = .ok masterAccount ∧
      sdk.Base64 ⟨masterAccount.AccountID,
        [.Payment "" sponsorAccount (amount.StringFromInt64 fundAmount) .NativeAsset]⟩ =
        .ok xdr := by
  unfold Builder.BuildFundTransaction at h
  split at h
  · cases h
  · rename_i masterAccount hacc
    split at h
    · cases h
    · rename_i tx htx
      have htx' : tx = ⟨masterAccount.AccountID,
          [.Payment "" sponsorAccount (amount.StringFromInt64 fundAmount) .NativeAsset]⟩ := by
        unfold NewTransaction at htx
        split at htx
        · cases htx
        · cases htx
          rfl
      subst htx'
      split at h
      · cases h
      · rename_i xdr' hxdr
        cases h
        exact ⟨masterAccount, hacc, hxdr⟩

end stellar

namespace service

open txnbuild

/-! ## The claims on the builder and the re-validators -/

/-- C17. Activate round trip: for every sponsor keypair with (non-empty)
address `S` and every positive budget `B`, an envelope that
`BuildCreateSponsorAccount` produces is the encoding of the transaction `tx`
with the master account as source and the five operations BEGIN (sponsored id
`S`), CREATE_ACCOUNT (destination `S`, amount `amount.StringFromInt64(B)`),
SET_OPTIONS (source `S`, the signing key as signer of weight 1), SET_OPTIONS
(source `S`, the master key as signer of weight 1, master weight 0 and the
three thresholds 1) and END (source `S`); the codec decodes it to `tx`, and
`validateActivateTransaction` accepts it with the builder's master key and
network passphrase and returns `S`. Horizon answers with the account asked
for, and the codec decodes its encoding of `tx` to `tx`. -/
theorem activate_round_trip (sdk : Toolkit) (b : stellar.Builder) (sponsorKP : keypair.Full)
    (xlmBudget : Int) (xdr : String) (tx : Transaction)
    (hshape : tx =
      { SourceAccount := b.masterPublicKey,
        Operations :=
          [.BeginSponsoringFutureReserves "" sponsorKP.Address,
           .CreateAccount "" sponsorKP.Address (amount.StringFromInt64 xlmBudget),
           .SetOptions sponsorKP.Address (some { Address := b.signingPublicKey, Weight := 1 })
              none none none none,
           .SetOptions sponsorKP.Address (some { Address := b.masterPublicKey, Weight := 1 })
              (some 0) (some 1) (some 1) (some 1),
           .EndSponsoringFutureReserves sponsorKP.Address] })
    (hcodec : sdk.RoundTripsAt tx) (hhorizon : b.horizonClient.Answers)
    (hS : sponsorKP.Address ≠ "") (_hB : 0 < xlmBudget)
    (hbuild : b.BuildCreateSponsorAccount sdk sponsorKP xlmBudget = .ok xdr) :
    sdk.Base64 tx = .ok xdr ∧
    sdk.TransactionFromXDR xdr = .ok (.simple tx) ∧
    validateActivateTransaction sdk xdr b.networkPassphrase b.masterPublicKey =
      .ok sponsorKP.Address := by
  obtain ⟨masterAccount, hash, hacc, hhash, hxdr⟩ :=
    stellar.Builder.BuildCreateSponsorAccount_ok hbuild
  rw [hhorizon _ _ hacc] at hhash hxdr
  have hbuilt : tx = ⟨b.masterPublicKey,
      stellar.activateOperations b sponsorKP.Address xlmBudget⟩ := by
    rw [hshape]
    rfl
  rw [← hbuilt] at hhash hxdr
  have hdec := hcodec xdr hxdr
  refine ⟨hxdr, hdec, ?_⟩
  exact validateActivateTransaction_accepts hdec (by rw [hshape]) hS hhash (by rw [hshape])

/-- Witness of C17: the builder for `MASTER` on the test network, the keypair
with address `SPONSOR`, a budget of 10 native units. -/
theorem activate_round_trip_witness :
    builderOf.BuildCreateSponsorAccount (toolkitOf activateTx) sponsorKP 100000000 =
      .ok "envelope" ∧
    activateTx.Operations.map Operation.GetSourceAccount =
      ["", "", "SPONSOR", "SPONSOR", "SPONSOR"] ∧
    (toolkitOf activateTx).Base64 activateTx = .ok "envelope" ∧
    validateActivateTransaction (toolkitOf activateTx) "envelope"
      "Test SDF Network ; September 2015" "MASTER" = .ok "SPONSOR" :=
  have h := activate_round_trip (toolkitOf activateTx) builderOf sponsorKP 100000000 "envelope"
    activateTx rfl (toolkitOf_roundTripsAt _) horizonOf_answers (by decide) (by decide) rfl
  ⟨rfl, rfl, h.1, h.2.2⟩

/-- C18. Fund round trip: for every sponsor address `S` and every positive
amount `A` of base units (a 64-bit count), an envelope that
`BuildFundTransaction(S, A)` produces is the encoding of the transaction `tx`
with the master account as source and the one operation PAYMENT (no source of
its own, destination `S`, amount `amount.StringFromInt64(A)`, native asset); it
is accepted by `validateFundTransaction` with the builder's master key, the
sponsor `S` and a network passphrase under which `tx` hashes, and the value
returned is `amount.StringFromInt64(A)`: a decimal string with exactly seven
digits after the point, which parses back to `A`. Horizon answers with the
account asked for, and the codec decodes its encoding of `tx` to `tx`. -/
theorem fund_round_trip (sdk : Toolkit) (b : stellar.Builder) (sponsorAccount : String)
    (fundAmount : Int) (xdr hash : String) (tx : Transaction)
    (hshape : tx =
      { SourceAccount := b.masterPublicKey,
        Operations :=
          [.Payment "" sponsorAccount (amount.StringFromInt64 fundAmount) .NativeAsset] })
    (hcodec : sdk.RoundTripsAt tx) (hhorizon : b.horizonClient.Answers)
    (hhash : sdk.HashHex tx b.networkPassphrase = .ok hash)
    (hA : 0 < fundAmount) (hA64 : fundAmount ≤ 9223372036854775807)
    (hbuild : b.BuildFundTransaction sdk sponsorAccount fundAmount = .ok xdr) :
    sdk.Base64 tx = .ok xdr ∧
    validateFundTransaction sdk xdr b.networkPassphrase b.masterPublicKey sponsorAccount =
      .ok (amount.StringFromInt64 fundAmount) ∧
    amount.ParseInt64 (amount.StringFromInt64 fundAmount) = .ok fundAmount ∧
    ∃ whole frac : List Char,
      (amount.StringFromInt64 fundAmount).data = whole ++ '.' :: frac ∧ frac.length = 7 ∧
      (∀ c ∈ frac, c.isDigit = true) ∧ '.' ∉ whole := by
  obtain ⟨masterAccount, hacc, hxdr⟩ := stellar.Builder.BuildFundTransaction_ok hbuild
  rw [hhorizon _ _ hacc, ← hshape] at hxdr
  have hparse := amount.ParseInt64_StringFromInt64 fundAmount (by omega) hA64
  exact ⟨hxdr,
    validateFundTransaction_accepts (hcodec xdr hxdr) (by rw [hshape]) hhash hparse hA
      (by rw [hshape]),
    hparse, amount.StringFromInt64_seven fundAmount⟩

/-- Witness of C18: the builder for `MASTER`, the sponsor `SPONSOR`, 5 native
units. -/
theorem fund_round_trip_witness :
    builderOf.BuildFundTransaction (toolkitOf fundTx) "SPONSOR" 50000000 = .ok "envelope" ∧
    amount.StringFromInt64 50000000 = "5.0000000" ∧
    (toolkitOf fundTx).Base64 fundTx = .ok "envelope" ∧
    validateFundTransaction (toolkitOf fundTx) "envelope" "Test SDF Network ; September 2015"
      "MASTER" "SPONSOR" = .ok (amount.StringFromInt64 50000000) :=
  have h := fund_round_trip (toolkitOf fundTx) builderOf "SPONSOR" 50000000 "envelope" "hash"
    fundTx (by decide) (toolkitOf_roundTripsAt _) horizonOf_answers rfl (by decide) (by decide)
    rfl
  ⟨rfl, by decide, h.1, h.2.1⟩

end service

namespace service

open txnbuild

theorem except_error_of_not_ok {r : Except String String} (h : ∀ v, r ≠ .ok v) :
    ∃ err, r = .error err := by
  cases r with
  | error err => exact ⟨err, rfl⟩
  | ok v => exact absurd rfl (h v)

/-- C19. Tamper rejection by the re-validators. Both return an error for a
string that does not decode to a V1 (non-fee-bump) envelope. For an envelope
that does, `validateActivateTransaction` returns an error when the transaction
source is not the master, the operation count is not 5, the operation at some
index 0 to 4 has not the body type BEGIN, CREATE_ACCOUNT, SET_OPTIONS,
SET_OPTIONS, END of that index, or the CREATE_ACCOUNT destination differs from
the BEGIN sponsored id or from the END source; `validateFundTransaction`
returns an error when the transaction source is not the master, the operation
count is not 1, the operation is no PAYMENT, its asset is not native, its
destination is not the sponsor account, or its amount is not positive (does
not parse to a positive count). -/
theorem validators_reject_tampering (sdk : Toolkit)
    (signedXDR networkPassphrase masterPublicKey sponsorAccount : String) :
    ((∀ tx, sdk.TransactionFromXDR signedXDR ≠ .ok (.simple tx)) →
      (∃ err, validateActivateTransaction sdk signedXDR networkPassphrase masterPublicKey =
        .error err) ∧
      (∃ err, validateFundTransaction sdk signedXDR networkPassphrase masterPublicKey
        sponsorAccount = .error err)) ∧
    (∀ tx, sdk.TransactionFromXDR signedXDR = .ok (.simple tx) →
      ((tx.SourceAccount ≠ masterPublicKey ∨ tx.Operations.length ≠ 5 ∨
        (∃ (i : Nat) (op : Operation) (t : xdr.OperationType),
          tx.Operations[i]? = some op ∧ activateShape[i]? = some t ∧
          op.bodyType ≠ t) ∨
        (∃ s0 sponsoredID s1 destination amt,
          tx.Operations[0]? = some (.BeginSponsoringFutureReserves s0 sponsoredID) ∧
          tx.Operations[1]? = some (.CreateAccount s1 destination amt) ∧
          destination ≠ sponsoredID) ∨
        (∃ s1 destination amt endSource,
          tx.Operations[1]? = some (.CreateAccount s1 destination amt) ∧
          tx.Operations[4]? = some (.EndSponsoringFutureReserves endSource) ∧
          destination ≠ endSource)) →
        ∃ err, validateActivateTransaction sdk signedXDR networkPassphrase masterPublicKey =
          .error err) ∧
      ((tx.SourceAccount ≠ masterPublicKey ∨ tx.Operations.length ≠ 1 ∨
        (∃ op : Operation, tx.Operations[0]? = some op ∧ op.bodyType ≠ .Payment) ∨
        (∃ source destination amt asset,
          tx.Operations[0]? = some (.Payment source destination amt asset) ∧
          (asset.IsNative = false ∨ destination ≠ sponsorAccount ∨
            ∀ stroops, amount.ParseInt64 amt = .ok stroops → stroops ≤ 0))) →
        ∃ err, validateFundTransaction sdk signedXDR networkPassphrase masterPublicKey
          sponsorAccount = .error err)) := by
  refine ⟨?_, ?_⟩
  · intro hno
    constructor
    · apply except_error_of_not_ok
      intro v hv
      obtain ⟨tx, hdec, _⟩ := validateActivateTransaction_ok hv
      exact hno tx hdec
    · apply except_error_of_not_ok
      intro v hv
      obtain ⟨tx, hdec, _⟩ := validateFundTransaction_ok hv
      exact hno tx hdec
  · intro tx hdec
    constructor
    · intro hdefect
      apply except_error_of_not_ok
      intro v hv
      obtain ⟨tx', hdec', hsrc, _, _, s0, s1, amt, s2, g2, m2, l2, e2, h2, s3, g3, m3, l3, e3,
        h3, hops⟩ := validateActivateTransaction_ok hv
      rw [hdec] at hdec'
      cases hdec'
      rcases hdefect with h | h | ⟨i, op, t, hi, ht, hne⟩ | ⟨a0, sid, a1, dest, am, h0, h1, hne⟩ |
        ⟨a1, dest, am, es, h1, h4, hne⟩
      · exact h hsrc
      · rw [hops] at h
        exact h rfl
      · rw [hops] at hi
        have hi5 : i < 5 := by
          by_contra hge
          have : activateShape[i]? = none := by
            rw [List.getElem?_eq_none_iff]
            simp only [activateShape, List.length_cons, List.length_nil]
            omega
          rw [this] at ht
          cases ht
        interval_cases i <;>
          (simp only [activateShape, List.getElem?_cons_zero, List.getElem?_cons_succ,
              Option.some.injEq] at hi ht
           subst hi ht
           exact hne rfl)
      · rw [hops] at h0 h1
        simp only [List.getElem?_cons_zero, List.getElem?_cons_succ, Option.some.injEq,
          Operation.BeginSponsoringFutureReserves.injEq, Operation.CreateAccount.injEq] at h0 h1
        exact hne (h1.2.1.symm.trans h0.2)
      · rw [hops] at h1 h4
        simp only [List.getElem?_cons_zero, List.getElem?_cons_succ, Option.some.injEq,
          Operation.EndSponsoringFutureReserves.injEq, Operation.CreateAccount.injEq] at h1 h4
        exact hne (h1.2.1.symm.trans h4)
    · intro hdefect
      apply except_error_of_not_ok
      intro v hv
      obtain ⟨tx', hdec', hsrc, _, ⟨stroops, hparse, hpos⟩, source, asset, hops, hnative, _⟩ :=
        validateFundTransaction_ok hv
      rw [hdec] at hdec'
      cases hdec'
      rcases hdefect with h | h | ⟨op, h0, hne⟩ | ⟨sr, dest, am, as, h0, hbad⟩
      · exact h hsrc
      · rw [hops] at h
        exact h rfl
      · rw [hops] at h0
        simp only [List.getElem?_cons_zero, Option.some.injEq] at h0
        subst h0
        exact hne rfl
      · rw [hops] at h0
        simp only [List.getElem?_cons_zero, Option.some.injEq, Operation.Payment.injEq] at h0
        obtain ⟨_, hd, ha, has⟩ := h0
        subst hd ha has
        rcases hbad with hb | hb | hb
        · rw [hnative] at hb
          cases hb
        · exact hb rfl
        · have := hb stroops hparse
          omega

/-- Witness of C19: the builder's activation transaction offered to the fund
validator, and its funding transaction offered to the activate validator. -/
theorem validators_reject_tampering_witness :
    (∃ err, validateFundTransaction (toolkitOf activateTx) "envelope"
      "Test SDF Network ; September 2015" "MASTER" "SPONSOR" = .error err) ∧
    (∃ err, validateActivateTransaction (toolkitOf fundTx) "envelope"
      "Test SDF Network ; September 2015" "MASTER" = .error err) ∧
    (∃ err, validateActivateTransaction (toolkitOf fundTx) "no envelope"
      "Test SDF Network ; September 2015" "MASTER" = .error err) :=
  ⟨((validators_reject_tampering (toolkitOf activateTx) "envelope"
      "Test SDF Network ; September 2015" "MASTER" "SPONSOR").2 activateTx rfl).2
      (Or.inr (Or.inl (by decide))),
   ((validators_reject_tampering (toolkitOf fundTx) "envelope"
      "Test SDF Network ; September 2015" "MASTER" "SPONSOR").2 fundTx rfl).1
      (Or.inr (Or.inl (by decide))),
   ((validators_reject_tampering (toolkitOf fundTx) "no envelope"
      "Test SDF Network ; September 2015" "MASTER" "SPONSOR").1
      (fun tx h => by simp [toolkitOf] at h)).1⟩

/-- C20 (the code departs from it). `validateActivateTransaction` accepts, with
result `SPONSOR`, an envelope whose BEGIN has the explicit source `MALLORY`,
whose first SET_OPTIONS is sourced by the master account and whose second
SET_OPTIONS has no explicit source: only the source of the END is compared
with the sponsor account. -/
theorem validateActivateTransaction_accepts_unbound_sources :
    validateActivateTransaction (toolkitOf tamperedActivateTx) "envelope"
      "Test SDF Network ; September 2015" "MASTER" = .ok "SPONSOR" ∧
    (tamperedActivateTx.Operations.map Operation.GetSourceAccount =
      ["MALLORY", "", "MASTER", "", "SPONSOR"]) ∧
    tamperedActivateTx.Operations.map Operation.bodyType = activateShape :=
  ⟨rfl, rfl, rfl⟩

end service

namespace service

/-! ## Rate-limit settings -/

/-- C29. `normalizeRateLimit(max, window)` returns an error if and only if
`max` is given and outside 1..10000 or `window` is given and outside 1..86400;
a bad `max` decides the message also when `window` is bad too; otherwise the
result is the given value of each argument and the default 100 or 60 for an
absent one, so every accepted pair has 1 ≤ max ≤ 10000 and 1 ≤ window ≤ 86400. -/
theorem normalizeRateLimit_spec (maxRequests windowSeconds : Option Int) :
    ((normalizeRateLimit maxRequests windowSeconds).2.2 ≠ none ↔
      ((∃ m, maxRequests = some m ∧ (m < 1 ∨ 10000 < m)) ∨
       (∃ w, windowSeconds = some w ∧ (w < 1 ∨ 86400 < w)))) ∧
    ((∃ m, maxRequests = some m ∧ (m < 1 ∨ 10000 < m)) →
      normalizeRateLimit maxRequests windowSeconds =
        (0, 0, some "rate_limit.max_requests must be between 1 and 10000")) ∧
    ((¬ ∃ m, maxRequests = some m ∧ (m < 1 ∨ 10000 < m)) →
      (∃ w, windowSeconds = some w ∧ (w < 1 ∨ 86400 < w)) →
      normalizeRateLimit maxRequests windowSeconds =
        (0, 0, some "rate_limit.window_seconds must be between 1 and 86400")) ∧
    ((normalizeRateLimit maxRequests windowSeconds).2.2 = none →
      normalizeRateLimit maxRequests windowSeconds =
        (maxRequests.getD 100, windowSeconds.getD 60, none) ∧
      1 ≤ (normalizeRateLimit maxRequests windowSeconds).1 ∧
      (normalizeRateLimit maxRequests windowSeconds).1 ≤ 10000 ∧
      1 ≤ (normalizeRateLimit maxRequests windowSeconds).2.1 ∧
      (normalizeRateLimit maxRequests windowSeconds).2.1 ≤ 86400) := by
  cases maxRequests with
  | none =>
    cases windowSeconds with
    | none => simp [normalizeRateLimit, normalizeRateLimitWindow, defaultRateLimitMax,
        defaultRateLimitWindow]
    | some w =>
      by_cases hw : w < 1 ∨ w > 86400
      · simp [normalizeRateLimit, normalizeRateLimitWindow, maxRateLimitWindow, hw]
      · have hw' : ¬ (w < 1 ∨ 86400 < w) := hw
        simp [normalizeRateLimit, normalizeRateLimitWindow, maxRateLimitWindow, hw,
          defaultRateLimitMax, hw']
        omega
  | some m =>
    by_cases hm : m < 1 ∨ m > 10000
    · have hm' : m < 1 ∨ 10000 < m := hm
      simp [normalizeRateLimit, maxRateLimitMax, hm, hm']
    · have hm' : ¬ (m < 1 ∨ 10000 < m) := hm
      cases windowSeconds with
      | none =>
        simp [normalizeRateLimit, normalizeRateLimitWindow, maxRateLimitMax, hm, hm',
          defaultRateLimitWindow]
        omega
      | some w =>
        by_cases hw : w < 1 ∨ w > 86400
        · have hw' : w < 1 ∨ 86400 < w := hw
          simp [normalizeRateLimit, normalizeRateLimitWindow, maxRateLimitMax,
            maxRateLimitWindow, hm, hm', hw, hw']
        · have hw' : ¬ (w < 1 ∨ 86400 < w) := hw
          simp [normalizeRateLimit, normalizeRateLimitWindow, maxRateLimitMax,
            maxRateLimitWindow, hm, hm', hw, hw']
          omega

end service

namespace validation

/-! ## Allowed operations -/

theorem allowedOperationsLoop_none_iff (quote : String → String) (ops : List String) :
    ∀ seen : List String, allowedOperationsLoop quote seen ops = none ↔
      (∀ op ∈ ops, op ∈ stellar.SupportedOperations) ∧ (∀ op ∈ ops, op ∉ seen) ∧ ops.Nodup := by
  induction ops with
  | nil => intro seen; simp [allowedOperationsLoop]
  | cons op rest ih =>
    intro seen
    by_cases hs : op ∈ stellar.SupportedOperations
    · by_cases hd : op ∈ seen
      · simp [allowedOperationsLoop, hs, hd]
      · simp only [allowedOperationsLoop, hs, hd, not_true_eq_false, if_false, ih,
          List.mem_cons, forall_eq_or_imp, true_and, not_or, not_false_eq_true,
          List.nodup_cons]
        constructor
        · rintro ⟨h1, h2, h3⟩
          exact ⟨h1, fun x hx => (h2 x hx).2, fun hmem => (h2 op hmem).1 rfl, h3⟩
        · rintro ⟨h1, h2, h3, h4⟩
          refine ⟨h1, fun x hx => ⟨?_, h2 x hx⟩, h4⟩
          rintro rfl
          exact h3 hx
    · simp [allowedOperationsLoop, hs]

theorem allowedOperationsLoop_prefix (quote : String → String) (pre : List String) :
    ∀ (seen rest : List String), (∀ x ∈ pre, x ∈ stellar.SupportedOperations) →
      (∀ x ∈ pre, x ∉ seen) → pre.Nodup →
      allowedOperationsLoop quote seen (pre ++ rest) =
        allowedOperationsLoop quote (pre.reverse ++ seen) rest := by
  induction pre with
  | nil => intro seen rest _ _ _; rfl
  | cons x pre ih =>
    intro seen rest hs hn hd
    have hx : x ∈ stellar.SupportedOperations := hs x (List.mem_cons_self _ _)
    have hxs : x ∉ seen := hn x (List.mem_cons_self _ _)
    rw [List.nodup_cons] at hd
    have hstep : allowedOperationsLoop quote seen (x :: pre ++ rest) =
        allowedOperationsLoop quote (x :: seen) (pre ++ rest) := by
      simp only [List.cons_append, allowedOperationsLoop, hx, hxs, not_true_eq_false, if_false]
      rfl
    rw [hstep, ih (x :: seen) rest (fun y hy => hs y (List.mem_cons_of_mem _ hy)) ?_ hd.2]
    · simp
    · intro y hy hmem
      rcases List.mem_cons.mp hmem with h | h
      · exact hd.1 (h ▸ hy)
      · exact hn y (List.mem_cons_of_mem _ hy) h

theorem contains_infix (a b c : String) : stellar.Contains (a ++ b ++ c) b := by
  unfold stellar.Contains
  exact ⟨a.data, c.data, by simp [String.data_append]⟩

/-- C28. `validation.AllowedOperations(ops)` returns nil if and only if `ops`
is non-empty, every element is one of the seven supported names and no element
occurs twice. Otherwise it returns an error: "cannot be empty" for an empty
list, and else the error of the first offending element, "not supported" when
that element is no supported name and "duplicate" when it is a supported name
met before. The supported names are the names of the operation catalog without
the two structural ones. -/
theorem AllowedOperations_spec (quote : String → String) (ops : List String) :
    (AllowedOperations quote ops = none ↔
      ops ≠ [] ∧
      (∀ op ∈ ops, op ∈ ["CREATE_ACCOUNT", "CHANGE_TRUST", "MANAGE_SELL_OFFER",
        "MANAGE_BUY_OFFER", "SET_OPTIONS", "MANAGE_DATA", "CREATE_CLAIMABLE_BALANCE"]) ∧
      ops.Nodup) ∧
    (ops = [] → AllowedOperations quote ops = some "allowed_operations cannot be empty" ∧
      stellar.Contains "allowed_operations cannot be empty" "cannot be empty") ∧
    (∀ pre op post, ops = pre ++ op :: post →
      (∀ x ∈ pre, x ∈ stellar.SupportedOperations) → pre.Nodup →
      (op ∉ stellar.SupportedOperations →
        AllowedOperations quote ops = some ("operation " ++ quote op ++ " is not supported") ∧
        stellar.Contains ("operation " ++ quote op ++ " is not supported") "not supported") ∧
      (op ∈ stellar.SupportedOperations → op ∈ pre →
        AllowedOperations quote ops =
          some ("duplicate operation " ++ quote op ++ " is not allowed") ∧
        stellar.Contains ("duplicate operation " ++ quote op ++ " is not allowed")
          "duplicate")) ∧
    (∀ name, name ∈ stellar.SupportedOperations ↔
      ∃ t, stellar.OperationTypeName t = (name, true) ∧ stellar.isStructuralOp t = false) := by
  refine ⟨?_, ?_, ?_, ?_⟩
  · cases ops with
    | nil => simp [AllowedOperations]
    | cons op rest =>
      have hlen : ¬ (op :: rest).length = 0 := by simp
      simp only [AllowedOperations, hlen, if_false, allowedOperationsLoop_none_iff, ne_eq,
        reduceCtorEq, not_false_eq_true, true_and, List.not_mem_nil, implies_true]
      rfl
  · rintro rfl
    exact ⟨rfl, by decide⟩
  · rintro pre op post rfl hs hd
    have hlen : ¬ (pre ++ op :: post).length = 0 := by simp
    have hloop : AllowedOperations quote (pre ++ op :: post) =
        allowedOperationsLoop quote (pre.reverse ++ []) (op :: post) := by
      simp only [AllowedOperations, hlen, if_false]
      exact allowedOperationsLoop_prefix quote pre [] (op :: post) hs (by simp) hd
    refine ⟨fun hop => ⟨?_, ?_⟩, fun hop hmem => ⟨?_, ?_⟩⟩
    · rw [hloop]
      simp only [allowedOperationsLoop, hop, not_false_eq_true, if_true]
    · have h := contains_infix ("operation " ++ quote op ++ " is ") "not supported" ""
      simpa [String.append_assoc] using h
    · rw [hloop]
      have hmem' : op ∈ pre.reverse ++ [] := by simpa using hmem
      simp only [allowedOperationsLoop, hop, not_true_eq_false, if_false, hmem', if_true]
    · have h := contains_infix "" "duplicate" (" operation " ++ quote op ++ " is not allowed")
      simpa [String.append_assoc] using h
  · intro name
    constructor
    · intro h
      simp only [stellar.SupportedOperations, List.mem_cons, List.mem_singleton,
        List.not_mem_nil, or_false] at h
      rcases h with h | h | h | h | h | h | h
      · exact ⟨.CreateAccount, by rw [h]; rfl, rfl⟩
      · exact ⟨.ChangeTrust, by rw [h]; rfl, rfl⟩
      · exact ⟨.ManageSellOffer, by rw [h]; rfl, rfl⟩
      · exact ⟨.ManageBuyOffer, by rw [h]; rfl, rfl⟩
      · exact ⟨.SetOptions, by rw [h]; rfl, rfl⟩
      · exact ⟨.ManageData, by rw [h]; rfl, rfl⟩
      · exact ⟨.CreateClaimableBalance, by rw [h]; rfl, rfl⟩
    · rintro ⟨t, ht, hst⟩
      cases t <;> simp [stellar.OperationTypeName, stellar.isStructuralOp] at ht hst <;>
        simp [← ht, stellar.SupportedOperations]

/-- Witness of C28: the repository's tests; two supported operations pass, an
empty list, `PAYMENT` and a repeated `MANAGE_DATA` do not. -/
theorem AllowedOperations_spec_witness :
    AllowedOperations (fun s => "\"" ++ s ++ "\"") ["CREATE_ACCOUNT", "MANAGE_DATA"] = none ∧
    AllowedOperations (fun s => "\"" ++ s ++ "\"") [] =
      some "allowed_operations cannot be empty" ∧
    AllowedOperations (fun s => "\"" ++ s ++ "\"") ["PAYMENT"] =
      some "operation \"PAYMENT\" is not supported" ∧
    AllowedOperations (fun s => "\"" ++ s ++ "\"") ["MANAGE_DATA", "MANAGE_DATA"] =
      some "duplicate operation \"MANAGE_DATA\" is not allowed" :=
  ⟨(AllowedOperations_spec _ ["CREATE_ACCOUNT", "MANAGE_DATA"]).1.mpr (by decide),
   ((AllowedOperations_spec _ []).2.1 rfl).1,
   ((AllowedOperations_spec _ ["PAYMENT"]).2.2.1 [] "PAYMENT" [] rfl (by decide) (by decide)).1
      (by decide) |>.1,
   ((AllowedOperations_spec _ ["MANAGE_DATA", "MANAGE_DATA"]).2.2.1 ["MANAGE_DATA"]
      "MANAGE_DATA" [] rfl (by decide) (by decide)).2 (by decide) (by decide) |>.1⟩

end validation

namespace service

/-- Witness of C29: the repository's tests; the pair (500, 120) is accepted as
given, absent arguments give the defaults, and a `max` of 0 is refused. -/
theorem normalizeRateLimit_spec_witness :
    normalizeRateLimit (some 500) (some 120) = (500, 120, none) ∧
    normalizeRateLimit none none = (100, 60, none) ∧
    normalizeRateLimit (some 0) (some 120) =
      (0, 0, some "rate_limit.max_requests must be between 1 and 10000") ∧
    normalizeRateLimit (some 10) (some 0) =
      (0, 0, some "rate_limit.window_seconds must be between 1 and 86400") :=
  ⟨((normalizeRateLimit_spec (some 500) (some 120)).2.2.2 (by decide)).1,
   ((normalizeRateLimit_spec none none).2.2.2 (by decide)).1,
   (normalizeRateLimit_spec (some 0) (some 120)).2.1 ⟨0, rfl, by decide⟩,
   (normalizeRateLimit_spec (some 10) (some 0)).2.2.1 (by simp) ⟨0, rfl, by decide⟩⟩

end service

namespace stellar

/-! ## The account reader -/

theorem int64_of_fits {x : Int} (h : fitsInt64 x) : int64 x = x := by
  unfold fitsInt64 at h
  unfold int64
  omega

theorem int64_fits (x : Int) : fitsInt64 (int64 x) := by
  unfold fitsInt64 int64
  omega

theorem ParseInt64_fits {v : String} {i : Int} (h : amount.ParseInt64 v = .ok i) :
    fitsInt64 i := by
  unfold amount.ParseInt64 at h
  simp only at h
  split at h
  · cases h
  · split_ifs at h <;> cases h <;> (unfold fitsInt64; omega)

theorem nativeBalanceStroops_first (pre post : List horizonclient.BalanceLine)
    (nb : horizonclient.BalanceLine) (b : Int) (hpre : ∀ x ∈ pre, x.AssetType ≠ "native")
    (hnb : nb.AssetType = "native") (hb : amount.ParseInt64 nb.Balance = .ok b) :
    nativeBalanceStroops (pre ++ nb :: post) = .ok b := by
  induction pre with
  | nil => simp [nativeBalanceStroops, hnb, hb]
  | cons x pre ih =>
    have hx : x.AssetType ≠ "native" := hpre x (List.mem_cons_self _ _)
    simp only [List.cons_append, nativeBalanceStroops, hx, if_false]
    exact ih (fun y hy => hpre y (List.mem_cons_of_mem _ hy))

theorem minBalance_exact {account : horizonclient.Account} (h : account.Counts32) :
    minBalance account =
      (2 + account.SubentryCount + account.NumSponsoring - account.NumSponsored) * 5000000 := by
  unfold horizonclient.Account.Counts32 at h
  unfold minBalance BaseReserveStroops
  apply int64_of_fits
  unfold fitsInt64
  omega

/-- C21, as amended. For every account Horizon answers with, with a first
native balance line that parses to `b` base units and 32-bit counts `s`
(sub-entries), `p` (sponsoring) and `q` (sponsored), and with
`m = (2 + s + p - q) * 5,000,000`: whenever `b - m` is in the range of a signed
64-bit integer, `GetBalance` returns the strings that render `max(0, b - m)`
(available) and `m` (locked), each of which parses back to that value; the
available amount is not negative and, when `b ≥ m`, available + `m` = `b`. -/
theorem AccountService.GetBalance_arithmetic (a : AccountService) (accountID : String)
    (account : horizonclient.Account) (pre post : List horizonclient.BalanceLine)
    (nb : horizonclient.BalanceLine) (b m : Int)
    (hacc : a.horizonClient.AccountDetail accountID = .ok account)
    (hcounts : account.Counts32)
    (hbal : account.Balances = pre ++ nb :: post)
    (hpre : ∀ x ∈ pre, x.AssetType ≠ "native") (hnb : nb.AssetType = "native")
    (hb : amount.ParseInt64 nb.Balance = .ok b)
    (hm : m = (2 + account.SubentryCount + account.NumSponsoring - account.NumSponsored) *
      5000000)
    (hfit : fitsInt64 (b - m)) :
    a.GetBalance accountID =
      .ok (amount.StringFromInt64 (max 0 (b - m)), amount.StringFromInt64 m) ∧
    amount.ParseInt64 (amount.StringFromInt64 m) = .ok m ∧
    amount.ParseInt64 (amount.StringFromInt64 (max 0 (b - m))) = .ok (max 0 (b - m)) ∧
    0 ≤ max 0 (b - m) ∧ (m ≤ b → max 0 (b - m) + m = b) := by
  have hmin : minBalance account = m := by rw [hm]; exact minBalance_exact hcounts
  have hmfit : fitsInt64 m := by rw [← hmin]; unfold minBalance; exact int64_fits _
  have hav : (if int64 (b - m) < 0 then 0 else int64 (b - m)) = max 0 (b - m) := by
    rw [int64_of_fits hfit]
    split_ifs with h
    · exact (max_eq_left (by omega)).symm
    · exact (max_eq_right (by omega)).symm
  have hmaxfit : fitsInt64 (max 0 (b - m)) := by
    unfold fitsInt64 at hfit ⊢
    rcases le_total 0 (b - m) with h | h
    · rw [max_eq_right h]; omega
    · rw [max_eq_left h]; omega
  refine ⟨?_, amount.ParseInt64_StringFromInt64 m hmfit.1 hmfit.2,
    amount.ParseInt64_StringFromInt64 _ hmaxfit.1 hmaxfit.2, le_max_left _ _, fun h => ?_⟩
  · simp only [AccountService.GetBalance, hacc, hbal,
      nativeBalanceStroops_first pre post nb b hpre hnb hb, hmin, hav]
  · rw [max_eq_right (by omega)]
    omega

/-- Witness of C21 as amended: a balance of 100 native units with 3
sub-entries, 1 sponsoring and 2 sponsored reserves leaves 98 available and 2
locked. -/
theorem AccountService.GetBalance_arithmetic_witness :
    AccountService.GetBalance ⟨horizonWith "100.0000000" 3 1 2⟩ "SPONSOR" =
      .ok ("98.0000000", "2.0000000") ∧
    amount.ParseInt64 "2.0000000" = .ok 20000000 ∧
    amount.ParseInt64 "98.0000000" = .ok 980000000 :=
  have h := AccountService.GetBalance_arithmetic ⟨horizonWith "100.0000000" 3 1 2⟩ "SPONSOR"
    { AccountID := "SPONSOR", Sequence := 1, SubentryCount := 3, NumSponsoring := 1,
      NumSponsored := 2,
      Balances := [{ Balance := "12.5000000", AssetType := "credit_alphanum4" },
                   { Balance := "100.0000000", AssetType := "native" }] }
    [{ Balance := "12.5000000", AssetType := "credit_alphanum4" }] []
    { Balance := "100.0000000", AssetType := "native" } 1000000000 20000000
    rfl (by unfold horizonclient.Account.Counts32; decide) rfl (by decide) rfl rfl (by decide)
    (by decide)
  ⟨h.1, h.2.1, h.2.2.1⟩

/-- Counterexample to C21 as stated: an account whose native balance is the
largest 64-bit count of base units, `b = 9223372036854775807`, with no
sub-entries, nothing sponsoring and 3 sponsored reserves has
`min_balance = -5,000,000`; `b - min_balance` wraps around to a negative
number, and the available string returned denotes 0, not
`max(0, b - min_balance) = 9223372036859775807`. -/
theorem AccountService.GetBalance_arithmetic_counterexample :
    amount.ParseInt64 "922337203685.4775807" = .ok 9223372036854775807 ∧
    AccountService.GetBalance ⟨horizonWith "922337203685.4775807" 0 0 3⟩ "SPONSOR" =
      .ok ("0.0000000", "-0.5000000") ∧
    amount.ParseInt64 "-0.5000000" = .ok ((2 + 0 + 0 - 3) * 5000000) ∧
    amount.ParseInt64 "0.0000000" = .ok 0 ∧
    (0 : Int) ≠ max 0 (9223372036854775807 - (2 + 0 + 0 - 3) * 5000000) :=
  ⟨rfl, rfl, rfl, rfl, by decide⟩

end stellar

namespace service

/-! ## The sign pipeline -/

theorem logRows_logIfError (err : Option String) (msg : String) :
    logRows (logIfError err msg) = [] := by
  cases err <;> rfl

theorem signerSign_not_mem_logIfError (err : Option String) (msg x : String) :
    Call.SignerSign x ∉ logIfError err msg := by
  cases err <;> simp [logIfError]

/-- What `Sign` does once the verifier has accepted the transaction, the
balance query has answered and the available amount has parsed. -/
theorem SigningService.Sign_valid {s : SigningService} {sdk : txnbuild.Toolkit}
    {apiKey : model.APIKey} {transactionXDR : String} {r : stellar.VerifyResult}
    {available locked : String} {a : Int}
    (hv : stellar.Verify sdk.toSDK transactionXDR apiKey = some r) (hvalid : r.Valid = true)
    (hbal : s.accounts.GetBalance apiKey.SponsorAccount = .ok (available, locked))
    (ha : amount.ParseInt64 available = .ok a) :
    s.Sign sdk apiKey transactionXDR =
      if a < stellar.int64 (r.ReservesLocked * stellar.BaseReserveStroops) then
        some (.error (NewBadRequest "insufficient_balance"
            ("Sponsor account does not have enough available balance to cover the " ++
              "reserves required by this transaction")),
          [.GetBalance apiKey.SponsorAccount])
      else
        match s.signer.Sign sdk transactionXDR with
        | .error _ =>
          some (.error (NewInternal "signing_failed" "Failed to sign transaction"),
            [.GetBalance apiKey.SponsorAccount, .SignerSign transactionXDR,
             .LogError "failed to sign transaction"])
        | .ok (signedXDR, txHash) =>
          some (.ok { SignedXDR := signedXDR, TxHash := txHash,
                      SponsorAccount := apiKey.SponsorAccount, SponsorBalance := available },
            [.GetBalance apiKey.SponsorAccount, .SignerSign transactionXDR,
             .CreateTransactionLog
               { APIKeyID := apiKey.ID, TransactionHash := txHash, TransactionXDR := signedXDR,
                 Operations := r.Operations, SourceAccount := r.SourceAccount,
                 Status := .TxStatusSigned, ReservesLocked := some r.ReservesLocked }] ++
              logIfError (s.store.CreateTransactionLog
                { APIKeyID := apiKey.ID, TransactionHash := txHash, TransactionXDR := signedXDR,
                  Operations := r.Operations, SourceAccount := r.SourceAccount,
                  Status := .TxStatusSigned, ReservesLocked := some r.ReservesLocked })
                "failed to log signed transaction") := by
  simp only [SigningService.Sign, hv, hvalid, not_true_eq_false, if_false, hbal, ha]

/-- What `Sign` does when the verifier rejects the transaction. -/
theorem SigningService.Sign_rejected {s : SigningService} {sdk : txnbuild.Toolkit}
    {apiKey : model.APIKey} {transactionXDR : String} {r : stellar.VerifyResult}
    (hv : stellar.Verify sdk.toSDK transactionXDR apiKey = some r) (hinvalid : r.Valid = false) :
    s.Sign sdk apiKey transactionXDR =
      some (.error (NewBadRequest r.ErrorCode r.ErrorMessage),
        .CreateTransactionLog
          { APIKeyID := apiKey.ID, TransactionXDR := transactionXDR,
            Operations := r.Operations, SourceAccount := r.SourceAccount,
            Status := .TxStatusRejected, RejectionReason := r.ErrorMessage } ::
          logIfError (s.store.CreateTransactionLog
            { APIKeyID := apiKey.ID, TransactionXDR := transactionXDR,
              Operations := r.Operations, SourceAccount := r.SourceAccount,
              Status := .TxStatusRejected, RejectionReason := r.ErrorMessage })
            "failed to log rejected transaction") := by
  simp only [SigningService.Sign, hv, hinvalid, Bool.false_eq_true, not_false_eq_true, if_true]

/-- C22. Balance gate of `SigningService.Sign`: for every request whose
verification is valid with `reserves_locked = n`, `n * 5,000,000` inside the
64-bit range, and whose balance query succeeds with an available amount that
parses to `a` base units, `Sign` fails with the bad-request code `insufficient_balance` without
calling the signer when `a < n * 5,000,000`, and calls the signer when
`a ≥ n * 5,000,000`, returning the signed result if the signer succeeds and
`signing_failed` if it fails. -/
theorem SigningService.Sign_balance_gate (s : SigningService) (sdk : txnbuild.Toolkit)
    (apiKey : model.APIKey) (transactionXDR : String) (r : stellar.VerifyResult)
    (available locked : String) (a : Int)
    (hv : stellar.Verify sdk.toSDK transactionXDR apiKey = some r) (hvalid : r.Valid = true)
    (hbal : s.accounts.GetBalance apiKey.SponsorAccount = .ok (available, locked))
    (ha : amount.ParseInt64 available = .ok a)
    (hn : stellar.fitsInt64 (r.ReservesLocked * 5000000)) :
    (a < r.ReservesLocked * 5000000 →
      ∃ msg trace, s.Sign sdk apiKey transactionXDR =
          some (.error { Kind := .ErrBadRequest, Code := "insufficient_balance",
                         Message := msg }, trace) ∧
        ∀ x, Call.SignerSign x ∉ trace) ∧
    (r.ReservesLocked * 5000000 ≤ a →
      ∃ res trace, s.Sign sdk apiKey transactionXDR = some (res, trace) ∧
        Call.SignerSign transactionXDR ∈ trace ∧
        (∀ err, s.signer.Sign sdk transactionXDR = .error err →
          res = .error { Kind := .ErrInternal, Code := "signing_failed",
                         Message := "Failed to sign transaction" }) ∧
        (∀ signedXDR txHash, s.signer.Sign sdk transactionXDR = .ok (signedXDR, txHash) →
          res = .ok { SignedXDR := signedXDR, TxHash := txHash,
                      SponsorAccount := apiKey.SponsorAccount,
                      SponsorBalance := available })) := by
  have hreq : stellar.int64 (r.ReservesLocked * stellar.BaseReserveStroops) =
      r.ReservesLocked * 5000000 := stellar.int64_of_fits hn
  rw [SigningService.Sign_valid hv hvalid hbal ha, hreq]
  constructor
  · intro hlt
    rw [if_pos hlt]
    exact ⟨_, _, rfl, by simp⟩
  · intro hge
    rw [if_neg (by omega)]
    cases hs : s.signer.Sign sdk transactionXDR with
    | error err =>
      refine ⟨_, _, rfl, by simp, fun _ _ => rfl, fun _ _ h => ?_⟩
      cases h
    | ok p =>
      obtain ⟨signedXDR, txHash⟩ := p
      refine ⟨_, _, rfl, by simp, fun _ h => ?_, fun x y h => ?_⟩
      · cases h
      · cases h
        rfl

/-- Witness of C22: with 2 reserves to lock and 0.9 native units available
(9,000,000 base units) the request is refused and the signer is not called;
with 1 reserve to lock and 10 native units available it is signed. -/
theorem SigningService.Sign_balance_gate_witness :
    (∃ msg trace, (signingOf false "1.9000000").Sign (toolkitOf txCreateAccount)
        (stellar.keyOf ["CREATE_ACCOUNT"] []) "envelope" =
          some (.error { Kind := .ErrBadRequest, Code := "insufficient_balance",
                         Message := msg }, trace) ∧
        ∀ x, Call.SignerSign x ∉ trace) ∧
    (∃ res trace, (signingOf false "11.0000000").Sign (toolkitOf stellar.txSponsoredData)
        (stellar.keyOf ["MANAGE_DATA"] []) "envelope" = some (res, trace) ∧
      Call.SignerSign "envelope" ∈ trace ∧
      res = .ok { SignedXDR := "envelope", TxHash := "hash", SponsorAccount := "SPONSOR",
                  SponsorBalance := "10.0000000" }) :=
  ⟨(SigningService.Sign_balance_gate (signingOf false "1.9000000")
      (toolkitOf txCreateAccount) (stellar.keyOf ["CREATE_ACCOUNT"] []) "envelope"
      { Valid := true, Operations := ["CREATE_ACCOUNT"], SourceAccount := "ALICE",
        ReservesLocked := 2 }
      "0.9000000" "1.0000000" 9000000 rfl rfl rfl rfl (by decide)).1 (by decide),
   have h := (SigningService.Sign_balance_gate (signingOf false "11.0000000")
      (toolkitOf stellar.txSponsoredData) (stellar.keyOf ["MANAGE_DATA"] []) "envelope"
      { Valid := true, Operations := ["MANAGE_DATA"], SourceAccount := "ALICE",
        ReservesLocked := 1 }
      "10.0000000" "1.0000000" 100000000 rfl rfl rfl rfl (by decide)).2 (by decide)
   match h with
   | ⟨res, trace, h1, h2, _, h4⟩ => ⟨res, trace, h1, h2, h4 "envelope" "hash" rfl⟩⟩

/-- C23. Audit writes are best-effort in `SigningService.Sign`: for every key,
envelope, balance-query outcome and signer outcome, what `Sign` returns to its
caller (the result, or the kind, code and message of the error) is the same
whatever `CreateTransactionLog` answers: two services that differ only in
their store return the same value. -/
theorem SigningService.Sign_audit_best_effort (s : SigningService)
    (st st' : store.TransactionLogStore) (sdk : txnbuild.Toolkit) (apiKey : model.APIKey)
    (transactionXDR : String) :
    (({ s with store := st }).Sign sdk apiKey transactionXDR).map Prod.fst =
      (({ s with store := st' }).Sign sdk apiKey transactionXDR).map Prod.fst := by
  cases hv : stellar.Verify sdk.toSDK transactionXDR apiKey with
  | none => simp only [SigningService.Sign, hv, Option.map_none']
  | some r =>
    by_cases hvalid : r.Valid = true
    · cases hbal : s.accounts.GetBalance apiKey.SponsorAccount with
      | error err => simp only [SigningService.Sign, hv, hvalid, not_true_eq_false, if_false,
          hbal, Option.map_some']
      | ok p =>
        obtain ⟨available, locked⟩ := p
        cases ha : amount.ParseInt64 available with
        | error err => simp only [SigningService.Sign, hv, hvalid, not_true_eq_false, if_false,
            hbal, ha, Option.map_some']
        | ok a =>
          rw [SigningService.Sign_valid hv hvalid (s := { s with store := st }) hbal ha,
            SigningService.Sign_valid hv hvalid (s := { s with store := st' }) hbal ha]
          split_ifs
          · rfl
          · cases hs : s.signer.Sign sdk transactionXDR with
            | error err => rfl
            | ok q => rfl
    · have hfalse : r.Valid = false := by simpa using hvalid
      rw [SigningService.Sign_rejected hv hfalse (s := { s with store := st }),
        SigningService.Sign_rejected hv hfalse (s := { s with store := st' })]
      rfl

/-- Witness of C23: the signed request of the balance-gate example returns the
same result with the store up and with the store down. -/
theorem SigningService.Sign_audit_best_effort_witness :
    ((signingOf true "11.0000000").Sign (toolkitOf stellar.txSponsoredData)
        (stellar.keyOf ["MANAGE_DATA"] []) "envelope").map Prod.fst =
      ((signingOf false "11.0000000").Sign (toolkitOf stellar.txSponsoredData)
        (stellar.keyOf ["MANAGE_DATA"] []) "envelope").map Prod.fst :=
  SigningService.Sign_audit_best_effort (signingOf false "11.0000000")
    (signingOf true "11.0000000").store (signingOf false "11.0000000").store
    (toolkitOf stellar.txSponsoredData) (stellar.keyOf ["MANAGE_DATA"] []) "envelope"

/-- C24, as amended. Every call of `SigningService.Sign` returns and attempts
to create at most one `TransactionLog` row: exactly one, with status rejected
and the verifier's reason, when the verifier rejects the request; exactly one,
with status signed, the hash and the reserves locked, when the request is
signed; and none when `Sign` fails with an error that is no bad request (the
balance query fails, the available amount does not parse, or the signer
fails). -/
theorem SigningService.Sign_log_rows (s : SigningService) (sdk : txnbuild.Toolkit)
    (apiKey : model.APIKey) (transactionXDR : String) :
    ∃ r res trace, stellar.Verify sdk.toSDK transactionXDR apiKey = some r ∧
      s.Sign sdk apiKey transactionXDR = some (res, trace) ∧
      (logRows trace).length ≤ 1 ∧
      (r.Valid = false →
        res = .error (NewBadRequest r.ErrorCode r.ErrorMessage) ∧
        ∃ row, logRows trace = [row] ∧ row.Status = .TxStatusRejected ∧
          row.RejectionReason = r.ErrorMessage) ∧
      (∀ v, res = .ok v →
        ∃ row, logRows trace = [row] ∧ row.Status = .TxStatusSigned ∧
          row.TransactionHash = v.TxHash ∧ row.ReservesLocked = some r.ReservesLocked) ∧
      (∀ e, res = .error e → e.Kind ≠ .ErrBadRequest → logRows trace = []) := by
  obtain ⟨r, hv, _⟩ := stellar.Verify_returns sdk.toSDK transactionXDR apiKey
  by_cases hvalid : r.Valid = true
  · have hnot : r.Valid = false → False := fun h => by rw [hvalid] at h; cases h
    cases hbal : s.accounts.GetBalance apiKey.SponsorAccount with
    | error err =>
      have hsign : s.Sign sdk apiKey transactionXDR =
          some (.error (NewUnavailable "balance_check_failed"
              "Unable to verify sponsor account balance"),
            [.GetBalance apiKey.SponsorAccount, .LogError "failed to get sponsor balance"]) := by
        simp only [SigningService.Sign, hv, hvalid, not_true_eq_false, if_false, hbal]
      refine ⟨r, _, _, hv, hsign, by simp [logRows], fun h => (hnot h).elim,
        fun v h => ?_, fun e _ _ => rfl⟩
      cases h
    | ok p =>
      obtain ⟨available, locked⟩ := p
      cases ha : amount.ParseInt64 available with
      | error err =>
        have hsign : s.Sign sdk apiKey transactionXDR =
            some (.error (NewInternal "balance_check_failed"
                "Unable to verify sponsor account balance"),
              [.GetBalance apiKey.SponsorAccount,
               .LogError "failed to parse available balance"]) := by
          simp only [SigningService.Sign, hv, hvalid, not_true_eq_false, if_false, hbal, ha]
        refine ⟨r, _, _, hv, hsign, by simp [logRows], fun h => (hnot h).elim,
          fun v h => ?_, fun e _ _ => rfl⟩
        cases h
      | ok a =>
        have hsign := SigningService.Sign_valid hv hvalid hbal ha
        by_cases hlt : a < stellar.int64 (r.ReservesLocked * stellar.BaseReserveStroops)
        · rw [if_pos hlt] at hsign
          refine ⟨r, _, _, hv, hsign, by simp [logRows], fun h => (hnot h).elim,
            fun v h => ?_, fun e _ _ => rfl⟩
          cases h
        · rw [if_neg hlt] at hsign
          cases hs : s.signer.Sign sdk transactionXDR with
          | error err =>
            rw [hs] at hsign
            refine ⟨r, _, _, hv, hsign, by simp [logRows], fun h => (hnot h).elim,
              fun v h => ?_, fun e _ _ => rfl⟩
            cases h
          | ok q =>
            obtain ⟨signedXDR, txHash⟩ := q
            rw [hs] at hsign
            have hrows : logRows ([Call.GetBalance apiKey.SponsorAccount,
                Call.SignerSign transactionXDR,
                Call.CreateTransactionLog
                  { APIKeyID := apiKey.ID, TransactionHash := txHash,
                    TransactionXDR := signedXDR, Operations := r.Operations,
                    SourceAccount := r.SourceAccount, Status := .TxStatusSigned,
                    ReservesLocked := some r.ReservesLocked }] ++
                logIfError (s.store.CreateTransactionLog
                  { APIKeyID := apiKey.ID, TransactionHash := txHash,
                    TransactionXDR := signedXDR, Operations := r.Operations,
                    SourceAccount := r.SourceAccount, Status := .TxStatusSigned,
                    ReservesLocked := some r.ReservesLocked })
                  "failed to log signed transaction") =
                [{ APIKeyID := apiKey.ID, TransactionHash := txHash,
                   TransactionXDR := signedXDR, Operations := r.Operations,
                   SourceAccount := r.SourceAccount, Status := .TxStatusSigned,
                   ReservesLocked := some r.ReservesLocked }] := by
              show logRows (Call.GetBalance _ :: Call.SignerSign _ ::
                Call.CreateTransactionLog _ :: logIfError _ _) = _
              simp only [logRows, logRows_logIfError]
            refine ⟨r, _, _, hv, hsign, by rw [hrows]; simp, fun h => (hnot h).elim,
              fun v h => ?_, fun e h _ => ?_⟩
            · cases h
              exact ⟨_, hrows, rfl, rfl, rfl⟩
            · cases h
  · have hfalse : r.Valid = false := by simpa using hvalid
    have hrows : logRows (Call.CreateTransactionLog
          { APIKeyID := apiKey.ID, TransactionXDR := transactionXDR,
            Operations := r.Operations, SourceAccount := r.SourceAccount,
            Status := .TxStatusRejected, RejectionReason := r.ErrorMessage } ::
          logIfError (s.store.CreateTransactionLog
            { APIKeyID := apiKey.ID, TransactionXDR := transactionXDR,
              Operations := r.Operations, SourceAccount := r.SourceAccount,
              Status := .TxStatusRejected, RejectionReason := r.ErrorMessage })
            "failed to log rejected transaction") =
        [{ APIKeyID := apiKey.ID, TransactionXDR := transactionXDR,
           Operations := r.Operations, SourceAccount := r.SourceAccount,
           Status := .TxStatusRejected, RejectionReason := r.ErrorMessage }] := by
      simp only [logRows, logRows_logIfError]
    refine ⟨r, _, _, hv, SigningService.Sign_rejected hv hfalse, by rw [hrows]; simp,
      fun _ => ⟨rfl, _, hrows, rfl, rfl⟩, fun v h => ?_, fun e h hk => ?_⟩
    · cases h
    · cases h
      exact absurd rfl hk

/-- Witness of C24 as amended: the signed request of the balance-gate example
tries to create one row, with status signed. -/
theorem SigningService.Sign_log_rows_witness :
    ∃ res trace row, (signingOf false "11.0000000").Sign (toolkitOf stellar.txSponsoredData)
        (stellar.keyOf ["MANAGE_DATA"] []) "envelope" = some (res, trace) ∧
      logRows trace = [row] ∧ row.Status = .TxStatusSigned := by
  obtain ⟨_, res, trace, _, h2, _, _, h5, _⟩ :=
    SigningService.Sign_log_rows (signingOf false "11.0000000")
      (toolkitOf stellar.txSponsoredData) (stellar.keyOf ["MANAGE_DATA"] []) "envelope"
  have h : (signingOf false "11.0000000").Sign (toolkitOf stellar.txSponsoredData)
      (stellar.keyOf ["MANAGE_DATA"] []) "envelope" =
      some (.ok ⟨"envelope", "hash", "SPONSOR", "10.0000000"⟩,
        [.GetBalance "SPONSOR", .SignerSign "envelope",
         .CreateTransactionLog
           { APIKeyID := "key-1", TransactionHash := "hash", TransactionXDR := "envelope",
             Operations := ["MANAGE_DATA"], SourceAccount := "ALICE",
             Status := .TxStatusSigned, ReservesLocked := some 1 }]) := rfl
  rw [h] at h2
  cases h2
  obtain ⟨row, hrow, hst, _, _⟩ := h5 _ rfl
  exact ⟨_, _, row, h, hrow, hst⟩

/-- Counterexample to C24 as stated: with Horizon out of reach, a request the
verifier accepts fails with `balance_check_failed`, and the call tries to
create no `TransactionLog` row: its only calls outside are the balance query
and a log line. -/
theorem SigningService.Sign_log_rows_counterexample :
    signingOffline.Sign (toolkitOf stellar.txSponsoredData)
        (stellar.keyOf ["MANAGE_DATA"] []) "envelope" =
      some (.error { Kind := .ErrUnavailable, Code := "balance_check_failed",
                     Message := "Unable to verify sponsor account balance" },
            [.GetBalance "SPONSOR", .LogError "failed to get sponsor balance"]) ∧
    logRows [.GetBalance "SPONSOR", .LogError "failed to get sponsor balance"] = [] :=
  ⟨rfl, rfl⟩

end service

namespace store

/-! ## The API-key table -/

theorem Postgres.put_api_keys (p : Postgres) (id : String) (key : model.APIKey) (k : String) :
    (p.put id key).api_keys k = if k = id then some key else p.api_keys k := rfl

theorem Postgres.put_now (p : Postgres) (id : String) (key : model.APIKey) :
    (p.put id key).now = p.now := rfl

theorem Postgres.put_poolError (p : Postgres) (id : String) (key : model.APIKey) :
    (p.put id key).poolError = p.poolError := rfl

theorem Postgres.GetAPIKeyByID_ok {p : Postgres} {id : String} {key : model.APIKey}
    (h : p.GetAPIKeyByID id = .ok key) :
    p.poolError .SelectAPIKey = none ∧ p.api_keys id = some key := by
  unfold Postgres.GetAPIKeyByID at h
  split at h
  · cases h
  · rename_i hpool
    split at h
    · cases h
    · rename_i k hk
      cases h
      exact ⟨hpool, hk⟩

/-- A status update either fails and leaves the store as it was, or rewrites
the status and the update time of the row addressed. -/
theorem Postgres.UpdateAPIKeyStatus_cases (p : Postgres) (id : String)
    (status : model.APIKeyStatus) :
    ((∃ err, p.UpdateAPIKeyStatus id status = (some err, p)) ∧
      (p.poolError .UpdateAPIKeyStatus ≠ none ∨ p.api_keys id = none)) ∨
    (∃ key, p.api_keys id = some key ∧ p.poolError .UpdateAPIKeyStatus = none ∧
      p.UpdateAPIKeyStatus id status =
        (none, p.put id { key with Status := status, UpdatedAt := p.now })) := by
  unfold Postgres.UpdateAPIKeyStatus
  cases hpool : p.poolError .UpdateAPIKeyStatus with
  | some err => exact Or.inl ⟨⟨_, rfl⟩, Or.inl (by simp)⟩
  | none =>
    cases hkey : p.api_keys id with
    | none => exact Or.inl ⟨⟨_, rfl⟩, Or.inr rfl⟩
    | some key => exact Or.inr ⟨key, rfl, rfl, rfl⟩

/-- Setting the sponsor account either fails and leaves the store as it was,
or rewrites the sponsor account and the update time of the row addressed. -/
theorem Postgres.SetSponsorAccount_cases (p : Postgres) (id sponsorAccount : String) :
    ((∃ err, p.SetSponsorAccount id sponsorAccount = (some err, p)) ∧
      (p.poolError .SetSponsorAccount ≠ none ∨ p.api_keys id = none)) ∨
    (∃ key, p.api_keys id = some key ∧ p.poolError .SetSponsorAccount = none ∧
      p.SetSponsorAccount id sponsorAccount =
        (none, p.put id { key with SponsorAccount := sponsorAccount, UpdatedAt := p.now })) := by
  unfold Postgres.SetSponsorAccount
  cases hpool : p.poolError .SetSponsorAccount with
  | some err => exact Or.inl ⟨⟨_, rfl⟩, Or.inl (by simp)⟩
  | none =>
    cases hkey : p.api_keys id with
    | none => exact Or.inl ⟨⟨_, rfl⟩, Or.inr rfl⟩
    | some key => exact Or.inr ⟨key, rfl, rfl, rfl⟩

theorem Postgres.RegenerateAPIKey_cases (p : Postgres) (id keyHash keyPrefix : String) :
    (∃ err, p.RegenerateAPIKey id keyHash keyPrefix = (some err, p)) ∨
    (∃ key, p.api_keys id = some key ∧
      p.RegenerateAPIKey id keyHash keyPrefix =
        (none, p.put id { key with KeyHash := keyHash, KeyPrefix := keyPrefix,
                                   UpdatedAt := p.now })) := by
  unfold Postgres.RegenerateAPIKey
  cases hpool : p.poolError .RegenerateAPIKey with
  | some err => exact Or.inl ⟨_, rfl⟩
  | none =>
    cases hkey : p.api_keys id with
    | none => exact Or.inl ⟨_, rfl⟩
    | some key => exact Or.inr ⟨key, rfl, rfl⟩

theorem Postgres.UpdateAPIKey_cases (p : Postgres) (id : String) (updates : APIKeyUpdates) :
    (∃ err, p.UpdateAPIKey id updates = (err, p)) ∨
    (∃ key, p.api_keys id = some key ∧
      p.UpdateAPIKey id updates = (none, p.put id (updates.apply key p.now))) := by
  unfold Postgres.UpdateAPIKey
  split_ifs
  · exact Or.inl ⟨_, rfl⟩
  · cases hpool : p.poolError .UpdateAPIKey with
    | some err => exact Or.inl ⟨_, rfl⟩
    | none =>
      cases hkey : p.api_keys id with
      | none => exact Or.inl ⟨_, rfl⟩
      | some key => exact Or.inr ⟨key, rfl, rfl⟩

theorem Postgres.CreateAPIKey_cases (p : Postgres) (key : model.APIKey) :
    (∃ err, p.CreateAPIKey key = (some err, key, p)) ∨
    (p.api_keys p.newID = none ∧
      p.CreateAPIKey key =
        (none, { key with ID := p.newID, CreatedAt := p.now, UpdatedAt := p.now },
          p.put p.newID { key with ID := p.newID, CreatedAt := p.now, UpdatedAt := p.now })) := by
  unfold Postgres.CreateAPIKey
  cases hpool : p.poolError .InsertAPIKey with
  | some err => exact Or.inl ⟨_, rfl⟩
  | none =>
    cases hkey : p.api_keys p.newID with
    | none => exact Or.inr ⟨rfl, rfl⟩
    | some k => exact Or.inl ⟨_, rfl⟩

end store

namespace service

/-! ## The lifecycle of an API key -/

theorem StatusMove.same (a : model.APIKeyStatus) : StatusMove a a := Or.inl rfl

theorem TableMove.stay (t : String → Option model.APIKey) : TableMove t t :=
  fun _ key h => ⟨key, h, StatusMove.same _⟩

/-- Rewriting one row of the table into a row whose status the old status
moves to is a move of the table. -/
theorem TableMove.put (db : store.Postgres) (id : String) (key key' : model.APIKey)
    (hkey : db.api_keys id = some key) (hmove : StatusMove key.Status key'.Status) :
    TableMove db.api_keys (db.put id key').api_keys := by
  intro k old hold
  rw [store.Postgres.put_api_keys]
  by_cases hk : k = id
  · rw [if_pos hk]
    rw [hk, hkey] at hold
    cases hold
    exact ⟨key', rfl, hmove⟩
  · rw [if_neg hk]
    exact ⟨old, hold, StatusMove.same _⟩

/-- Adding a row under an id that has none is a move of the table. -/
theorem TableMove.insert (db : store.Postgres) (id : String) (key' : model.APIKey)
    (hnone : db.api_keys id = none) : TableMove db.api_keys (db.put id key').api_keys := by
  intro k old hold
  rw [store.Postgres.put_api_keys]
  by_cases hk : k = id
  · rw [hk, hnone] at hold
    cases hold
  · rw [if_neg hk]
    exact ⟨old, hold, StatusMove.same _⟩

theorem TableMove.trans {t1 t2 t3 : String → Option model.APIKey} (h12 : TableMove t1 t2)
    (h23 : TableMove t2 t3) : TableMove t1 t3 := by
  intro id key hkey
  obtain ⟨k2, hk2, hm2⟩ := h12 id key hkey
  obtain ⟨k3, hk3, hm3⟩ := h23 id k2 hk2
  refine ⟨k3, hk3, ?_⟩
  unfold StatusMove at hm2 hm3 ⊢
  rcases hm2 with h | ⟨ha, hb⟩ | ⟨ha, hb⟩ | ⟨ha, hb⟩ <;>
    rcases hm3 with h' | ⟨ha', hb'⟩ | ⟨ha', hb'⟩ | ⟨ha', hb'⟩ <;> simp_all

theorem APIKeyService.Create_move (s : APIKeyService) (rt : Runtime) (db : store.Postgres)
    (input : CreateAPIKeyInput) :
    TableMove db.api_keys (s.Create rt db input).2.1.api_keys := by
  unfold APIKeyService.Create
  split
  · exact TableMove.stay _
  · split
    · exact TableMove.stay _
    · simp only
      split
      · rename_i heq
        rcases store.Postgres.CreateAPIKey_cases db _ with ⟨err, h⟩ | ⟨_, h⟩
        · rw [h] at heq
          cases heq
          exact TableMove.stay _
        · rw [h] at heq
          cases heq
      · rename_i heq
        rcases store.Postgres.CreateAPIKey_cases db _ with ⟨err, h⟩ | ⟨hnone, h⟩
        · rw [h] at heq
          cases heq
        · rw [h] at heq
          cases heq
          exact TableMove.insert db _ _ hnone

theorem APIKeyService.Update_move (s : APIKeyService) (rt : Runtime) (db : store.Postgres)
    (id : String) (updates : store.APIKeyUpdates) :
    TableMove db.api_keys (s.Update rt db id updates).2.1.api_keys := by
  have hstore : TableMove db.api_keys (db.UpdateAPIKey id updates).2.api_keys := by
    rcases store.Postgres.UpdateAPIKey_cases db id updates with ⟨err, h⟩ | ⟨key, hkey, h⟩
    · rw [h]
      exact TableMove.stay _
    · rw [h]
      exact TableMove.put db id key _ hkey (StatusMove.same _)
  unfold APIKeyService.Update
  split
  · exact TableMove.stay _
  · split
    · rename_i heq
      rw [heq] at hstore
      exact hstore
    · rename_i heq
      rw [heq] at hstore
      split <;> exact hstore

theorem APIKeyService.Revoke_move (s : APIKeyService) (db : store.Postgres) (id : String) :
    TableMove db.api_keys (s.Revoke db id).2.1.api_keys := by
  unfold APIKeyService.Revoke
  split
  · exact TableMove.stay _
  · rename_i apiKey hget
    obtain ⟨_, hkey⟩ := store.Postgres.GetAPIKeyByID_ok hget
    split_ifs with hrev
    · exact TableMove.stay _
    · have hstore : TableMove db.api_keys (db.UpdateAPIKeyStatus id .StatusRevoked).2.api_keys := by
        rcases store.Postgres.UpdateAPIKeyStatus_cases db id .StatusRevoked with
          ⟨⟨err, h⟩, _⟩ | ⟨key, hk, _, h⟩
        · rw [h]
          exact TableMove.stay _
        · rw [h]
          refine TableMove.put db id key _ hk ?_
          rw [hkey] at hk
          cases hk
          unfold StatusMove
          cases hst : apiKey.Status <;> simp_all
      split
      · rename_i heq
        rw [heq] at hstore
        exact hstore
      · rename_i heq
        rw [heq] at hstore
        exact hstore

theorem APIKeyService.Regenerate_move (s : APIKeyService) (rt : Runtime) (db : store.Postgres)
    (id : String) : TableMove db.api_keys (s.Regenerate rt db id).2.1.api_keys := by
  unfold APIKeyService.Regenerate
  split
  · exact TableMove.stay _
  · split_ifs
    · exact TableMove.stay _
    · split
      · exact TableMove.stay _
      · rename_i rawKey _
        have hstore : TableMove db.api_keys
            (db.RegenerateAPIKey id (rt.SHA256Hex rawKey)
              (rawKey.take 16 ++ "...")).2.api_keys := by
          rcases store.Postgres.RegenerateAPIKey_cases db id (rt.SHA256Hex rawKey)
            (rawKey.take 16 ++ "...") with ⟨err, h⟩ | ⟨key, hk, h⟩
          · rw [h]
            exact TableMove.stay _
          · rw [h]
            exact TableMove.put db id key _ hk (StatusMove.same _)
        split
        · rename_i heq
          rw [heq] at hstore
          exact hstore
        · rename_i heq
          rw [heq] at hstore
          exact hstore

theorem FundingService.SubmitFund_store (s : FundingService) (sdk : txnbuild.Toolkit)
    (db : store.Postgres) (id signedXDR : String) :
    (s.SubmitFund sdk db id signedXDR).2.1 = db := by
  unfold FundingService.SubmitFund
  split
  · rfl
  · split_ifs
    · rfl
    · split
      · rfl
      · split
        · rfl
        · split <;> rfl

theorem FundingService.Sweep_store (s : FundingService) (sdk : txnbuild.Toolkit)
    (db : store.Postgres) (id : String) : (s.Sweep sdk db id).2.1 = db := by
  unfold FundingService.Sweep
  split
  · rfl
  · split_ifs
    · rfl
    · split
      · rfl
      · split_ifs
        · rfl
        · split <;> rfl

end service

namespace service

/-- The three ways a call of `SubmitActivate` can end: with an error and the
store as it was; with success and both writes done; with the sponsor account
written and the status update failed. -/
theorem FundingService.SubmitActivate_cases (s : FundingService) (sdk : txnbuild.Toolkit)
    (db : store.Postgres) (id signedXDR : String) :
    (∃ e trace, s.SubmitActivate sdk db id signedXDR = (.error e, db, trace)) ∨
    (∃ key sponsorAccount hash trace,
      db.api_keys id = some key ∧ key.Status = .StatusPendingFunding ∧
      validateActivateTransaction sdk signedXDR s.networkPassphrase s.masterPublicKey =
        .ok sponsorAccount ∧
      db.poolError .SetSponsorAccount = none ∧ db.poolError .UpdateAPIKeyStatus = none ∧
      s.SubmitActivate sdk db id signedXDR =
        (.ok { ID := key.ID, Status := "active", SponsorAccount := sponsorAccount,
               TransactionHash := hash },
         (db.put id { key with SponsorAccount := sponsorAccount, UpdatedAt := db.now }).put id
           { key with SponsorAccount := sponsorAccount, Status := .StatusActive,
                      UpdatedAt := db.now },
         trace)) ∨
    (∃ key sponsorAccount trace,
      db.api_keys id = some key ∧ key.Status = .StatusPendingFunding ∧
      validateActivateTransaction sdk signedXDR s.networkPassphrase s.masterPublicKey =
        .ok sponsorAccount ∧
      db.poolError .SetSponsorAccount = none ∧ db.poolError .UpdateAPIKeyStatus ≠ none ∧
      s.SubmitActivate sdk db id signedXDR =
        (.error (NewInternal "internal_error" "Failed to activate API key"),
         db.put id { key with SponsorAccount := sponsorAccount, UpdatedAt := db.now },
         trace)) := by
  cases hget : db.GetAPIKeyByID id with
  | error err =>
    exact Or.inl ⟨_, _, by simp only [FundingService.SubmitActivate, hget]; rfl⟩
  | ok apiKey =>
    obtain ⟨_, hkey⟩ := store.Postgres.GetAPIKeyByID_ok hget
    by_cases hst : apiKey.Status = .StatusPendingFunding
    · have hnn : ¬ apiKey.Status ≠ .StatusPendingFunding := not_not.mpr hst
      cases hval : validateActivateTransaction sdk signedXDR s.networkPassphrase
          s.masterPublicKey with
      | error err =>
        exact Or.inl ⟨_, _, by
          simp only [FundingService.SubmitActivate, hget, if_neg hnn, hval]; rfl⟩
      | ok sponsorAccount =>
        cases hsub : s.horizonClient.SubmitTransactionXDR signedXDR with
        | error err =>
          exact Or.inl ⟨_, _, by
            simp only [FundingService.SubmitActivate, hget, if_neg hnn, hval, hsub]; rfl⟩
        | ok hash =>
          rcases store.Postgres.SetSponsorAccount_cases db id sponsorAccount with
            ⟨⟨err, hset⟩, _⟩ | ⟨key, hk, hpool1, hset⟩
          · exact Or.inl ⟨_, _, by
              simp only [FundingService.SubmitActivate, hget, if_neg hnn, hval, hsub, hset]; rfl⟩
          · rw [hkey] at hk
            cases hk
            rcases store.Postgres.UpdateAPIKeyStatus_cases
                (db.put id { apiKey with SponsorAccount := sponsorAccount, UpdatedAt := db.now })
                id .StatusActive with ⟨⟨err, hupd⟩, hwhy⟩ | ⟨key2, hk2, hpool2, hupd⟩
            · refine Or.inr (Or.inr ⟨apiKey, sponsorAccount, _, hkey, hst, rfl, hpool1, ?_, by
                simp only [FundingService.SubmitActivate, hget, if_neg hnn, hval, hsub, hset,
                  hupd]; rfl⟩)
              rcases hwhy with h | h
              · exact h
              · rw [store.Postgres.put_api_keys, if_pos rfl] at h
                cases h
            · rw [store.Postgres.put_api_keys, if_pos rfl] at hk2
              cases hk2
              exact Or.inr (Or.inl ⟨apiKey, sponsorAccount, hash, _, hkey, hst, rfl, hpool1,
                hpool2, by
                  simp only [FundingService.SubmitActivate, hget, if_neg hnn, hval, hsub,
                    hset, hupd, store.Postgres.put_now]; rfl⟩)
    · exact Or.inl ⟨_, _, by
        simp only [FundingService.SubmitActivate, hget, if_pos (show apiKey.Status ≠ _ from hst)]
        rfl⟩

theorem FundingService.SubmitActivate_move (s : FundingService) (sdk : txnbuild.Toolkit)
    (db : store.Postgres) (id signedXDR : String) :
    TableMove db.api_keys (s.SubmitActivate sdk db id signedXDR).2.1.api_keys := by
  rcases FundingService.SubmitActivate_cases s sdk db id signedXDR with
    ⟨e, trace, h⟩ | ⟨key, acct, hash, trace, hkey, hst, _, _, _, h⟩ |
    ⟨key, acct, trace, hkey, hst, _, _, _, h⟩
  · rw [h]
    exact TableMove.stay _
  · rw [h]
    dsimp only
    exact TableMove.trans
      (TableMove.put db id key { key with SponsorAccount := acct, UpdatedAt := db.now } hkey
        (StatusMove.same _))
      (TableMove.put _ id { key with SponsorAccount := acct, UpdatedAt := db.now } _
        (by rw [store.Postgres.put_api_keys, if_pos rfl]) (Or.inr (Or.inl ⟨hst, rfl⟩)))
  · rw [h]
    exact TableMove.put db id key _ hkey (StatusMove.same _)

/-- Every step of the services moves the table by `TableMove`. -/
theorem TableStep.move {t t' : String → Option model.APIKey} (h : TableStep t t') :
    TableMove t t' := by
  cases h with
  | Create s rt db input => exact APIKeyService.Create_move s rt db input
  | Update s rt db id updates => exact APIKeyService.Update_move s rt db id updates
  | Revoke s db id => exact APIKeyService.Revoke_move s db id
  | Regenerate s rt db id => exact APIKeyService.Regenerate_move s rt db id
  | SubmitActivate s sdk db id signedXDR =>
    exact FundingService.SubmitActivate_move s sdk db id signedXDR
  | SubmitFund s sdk db id signedXDR =>
    rw [FundingService.SubmitFund_store]
    exact TableMove.stay _
  | Sweep s sdk db id =>
    rw [FundingService.Sweep_store]
    exact TableMove.stay _

/-- C26, as amended. API-key status is a state machine with the transitions
pending_funding → active, pending_funding → revoked and active → revoked only:
over the step relation formed by `APIKeyService.Create`, `Update`, `Revoke`,
`Regenerate` and `FundingService.SubmitActivate`, `SubmitFund`, `Sweep`, and
over every run of such steps, a key of the table stays in the table and its
status is unchanged or has made one of these three moves; no step or run takes
an active key back to pending_funding and none changes the status of a revoked
key. -/
theorem TableStep.status_machine (t t' : String → Option model.APIKey)
    (h : Relation.ReflTransGen TableStep t t') (id : String) (key : model.APIKey)
    (hkey : t id = some key) :
    ∃ key', t' id = some key' ∧
      (key'.Status = key.Status ∨
        (key.Status = .StatusPendingFunding ∧ key'.Status = .StatusActive) ∨
        (key.Status = .StatusPendingFunding ∧ key'.Status = .StatusRevoked) ∨
        (key.Status = .StatusActive ∧ key'.Status = .StatusRevoked)) ∧
      (key.Status = .StatusActive → key'.Status ≠ .StatusPendingFunding) ∧
      (key.Status = .StatusRevoked → key'.Status = .StatusRevoked) := by
  have hmove : TableMove t t' := by
    induction h with
    | refl => exact TableMove.stay _
    | tail _ hstep ih => exact TableMove.trans ih hstep.move
  obtain ⟨key', hkey', hm⟩ := hmove id key hkey
  refine ⟨key', hkey', hm, fun ha => ?_, fun hr => ?_⟩
  · unfold StatusMove at hm
    rcases hm with h | ⟨h1, _⟩ | ⟨h1, _⟩ | ⟨_, h2⟩ <;> simp_all
  · unfold StatusMove at hm
    rcases hm with h | ⟨h1, _⟩ | ⟨h1, _⟩ | ⟨_, h2⟩ <;> simp_all

/-- Witness of C26 as amended: revoking the active key `key-1` is a step; the
key stays in the table, and its status has moved from active to revoked or not
at all. -/
theorem TableStep.status_machine_witness :
    ∃ key', ((APIKeyService.mk "testnet").Revoke (storeOf .StatusActive "SPONSOR" false)
        "key-1").2.1.api_keys "key-1" = some key' ∧
      (key'.Status = .StatusActive ∨ key'.Status = .StatusRevoked) :=
  match TableStep.status_machine _ _
      (Relation.ReflTransGen.single
        (TableStep.Revoke (APIKeyService.mk "testnet") (storeOf .StatusActive "SPONSOR" false)
          "key-1"))
      "key-1"
      { stellar.keyOf ["MANAGE_DATA"] [] with Status := .StatusActive,
                                              SponsorAccount := "SPONSOR" } rfl with
  | ⟨key', h1, h2, _, _⟩ =>
    ⟨key', h1, by
      rcases h2 with h | ⟨h, _⟩ | ⟨h, _⟩ | ⟨_, h⟩
      · exact Or.inl h
      · cases h
      · cases h
      · exact Or.inr h⟩

/-- Counterexample to C26 as stated: revoking the key `key-1` while it is
pending funding is a step of `APIKeyService.Revoke` that succeeds and takes the
key's status from pending_funding to revoked, a change that is neither
pending_funding → active nor active → revoked. -/
theorem TableStep.status_machine_counterexample :
    TableStep (storeOf .StatusPendingFunding "" false).api_keys
      ((APIKeyService.mk "testnet").Revoke (storeOf .StatusPendingFunding "" false)
        "key-1").2.1.api_keys ∧
    ((APIKeyService.mk "testnet").Revoke (storeOf .StatusPendingFunding "" false) "key-1").1 =
      none ∧
    ((storeOf .StatusPendingFunding "" false).api_keys "key-1").map (fun k => k.Status) =
      some .StatusPendingFunding ∧
    (((APIKeyService.mk "testnet").Revoke (storeOf .StatusPendingFunding "" false)
        "key-1").2.1.api_keys "key-1").map (fun k => k.Status) = some .StatusRevoked :=
  ⟨TableStep.Revoke _ _ _, by decide, by decide, by decide⟩

end service

namespace service

/-- C27, as amended. `FundingService.SubmitActivate` leaves the state of the
API key in one of three conditions, whatever the outcome of validation, ledger
submission and the two store writes: unchanged, with an error returned; fully
activated (status active and `sponsor_account` the validated address), with
success returned; or, when `SetSponsorAccount` has succeeded and
`UpdateAPIKeyStatus` has failed, with `sponsor_account` set to the validated
address and the status still pending_funding, with `internal_error` returned.
No other key is touched, and whenever `SubmitActivate` returns an error while
the status update is not failing, the key is unchanged. -/
theorem FundingService.SubmitActivate_key_state (s : FundingService) (sdk : txnbuild.Toolkit)
    (db : store.Postgres) (id signedXDR : String) :
    (∀ k, k ≠ id → (s.SubmitActivate sdk db id signedXDR).2.1.api_keys k = db.api_keys k) ∧
    (((s.SubmitActivate sdk db id signedXDR).2.1.api_keys id = db.api_keys id ∧
        ∃ e, (s.SubmitActivate sdk db id signedXDR).1 = .error e) ∨
      (∃ key sponsorAccount, db.api_keys id = some key ∧
        key.Status = .StatusPendingFunding ∧
        validateActivateTransaction sdk signedXDR s.networkPassphrase s.masterPublicKey =
          .ok sponsorAccount ∧
        (∃ hash, (s.SubmitActivate sdk db id signedXDR).1 =
          .ok { ID := key.ID, Status := "active", SponsorAccount := sponsorAccount,
                TransactionHash := hash }) ∧
        (s.SubmitActivate sdk db id signedXDR).2.1.api_keys id =
          some { key with SponsorAccount := sponsorAccount, Status := .StatusActive,
                          UpdatedAt := db.now }) ∨
      (∃ key sponsorAccount, db.api_keys id = some key ∧
        key.Status = .StatusPendingFunding ∧
        validateActivateTransaction sdk signedXDR s.networkPassphrase s.masterPublicKey =
          .ok sponsorAccount ∧
        db.poolError .SetSponsorAccount = none ∧ db.poolError .UpdateAPIKeyStatus ≠ none ∧
        (s.SubmitActivate sdk db id signedXDR).1 =
          .error (NewInternal "internal_error" "Failed to activate API key") ∧
        (s.SubmitActivate sdk db id signedXDR).2.1.api_keys id =
          some { key with SponsorAccount := sponsorAccount, UpdatedAt := db.now })) ∧
    (db.poolError .UpdateAPIKeyStatus = none →
      ∀ e, (s.SubmitActivate sdk db id signedXDR).1 = .error e →
        (s.SubmitActivate sdk db id signedXDR).2.1.api_keys id = db.api_keys id) := by
  rcases FundingService.SubmitActivate_cases s sdk db id signedXDR with
    ⟨e, trace, h⟩ | ⟨key, acct, hash, trace, hkey, hst, hval, _, _, h⟩ |
    ⟨key, acct, trace, hkey, hst, hval, hp1, hp2, h⟩
  · rw [h]
    exact ⟨fun _ _ => rfl, Or.inl ⟨rfl, e, rfl⟩, fun _ _ _ => rfl⟩
  · rw [h]
    refine ⟨fun k hk => ?_, Or.inr (Or.inl ⟨key, acct, hkey, hst, hval, ⟨hash, rfl⟩, ?_⟩),
      fun _ e he => ?_⟩
    · simp only [store.Postgres.put_api_keys, if_neg hk]
    · simp only [store.Postgres.put_api_keys, if_pos]
    · cases he
  · rw [h]
    refine ⟨fun k hk => ?_, Or.inr (Or.inr ⟨key, acct, hkey, hst, hval, hp1, hp2, rfl, ?_⟩),
      fun hnone => absurd hnone hp2⟩
    · simp only [store.Postgres.put_api_keys, if_neg hk]
    · simp only [store.Postgres.put_api_keys, if_pos]

/-- Witness of C27 as amended: activating `key-1` touches no other key, and
with a store in which every statement runs the call does not fail and leaves
the key active with the sponsor account `SPONSOR`. -/
theorem FundingService.SubmitActivate_key_state_witness :
    (fundingOf.SubmitActivate (toolkitOf activateTx) (storeOf .StatusPendingFunding "" false)
        "key-1" "envelope").2.1.api_keys "key-2" =
      (storeOf .StatusPendingFunding "" false).api_keys "key-2" ∧
    ((fundingOf.SubmitActivate (toolkitOf activateTx) (storeOf .StatusPendingFunding "" false)
        "key-1" "envelope").2.1.api_keys "key-1").map (fun k => (k.SponsorAccount, k.Status)) =
      some ("SPONSOR", .StatusActive) :=
  ⟨(FundingService.SubmitActivate_key_state fundingOf (toolkitOf activateTx)
      (storeOf .StatusPendingFunding "" false) "key-1" "envelope").1 "key-2" (by decide),
   by decide⟩

/-- Counterexample to C27 as stated: the key `key-1` is pending funding with no
sponsor account, the envelope is valid and the ledger accepts it,
`SetSponsorAccount` succeeds and `UpdateAPIKeyStatus` fails. `SubmitActivate`
returns an error, and the key is left with the sponsor account `SPONSOR` and
the status pending_funding: neither unchanged nor fully activated. -/
theorem FundingService.SubmitActivate_key_state_counterexample :
    (fundingOf.SubmitActivate (toolkitOf activateTx) (storeOf .StatusPendingFunding "" true)
        "key-1" "envelope").1 =
      .error { Kind := .ErrInternal, Code := "internal_error",
               Message := "Failed to activate API key" } ∧
    ((storeOf .StatusPendingFunding "" true).api_keys "key-1").map
        (fun k => (k.SponsorAccount, k.Status)) = some ("", .StatusPendingFunding) ∧
    ((fundingOf.SubmitActivate (toolkitOf activateTx) (storeOf .StatusPendingFunding "" true)
        "key-1" "envelope").2.1.api_keys "key-1").map (fun k => (k.SponsorAccount, k.Status)) =
      some ("SPONSOR", .StatusPendingFunding) :=
  ⟨rfl, by decide, by decide⟩

/-- C25. Lifecycle guards of `FundingService`: for a key the store returns,
`BuildActivate` and `SubmitActivate` return the bad-request error
`invalid_status` unless its status is pending_funding, `BuildFund` (given an
amount that parses to a positive number of base units) and `SubmitFund` return
it unless the status is active, and `Sweep` returns it unless the status is
revoked. In every such refusal the store is handed back as it was and the only
call made is the read of the key: nothing is built, nothing is submitted to the
ledger and nothing is written. With the status it requires, no method returns
`invalid_status`. -/
theorem FundingService.status_guards (s : FundingService) (sdk : txnbuild.Toolkit)
    (rt : Runtime) (db : store.Postgres) (id : String) (apiKey : model.APIKey)
    (hget : db.GetAPIKeyByID id = .ok apiKey) :
    (apiKey.Status ≠ .StatusPendingFunding →
      s.BuildActivate sdk rt db id =
        (.error { Kind := .ErrBadRequest, Code := "invalid_status",
                  Message := "API key is not pending funding" }, db, [.GetAPIKeyByID id]) ∧
      ∀ signedXDR, s.SubmitActivate sdk db id signedXDR =
        (.error { Kind := .ErrBadRequest, Code := "invalid_status",
                  Message := "API key is not pending funding" }, db, [.GetAPIKeyByID id])) ∧
    (apiKey.Status ≠ .StatusActive →
      (∀ amountXLM fundStroops, amount.ParseInt64 amountXLM = .ok fundStroops →
        0 < fundStroops →
        s.BuildFund sdk db id amountXLM =
          (.error { Kind := .ErrBadRequest, Code := "invalid_status",
                    Message := "API key must be active to fund" }, db, [.GetAPIKeyByID id])) ∧
      ∀ signedXDR, s.SubmitFund sdk db id signedXDR =
        (.error { Kind := .ErrBadRequest, Code := "invalid_status",
                  Message := "API key must be active to fund" }, db, [.GetAPIKeyByID id])) ∧
    (apiKey.Status ≠ .StatusRevoked →
      s.Sweep sdk db id =
        (.error { Kind := .ErrBadRequest, Code := "invalid_status",
                  Message := "Can only sweep revoked API keys" }, db, [.GetAPIKeyByID id])) ∧
    (apiKey.Status = .StatusPendingFunding →
      (∀ e, (s.BuildActivate sdk rt db id).1 = .error e → e.Code ≠ "invalid_status") ∧
      ∀ signedXDR e, (s.SubmitActivate sdk db id signedXDR).1 = .error e →
        e.Code ≠ "invalid_status") ∧
    (apiKey.Status = .StatusActive →
      (∀ amountXLM e, (s.BuildFund sdk db id amountXLM).1 = .error e →
        e.Code ≠ "invalid_status") ∧
      ∀ signedXDR e, (s.SubmitFund sdk db id signedXDR).1 = .error e →
        e.Code ≠ "invalid_status") ∧
    (apiKey.Status = .StatusRevoked →
      ∀ e, (s.Sweep sdk db id).1 = .error e → e.Code ≠ "invalid_status") := by
  refine ⟨fun h => ⟨?_, fun signedXDR => ?_⟩, fun h => ⟨fun amountXLM v hv hpos => ?_,
    fun signedXDR => ?_⟩, fun h => ?_, fun hst => ?_, fun hst => ?_, fun hst => ?_⟩
  · simp only [FundingService.BuildActivate, hget, if_pos h]
    rfl
  · simp only [FundingService.SubmitActivate, hget, if_pos h]
    rfl
  · simp only [FundingService.BuildFund, hv, if_neg (not_le.mpr hpos), hget, if_pos h]
    rfl
  · simp only [FundingService.SubmitFund, hget, if_pos h]
    rfl
  · simp only [FundingService.Sweep, hget, if_pos h]
    rfl
  · have hnn : ¬ apiKey.Status ≠ .StatusPendingFunding := not_not.mpr hst
    constructor
    · intro e he
      simp only [FundingService.BuildActivate, hget, if_neg hnn] at he
      split at he
      · cases he; simp [NewInternal]
      · split at he
        · cases he; simp [NewInternal]
        · cases he
    · intro signedXDR e he
      simp only [FundingService.SubmitActivate, hget, if_neg hnn] at he
      split at he
      · cases he; simp [NewBadRequest]
      · split at he
        · cases he; simp [NewBadRequest]
        · split at he
          · cases he; simp [NewInternal]
          · split at he
            · cases he; simp [NewInternal]
            · cases he
  · have hnn : ¬ apiKey.Status ≠ .StatusActive := not_not.mpr hst
    constructor
    · intro amountXLM e he
      simp only [FundingService.BuildFund] at he
      split at he
      · cases he; simp [NewBadRequest]
      · split_ifs at he
        · cases he; simp [NewBadRequest]
        · simp only [hget, if_neg hnn] at he
          split at he
          · cases he; simp [NewInternal]
          · cases he
    · intro signedXDR e he
      simp only [FundingService.SubmitFund, hget, if_neg hnn] at he
      split at he
      · cases he; simp [NewBadRequest]
      · split at he
        · cases he; simp [NewBadRequest]
        · split at he <;> cases he
  · have hnn : ¬ apiKey.Status ≠ .StatusRevoked := not_not.mpr hst
    intro e he
    simp only [FundingService.Sweep, hget, if_neg hnn] at he
    split at he
    · cases he; simp [NewInternal]
    · split_ifs at he
      split at he
      · cases he; simp [NewInternal]
      · cases he

/-- Witness of C25: with the key `key-1` active, `BuildActivate` and `Sweep`
refuse with `invalid_status`, read the key and do nothing else. -/
theorem FundingService.status_guards_witness :
    fundingOf.BuildActivate (toolkitOf activateTx) runtimeOf
        (storeOf .StatusActive "SPONSOR" false) "key-1" =
      (.error { Kind := .ErrBadRequest, Code := "invalid_status",
                Message := "API key is not pending funding" },
        storeOf .StatusActive "SPONSOR" false, [.GetAPIKeyByID "key-1"]) ∧
    fundingOf.Sweep (toolkitOf activateTx) (storeOf .StatusActive "SPONSOR" false) "key-1" =
      (.error { Kind := .ErrBadRequest, Code := "invalid_status",
                Message := "Can only sweep revoked API keys" },
        storeOf .StatusActive "SPONSOR" false, [.GetAPIKeyByID "key-1"]) :=
  have h := FundingService.status_guards fundingOf (toolkitOf activateTx) runtimeOf
    (storeOf .StatusActive "SPONSOR" false) "key-1"
    { stellar.keyOf ["MANAGE_DATA"] [] with Status := .StatusActive,
                                            SponsorAccount := "SPONSOR" } rfl
  ⟨(h.1 (by decide)).1, h.2.2.1 (by decide)⟩

end service

namespace middleware

/-! ## Cleanup and live windows -/

theorem RateLimiter.call_decision (rl : RateLimiter) (c : LimiterCall) :
    rl.call c =
      ((c.decision (rl.counters c.apiKey.ID)).1,
       (rl.write c.apiKey.ID (c.decision (rl.counters c.apiKey.ID)).2).cleanupLocked c.now) := by
  cases c with
  | Allow apiKey now =>
    simp only [RateLimiter.call, LimiterCall.apiKey, LimiterCall.now, LimiterCall.decision,
      RateLimiter.Allow]
    cases rl.counters apiKey.ID with
    | none => rfl
    | some w =>
      simp only
      split_ifs <;> rfl
  | Remaining apiKey now =>
    simp only [RateLimiter.call, LimiterCall.apiKey, LimiterCall.now, LimiterCall.decision,
      RateLimiter.Remaining]
    cases rl.counters apiKey.ID with
    | none => rfl
    | some w =>
      simp only
      split_ifs <;> rfl

theorem RateLimiter.callNoCleanup_decision (rl : RateLimiter) (c : LimiterCall) :
    rl.callNoCleanup c =
      ((c.decision (rl.counters c.apiKey.ID)).1,
       rl.write c.apiKey.ID (c.decision (rl.counters c.apiKey.ID)).2) := by
  cases c with
  | Allow apiKey now =>
    simp only [RateLimiter.callNoCleanup, LimiterCall.apiKey, LimiterCall.decision,
      RateLimiter.AllowNoCleanup]
    cases rl.counters apiKey.ID with
    | none => rfl
    | some w =>
      simp only
      split_ifs <;> rfl
  | Remaining apiKey now =>
    simp only [RateLimiter.callNoCleanup, LimiterCall.apiKey, LimiterCall.decision,
      RateLimiter.RemainingNoCleanup]
    cases rl.counters apiKey.ID with
    | none => rfl
    | some w =>
      simp only
      split_ifs <;> rfl

/-- A window that has ended counts like no window. -/
theorem LimiterCall.decision_expired (c : LimiterCall) (w : window)
    (h : w.resetAt < c.now) : c.decision (some w) = c.decision none := by
  cases c with
  | Allow apiKey now =>
    simp only [LimiterCall.now] at h
    simp only [LimiterCall.decision, if_pos (show (now : Int) > w.resetAt from h)]
  | Remaining apiKey now =>
    simp only [LimiterCall.now] at h
    simp only [LimiterCall.decision, if_pos (show (now : Int) > w.resetAt from h)]

/-- The entry a call stores was last seen at the call, and its window is a new
one of the key's length or the window of the entry it replaces. -/
theorem LimiterCall.decision_entry {c : LimiterCall} {entry : Option window} {w' : window}
    (h : (c.decision entry).2 = some w') :
    w'.lastSeen = c.now ∧
      (w'.resetAt = c.now + stellar.int64 (c.apiKey.RateLimitWindow * time.Second) ∨
        ∃ w, entry = some w ∧ w'.resetAt = w.resetAt) := by
  cases c with
  | Allow apiKey now =>
    cases entry with
    | none =>
      simp only [LimiterCall.decision, Option.some.injEq] at h
      subst h
      exact ⟨rfl, Or.inl rfl⟩
    | some w =>
      simp only [LimiterCall.decision] at h
      split_ifs at h
      · simp only [Option.some.injEq] at h
        subst h
        exact ⟨rfl, Or.inl rfl⟩
      · simp only [Option.some.injEq] at h
        subst h
        exact ⟨rfl, Or.inr ⟨w, rfl, rfl⟩⟩
      · simp only [Option.some.injEq] at h
        subst h
        exact ⟨rfl, Or.inr ⟨w, rfl, rfl⟩⟩
  | Remaining apiKey now =>
    cases entry with
    | none => simp [LimiterCall.decision] at h
    | some w =>
      simp only [LimiterCall.decision] at h
      split_ifs at h
      · simp only [Option.some.injEq] at h
        subst h
        exact ⟨rfl, Or.inr ⟨w, rfl, rfl⟩⟩
      · simp only [Option.some.injEq] at h
        subst h
        exact ⟨rfl, Or.inr ⟨w, rfl, rfl⟩⟩

theorem RateLimiter.write_same (rl : RateLimiter) (k : String) (entry : Option window) :
    (rl.write k entry).counters k = match entry with
      | some w => some w
      | none => rl.counters k := by
  cases entry with
  | none => rfl
  | some w => exact RateLimiter.set_same rl k w

theorem RateLimiter.write_other (rl : RateLimiter) {k k' : String} (entry : Option window)
    (h : k' ≠ k) : (rl.write k entry).counters k' = rl.counters k' := by
  cases entry with
  | none => rfl
  | some w => exact RateLimiter.set_other rl w h

theorem RateLimiter.Fresh.later {rl : RateLimiter} {t t' : Int} (h : rl.Fresh t) (ht : t ≤ t') :
    rl.Fresh t' :=
  fun k w hk => ⟨le_trans (h k w hk).1 ht, (h k w hk).2⟩

theorem RateLimiter.Fresh.cleanup_fresh {rl : RateLimiter} {t : Int} (h : rl.Fresh t)
    (now : Int) : (rl.cleanupLocked now).Fresh t := by
  intro k w hk
  rcases RateLimiter.cleanupLocked_cases rl now k with hc | hc
  · rw [hc] at hk
    exact h k w hk
  · rw [hc] at hk
    cases hk

/-- A call at or after `t`, for a key whose window is at most a day long and
has a length in nanoseconds in the range of an `int64`, leaves every entry last
seen no later than the call and with a window that ends no later than 24 h
after it was last seen. -/
theorem RateLimiter.Fresh.write_fresh {rl : RateLimiter} {t : Int} (h : rl.Fresh t)
    (c : LimiterCall) (ht : t ≤ c.now) (hlo : -9223372036 ≤ c.apiKey.RateLimitWindow)
    (hwin : c.apiKey.RateLimitWindow ≤ 86400) :
    (rl.write c.apiKey.ID (c.decision (rl.counters c.apiKey.ID)).2).Fresh c.now := by
  intro k w hk
  by_cases hkey : k = c.apiKey.ID
  · rw [hkey, RateLimiter.write_same] at hk
    cases hd : (c.decision (rl.counters c.apiKey.ID)).2 with
    | none =>
      rw [hd] at hk
      exact (h.later ht) _ w hk
    | some w' =>
      rw [hd] at hk
      cases hk
      obtain ⟨hseen, hreset⟩ := LimiterCall.decision_entry hd
      refine ⟨le_of_eq hseen, ?_⟩
      rcases hreset with hr | ⟨w0, hw0, hr⟩
      · rw [hr, hseen, windowDuration_exact hlo (by omega), staleEntryTTL_eq, Second_eq]
        omega
      · have h0 := h _ w0 hw0
        rw [hr, hseen]
        omega
  · rw [RateLimiter.write_other _ _ hkey] at hk
    exact (h.later ht) k w hk

/-- An entry whose window has not ended is not evicted, whenever its window
ends no later than 24 h after it was last seen. -/
theorem RateLimiter.Fresh.live_kept {rl : RateLimiter} {t : Int} (h : rl.Fresh t) (now : Int)
    {k : String} {w : window} (hk : rl.counters k = some w) (hlive : now ≤ w.resetAt) :
    (rl.cleanupLocked now).counters k = some w := by
  apply RateLimiter.cleanupLocked_keep hk
  rw [Bool.eq_false_iff]
  intro hev
  rw [window_evicted_iff, expiredWindowGrace_eq] at hev
  have h0 := (h k w hk).2
  omega

/-- An entry that is evicted has a window that ended before the cleanup. -/
theorem RateLimiter.Fresh.evicted_expired {rl : RateLimiter} {t : Int} (h : rl.Fresh t)
    {now : Int} {k : String} {w : window} (hk : rl.counters k = some w)
    (hgone : (rl.cleanupLocked now).counters k = none) : w.resetAt < now := by
  by_contra hlive
  rw [h.live_kept now hk (by omega)] at hgone
  cases hgone

theorem RateLimiter.Agrees.later_agrees {rl nc : RateLimiter} {t t' : Int} (h : rl.Agrees nc t)
    (ht : t ≤ t') : rl.Agrees nc t' := by
  intro k
  rcases h k with hk | ⟨hn, w, hw, hexp⟩
  · exact Or.inl hk
  · exact Or.inr ⟨hn, w, hw, by omega⟩

theorem RateLimiter.Agrees.cleanup_agrees {rl nc : RateLimiter} {now : Int}
    (h : rl.Agrees nc now) (hf : rl.Fresh now) : (rl.cleanupLocked now).Agrees nc now := by
  intro k
  rcases RateLimiter.cleanupLocked_cases rl now k with hc | hc
  · rw [hc]
    exact h k
  · cases hk : rl.counters k with
    | none =>
      rw [hc]
      rcases h k with he | hr
      · rw [hk] at he
        exact Or.inl he
      · exact Or.inr ⟨rfl, hr.2⟩
    | some w =>
      rcases h k with he | ⟨hn, _⟩
      · rw [hc]
        exact Or.inr ⟨rfl, w, by rw [← he, hk], hf.evicted_expired hk hc⟩
      · rw [hk] at hn
        cases hn

theorem RateLimiter.Agrees.write_agrees {rl nc : RateLimiter} {t : Int} (h : rl.Agrees nc t)
    (k : String) (entry : Option window) : (rl.write k entry).Agrees (nc.write k entry) t := by
  intro k'
  by_cases hk : k' = k
  · rw [hk, RateLimiter.write_same, RateLimiter.write_same]
    cases entry with
    | none => exact h k
    | some w => exact Or.inl rfl
  · rw [RateLimiter.write_other _ _ hk, RateLimiter.write_other _ _ hk]
    exact h k'

/-- The limiter and the limiter without cleanup decide a call alike. -/
theorem RateLimiter.Agrees.decision {rl nc : RateLimiter} {t : Int} (h : rl.Agrees nc t)
    (c : LimiterCall) (ht : t ≤ c.now) :
    c.decision (rl.counters c.apiKey.ID) = c.decision (nc.counters c.apiKey.ID) := by
  rcases h c.apiKey.ID with he | ⟨hn, w, hw, hexp⟩
  · rw [he]
  · rw [hn, hw, LimiterCall.decision_expired c w (by omega)]

/-- One call keeps the two limiters in agreement and returns the same result
from both. -/
theorem RateLimiter.Agrees.call {rl nc : RateLimiter} {t : Int} (h : rl.Agrees nc t)
    (hf : rl.Fresh t) (c : LimiterCall) (ht : t ≤ c.now)
    (hlo : -9223372036 ≤ c.apiKey.RateLimitWindow)
    (hwin : c.apiKey.RateLimitWindow ≤ 86400) :
    (rl.call c).1 = (nc.callNoCleanup c).1 ∧
      (rl.call c).2.Agrees (nc.callNoCleanup c).2 c.now ∧ (rl.call c).2.Fresh c.now := by
  have hd := h.decision c ht
  rw [RateLimiter.call_decision, RateLimiter.callNoCleanup_decision]
  refine ⟨by rw [hd], ?_, (hf.write_fresh c ht hlo hwin).cleanup_fresh _⟩
  simp only
  rw [← hd]
  exact ((h.later_agrees ht).write_agrees _ _).cleanup_agrees (hf.write_fresh c ht hlo hwin)

/-- A run of calls at non-decreasing clock readings keeps the two limiters in
agreement and returns the same results from both. -/
theorem RateLimiter.Agrees.run (calls : List LimiterCall) :
    ∀ (rl nc : RateLimiter) (t : Int), rl.Agrees nc t → rl.Fresh t →
      (∀ c ∈ calls, t ≤ c.now) →
      (calls.map LimiterCall.now).Pairwise (fun a b => a ≤ b) →
      (∀ c ∈ calls, -9223372036 ≤ c.apiKey.RateLimitWindow ∧
        c.apiKey.RateLimitWindow ≤ 86400) →
      (rl.run calls).1 = (nc.runNoCleanup calls).1 ∧ ∃ t', (rl.run calls).2.Fresh t' := by
  induction calls with
  | nil => intro rl nc t _ hf _ _ _; exact ⟨rfl, t, hf⟩
  | cons c rest ih =>
    intro rl nc t h hf ht hsorted hwin
    obtain ⟨hres, hagree, hfresh⟩ := h.call hf c (ht c (List.mem_cons_self _ _))
      (hwin c (List.mem_cons_self _ _)).1 (hwin c (List.mem_cons_self _ _)).2
    rw [List.map_cons, List.pairwise_cons] at hsorted
    obtain ⟨hrest, hf'⟩ := ih (rl.call c).2 (nc.callNoCleanup c).2 c.now hagree hfresh
      (fun c' hc' => by
        have := hsorted.1 c'.now (List.mem_map_of_mem _ hc')
        omega)
      hsorted.2 (fun c' hc' => hwin c' (List.mem_cons_of_mem _ hc'))
    refine ⟨?_, hf'⟩
    simp only [RateLimiter.run, RateLimiter.runNoCleanup, hres, hrest]

/-- C30. Rate-limiter cleanup never discards a live window: for every limiter
state reached from a new limiter through `Allow` and `Remaining` calls at
non-decreasing clock readings, with keys whose `rate_limit_window` is at most
86400 seconds and not below −9223372036 seconds (so that the length of the
window in nanoseconds is in the range of an `int64`; the middleware passes no
key with a window below one second to `Allow`), `cleanupLocked(now)` deletes no
entry with `now ≤ reset_at`; and the results of the calls, the triples of
`Allow` and the counts of `Remaining`, are those of a limiter that never runs
cleanup. -/
theorem RateLimiter.cleanup_keeps_live_windows (t0 : Nat) (calls : List LimiterCall)
    (htimes : (calls.map LimiterCall.now).Pairwise (fun a b => a ≤ b))
    (hwin : ∀ c ∈ calls, -9223372036 ≤ c.apiKey.RateLimitWindow ∧
      c.apiKey.RateLimitWindow ≤ 86400) :
    (∀ (now : Int) (k : String) (w : window),
      ((NewRateLimiter t0).run calls).2.counters k = some w → now ≤ w.resetAt →
      (((NewRateLimiter t0).run calls).2.cleanupLocked now).counters k = some w) ∧
    ((NewRateLimiter t0).run calls).1 = ((NewRateLimiter t0).runNoCleanup calls).1 := by
  have hagree : (NewRateLimiter t0).Agrees (NewRateLimiter t0) 0 := fun _ => Or.inl rfl
  have hfresh : (NewRateLimiter t0).Fresh 0 := by
    intro k w hk
    simp [NewRateLimiter] at hk
  obtain ⟨hres, t', hf⟩ := RateLimiter.Agrees.run calls _ _ 0 hagree hfresh
    (fun c _ => Int.natCast_nonneg _) htimes hwin
  exact ⟨fun now k w hk hlive => hf.live_kept now hk hlive, hres⟩

/-- Witness of C30: over a day of calls for one key, with a cleanup that comes
due after its first window has ended, the limiter returns what a limiter
without cleanup returns. -/
theorem RateLimiter.cleanup_keeps_live_windows_witness :
    ((NewRateLimiter 0).run callsOfDay).1 = ((NewRateLimiter 0).runNoCleanup callsOfDay).1 ∧
    (((NewRateLimiter 0).run callsOfDay).2.cleanupLocked 86805000000000).counters "key-1" =
      some { count := 1, windowStart := 86800000000000, resetAt := 86810000000000,
             lastSeen := 86800000000000 } :=
  have h := RateLimiter.cleanup_keeps_live_windows 0 callsOfDay (by decide) (by decide)
  ⟨h.2, h.1 86805000000000 "key-1" _ (by decide) (by decide)⟩

end middleware

